import Mathlib

/-!
FlowerApp: barcode-driven flower inventory and production tracking.

A shallow embedding of the transition logic of `src/src/App.jsx` (the persisted
variant, backed by a hosted relational store with a change feed) and of
`src/flower-inventory-app.jsx` (the in-memory demo).

Conventions of the embedding.

* JavaScript strings are `String`; JavaScript integers are `Int`/`Nat`.  A
  number read from text by `parseInt` is rounded to the nearest double
  (`toDouble`), so it is the integer of the text only below `2 ^ 53`; a result
  that is not a finite number (`NaN`, an infinity) is `none`.  Counters and
  clock readings stay far below `2 ^ 53` and are plain naturals.
* The hosted store is an explicit `Store` value.  Every call the code awaits
  takes the store's `Reply` as an argument: `Reply.error m` is the `error`
  object the code destructures, `Reply.ok id` is a call without error (for an
  insert, `id` is the primary key the server assigns to the new row).  A
  filtered update that is accepted rewrites every row matching the filter; when
  no row matches it changes nothing and is still a call without error.
* React state that an operation closes over (the local caches) is passed in as
  a `Client` value; the change feed is the list of `Event`s an operation's
  accepted writes give rise to.
-/

namespace FlowerApp

/-! ## JavaScript primitives -/

/-- Pieces of a character list cut at every occurrence of `sep`
(`String.prototype.split` with a one-character separator). -/
def splitChars (sep : Char) : List Char → List (List Char)
  | [] => [[]]
  | c :: cs =>
    if c = sep then [] :: splitChars sep cs
    else match splitChars sep cs with
      | [] => [[c]]
      | p :: ps => (c :: p) :: ps

/-- The call `s.split(sep)` for a one-character separator. -/
def split (s : String) (sep : Char) : List String :=
  (splitChars sep s.toList).map String.mk

/-- The call `s.toLowerCase()` on ASCII text, which is what the barcode grammar
prescribes: the letters `A` to `Z` become `a` to `z`.  Outside ASCII the call
also maps other letters; the theorems take the text to be ASCII where the
result matters. -/
def toLowerCase (s : String) : String :=
  String.mk (s.toList.map Char.toLower)

/-- White space and line terminators of JavaScript, which `parseInt` skips. -/
def isWhiteSpace (c : Char) : Bool :=
  c = ' ' || c = '\t' || c = '\n' || c = '\r' || c.toNat = 11 || c.toNat = 12 ||
  c.toNat = 160 || c.toNat = 5760 || (8192 ≤ c.toNat && c.toNat ≤ 8202) ||
  c.toNat = 8232 || c.toNat = 8233 || c.toNat = 8239 || c.toNat = 8287 ||
  c.toNat = 12288 || c.toNat = 65279

/-- Value of a digit of the given radix (10 or 16), if the character is one. -/
def digitOf (radix : Nat) (c : Char) : Option Nat :=
  if c.isDigit then some (c.toNat - 48)
  else if radix = 16 ∧ 'a'.toNat ≤ c.toNat ∧ c.toNat ≤ 'f'.toNat then some (c.toNat - 87)
  else if radix = 16 ∧ 'A'.toNat ≤ c.toNat ∧ c.toNat ≤ 'F'.toNat then some (c.toNat - 55)
  else none

/-- Value of the longest prefix of digits of the radix, `none` when that prefix
is empty.  `seen` tells whether a digit has been read, `acc` is their value. -/
def readDigits (radix : Nat) : List Char → Bool → Nat → Option Nat
  | [], seen, acc => if seen then some acc else none
  | c :: cs, seen, acc =>
    match digitOf radix c with
    | some d => readDigits radix cs true (acc * radix + d)
    | none => if seen then some acc else none

/-- After the sign: a `0x`/`0X` prefix selects radix 16, otherwise radix 10. -/
def readMagnitude : List Char → Option Nat
  | '0' :: 'x' :: cs => readDigits 16 cs false 0
  | '0' :: 'X' :: cs => readDigits 16 cs false 0
  | cs => readDigits 10 cs false 0

/-- The smallest `e` from `start` on, at most `start + fuel`, with
`n < 2 ^ (53 + e)`: the number of low bits of `n` a double cannot hold.  The
argument `bound` is `2 ^ (53 + start)`. -/
def excessBits (n : Nat) : Nat → Nat → Nat → Nat
  | 0, start, _ => start
  | fuel + 1, start, bound =>
    if n < bound then start else excessBits n fuel (start + 1) (2 * bound)

/-- The integer `n` with its `e` low bits rounded away, to the nearest multiple
of `2 ^ e` and to the even one of two nearest. -/
def roundBits (n e : Nat) : Nat :=
  let q := n / 2 ^ e
  let r := n % 2 ^ e
  let half := 2 ^ e / 2
  (if half < r ∨ (r = half ∧ q % 2 = 1) then q + 1 else q) * 2 ^ e

/-- The bound `2 ^ 1024`: a double is below it. -/
def doubleLimit : Nat := (2 ^ 128) ^ 8

/-- The JavaScript number for the natural number `n`: `n` itself below `2 ^ 53`,
above that the nearest double (ties to even), and `none` for an infinity, when
that double would not be below `2 ^ 1024`. -/
def toDouble (n : Nat) : Option Nat :=
  if n < 2 ^ 53 then some n
  else if doubleLimit ≤ n then none
  else
    let v := roundBits n (excessBits n 971 1 (2 ^ 54))
    if doubleLimit ≤ v then none else some v

/-- The call `parseInt(s)` without a radix: leading white space is skipped, an
optional sign is read, then the longest prefix of digits, whose value is turned
into a JavaScript number (the language fixes that number for up to 20
significant decimal digits and lets an engine approximate beyond them; the
nearest double is taken throughout).  The result `none` is a result that is not
a finite number: `NaN` when there is no digit, or an infinity; a row field
holding either is written to the store as `null`. -/
def parseInt (s : String) : Option Int :=
  match s.toList.dropWhile isWhiteSpace with
  | '-' :: cs => ((readMagnitude cs).bind toDouble).map (fun n => - (n : Int))
  | '+' :: cs => ((readMagnitude cs).bind toDouble).map (fun n => (n : Int))
  | cs => ((readMagnitude cs).bind toDouble).map (fun n => (n : Int))

/-- A number inside a template literal: its decimal text. -/
def numberToString (n : Nat) : String := Nat.repr n

/-- Value of a list of decimal digits, most significant first. -/
def decimalValue (acc : Nat) (xs : List Char) : Nat :=
  xs.foldl (fun a c => a * 10 + ((digitOf 10 c).getD 0)) acc

/-- The call `s.padStart(targetLength, pad)` with a one-character pad. -/
def padStart (s : String) (targetLength : Nat) (pad : Char) : String :=
  String.mk (List.replicate (targetLength - s.toList.length) pad ++ s.toList)

/-- The call `s.trim()`: white space and line terminators removed at both ends. -/
def trim (s : String) : String :=
  String.mk (((s.toList.dropWhile isWhiteSpace).reverse.dropWhile isWhiteSpace).reverse)

/-- The property `s.length`: the number of UTF-16 code units of the text. -/
def jsLength (s : String) : Nat :=
  (s.toList.map (fun c => if c.toNat < 65536 then 1 else 2)).sum

/-- Whether the characters `sub` stand at the start of `s`. -/
def startsWithChars : List Char → List Char → Bool
  | [], _ => true
  | _ :: _, [] => false
  | a :: as, c :: cs => a = c && startsWithChars as cs

/-- Whether the characters `sub` occur in `s` as a contiguous run. -/
def includesChars (sub : List Char) : List Char → Bool
  | [] => startsWithChars sub []
  | c :: cs => startsWithChars sub (c :: cs) || includesChars sub cs

/-- The call `s.includes(sub)`. -/
def includes (s sub : String) : Bool :=
  includesChars sub.toList s.toList

/-! ## Data model: rows of the hosted store -/

/-- Row of table `inventory`. -/
structure Box where
  id : Nat
  box_id : String
  flower_type : String
  color : String
  quantity : Option Int
  unit : String
  location : String
  updated_by : String
  deriving DecidableEq

/-- Row of table `production_lines`. -/
structure Line where
  id : Nat
  name : String
  status : String
  active_recipe_id : Option String
  produced_count : Nat
  deriving DecidableEq

/-- Row of table `production_line_items`. -/
structure LineItem where
  id : Nat
  line_id : Nat
  box_id : String
  assigned_by : String
  deriving DecidableEq

/-- Row of table `produced_bunches`. -/
structure Bunch where
  id : Nat
  bunch_id : String
  recipe_name : String
  line_id : Nat
  produced_by : String
  status : String
  deriving DecidableEq

/-- One flower requirement of a recipe. -/
structure Flower where
  type : String
  color : String
  quantity : Option Int
  deriving DecidableEq

/-- Row of table `recipes`. -/
structure Recipe where
  id : Nat
  recipe_id : String
  name : String
  flowers : List Flower
  created_by : String
  deriving DecidableEq

/-- A metadata value of an activity entry: text or a number. -/
inductive Value where
  | str (s : String)
  | num (n : Nat)
  deriving DecidableEq

/-- Row of table `activity_log`. -/
structure Activity where
  action_type : String
  description : String
  user_email : String
  metadata : List (String × Value)
  deriving DecidableEq

/-- The hosted store: one list of rows per table. -/
structure Store where
  inventory : List Box
  production_lines : List Line
  recipes : List Recipe
  produced_bunches : List Bunch
  production_line_items : List LineItem
  activity_log : List Activity
  deriving DecidableEq

/-- What the store answers to one awaited call. -/
inductive Reply where
  | ok (id : Nat)
  | error (message : String)
  deriving DecidableEq

/-! ## Change feed and local caches -/

/-- Payload of a change event on a table with rows of type `α`. -/
inductive Payload (α : Type) where
  | INSERT (new : α)
  | UPDATE (new : α)
  | DELETE (old : α)
  deriving DecidableEq

/-- A change event, tagged with the table it is about. -/
inductive Event where
  | inventory (p : Payload Box)
  | production_lines (p : Payload Line)
  | recipes (p : Payload Recipe)
  | produced_bunches (p : Payload Bunch)
  | production_line_items (p : Payload LineItem)
  deriving DecidableEq

/-- The React state holding the local caches. -/
structure Client where
  inventory : List Box
  productionLines : List Line
  recipes : List Recipe
  producedBunches : List Bunch
  lineItems : List LineItem
  deriving DecidableEq

/-- Handler of the subscription to `inventory`. -/
def onInventory (prev : List Box) : Payload Box → List Box
  | .INSERT new => new :: prev
  | .UPDATE new => prev.map (fun item => if item.id = new.id then new else item)
  | .DELETE old => prev.filter (fun item => item.id ≠ old.id)

/-- Handler of the subscription to `production_lines`: only UPDATE is handled. -/
def onProductionLines (prev : List Line) : Payload Line → List Line
  | .UPDATE new => prev.map (fun line => if line.id = new.id then new else line)
  | _ => prev

/-- Handler of the subscription to `recipes`. -/
def onRecipes (prev : List Recipe) : Payload Recipe → List Recipe
  | .INSERT new => new :: prev
  | .UPDATE new => prev.map (fun recipe => if recipe.id = new.id then new else recipe)
  | .DELETE old => prev.filter (fun recipe => recipe.id ≠ old.id)

/-- Handler of the subscription to `produced_bunches`: only INSERT is handled. -/
def onProducedBunches (prev : List Bunch) : Payload Bunch → List Bunch
  | .INSERT new => new :: prev
  | _ => prev

/-- Handler of the subscription to `production_line_items`. -/
def onLineItems (prev : List LineItem) : Payload LineItem → List LineItem
  | .INSERT new => prev ++ [new]
  | .DELETE old => prev.filter (fun item => item.id ≠ old.id)
  | .UPDATE _ => prev

/-- One change event applied to the local caches (`setupRealtimeSubscriptions`). -/
def applyEvent (c : Client) : Event → Client
  | .inventory p => { c with inventory := onInventory c.inventory p }
  | .production_lines p => { c with productionLines := onProductionLines c.productionLines p }
  | .recipes p => { c with recipes := onRecipes c.recipes p }
  | .produced_bunches p => { c with producedBunches := onProducedBunches c.producedBunches p }
  | .production_line_items p => { c with lineItems := onLineItems c.lineItems p }

/-- The events of a feed applied in the order of their arrival. -/
def reconcile (c : Client) (events : List Event) : Client :=
  events.foldl applyEvent c

/-! ## Store calls -/

/-- Rows after an accepted `update(...).eq(...)`: every row matching the
filter is rewritten. -/
def updateWhere {α : Type} (rows : List α) (p : α → Bool) (f : α → α) : List α :=
  rows.map (fun r => if p r then f r else r)

/-- New images of the rows an accepted filtered update has rewritten. -/
def updatedRows {α : Type} (rows : List α) (p : α → Bool) (f : α → α) : List α :=
  (rows.filter p).map f

/-- What an operation leaves behind: the store, the change events of its
accepted writes, and the messages shown to the user. -/
structure Outcome where
  store : Store
  events : List Event
  alerts : List String
  deriving DecidableEq

/-- The function `logActivity`: one insert into `activity_log`, whose reply is
not inspected. -/
def logActivity (user_email : String) (s : Store) (actionType description : String)
    (metadata : List (String × Value)) (r : Reply) : Store :=
  match r with
  | .ok _ =>
    { s with activity_log := s.activity_log ++
        [{ action_type := actionType, description := description,
           user_email := user_email, metadata := metadata }] }
  | .error _ => s

/-! ## Operations of the persisted variant -/

/-- The function `addToInventory`: `now` is the reading of `Date.now()`, `r` the
reply to the insert into `inventory`, `rl` the reply to the activity insert. -/
def addToInventory (user_email : String) (now : Nat) (s : Store) (barcode : String)
    (r rl : Reply) : Outcome :=
  let parts := split barcode '|'
  if parts.length ≠ 4 then
    ⟨s, [], ["Invalid barcode format. Expected: TYPE|COLOR|QUANTITY|UNIT"]⟩
  else
    let type := parts.getD 0 ""
    let color := parts.getD 1 ""
    let quantity := parts.getD 2 ""
    let unit := parts.getD 3 ""
    match r with
    | .error message => ⟨s, [], ["Error adding to inventory: " ++ message]⟩
    | .ok id =>
      let row : Box :=
        { id := id
          box_id := "BOX" ++ numberToString now
          flower_type := type
          color := color
          quantity := parseInt quantity
          unit := toLowerCase unit
          location := "inventory"
          updated_by := user_email }
      let s1 := { s with inventory := s.inventory ++ [row] }
      ⟨logActivity user_email s1 "ADD_INVENTORY"
          ("Added " ++ type ++ " " ++ color ++ " to inventory")
          [("barcode", .str barcode)] rl,
        [.inventory (.INSERT row)],
        ["✓ Added " ++ type ++ " - " ++ color ++ " to inventory!"]⟩

/-- The function `checkoutBox`: `r` is the reply to the filtered update of
`inventory`, `rl` the reply to the activity insert. -/
def checkoutBox (user_email : String) (s : Store) (boxId : String) (r rl : Reply) : Outcome :=
  match r with
  | .error message => ⟨s, [], ["Box not found or error: " ++ message]⟩
  | .ok _ =>
    let p := fun (b : Box) => decide (b.box_id = boxId)
    let f := fun (b : Box) => { b with location := "checked-out", updated_by := user_email }
    let s1 := { s with inventory := updateWhere s.inventory p f }
    ⟨logActivity user_email s1 "CHECKOUT" ("Checked out box " ++ boxId)
        [("boxId", .str boxId)] rl,
      (updatedRows s.inventory p f).map (fun b => .inventory (.UPDATE b)),
      ["✓ Box " ++ boxId ++ " checked out!"]⟩

/-- The function `assignToLine`: `r1` replies to the update of `inventory`,
`r2` to the insert into `production_line_items`, `r3` to the update of
`production_lines` (not inspected), `rl` to the activity insert. -/
def assignToLine (user_email : String) (s : Store) (boxId : String) (lineId : Nat)
    (r1 r2 r3 rl : Reply) : Outcome :=
  match r1 with
  | .error message => ⟨s, [], ["Box not found: " ++ message]⟩
  | .ok _ =>
    let p := fun (b : Box) => decide (b.box_id = boxId)
    let f := fun (b : Box) =>
      { b with location := "line-" ++ numberToString lineId, updated_by := user_email }
    let s1 := { s with inventory := updateWhere s.inventory p f }
    let ev1 : List Event := (updatedRows s.inventory p f).map (fun b => .inventory (.UPDATE b))
    match r2 with
    | .error message => ⟨s1, ev1, ["Error assigning to line: " ++ message]⟩
    | .ok id =>
      let item : LineItem :=
        { id := id, line_id := lineId, box_id := boxId, assigned_by := user_email }
      let s2 := { s1 with production_line_items := s1.production_line_items ++ [item] }
      let ev2 : List Event := ev1 ++ [.production_line_items (.INSERT item)]
      let q := fun (l : Line) => decide (l.id = lineId)
      let g := fun (l : Line) => { l with status := "active" }
      let s3 := match r3 with
        | .ok _ => { s2 with production_lines := updateWhere s2.production_lines q g }
        | .error _ => s2
      let ev3 : List Event := match r3 with
        | .ok _ => ev2 ++ (updatedRows s2.production_lines q g).map
            (fun l => .production_lines (.UPDATE l))
        | .error _ => ev2
      ⟨logActivity user_email s3 "ASSIGN_TO_LINE"
          ("Assigned box " ++ boxId ++ " to Line " ++ numberToString lineId)
          [("boxId", .str boxId), ("lineId", .num lineId)] rl,
        ev3,
        ["✓ Box " ++ boxId ++ " assigned to Line " ++ numberToString lineId ++ "!"]⟩

/-- The expression `line?.active_recipe_id || 'Unknown'`: the empty string is
falsy as well. -/
def recipeNameOf (line : Option Line) : String :=
  match line.bind (fun l => l.active_recipe_id) with
  | some name => if name = "" then "Unknown" else name
  | none => "Unknown"

/-- The expression `(line?.produced_count || 0) + 1`. -/
def nextCount (line : Option Line) : Nat :=
  (match line.map (fun l => l.produced_count) with
   | some n => if n = 0 then 0 else n
   | none => 0) + 1

/-- The function `completeBunch`: the line is read from the local cache
`productionLines`; `r1` replies to the insert into `produced_bunches`, `r2` to
the update of `production_lines` (not inspected), `rl` to the activity insert. -/
def completeBunch (user_email : String) (productionLines : List Line) (s : Store)
    (bunchBarcode : String) (lineId : Nat) (r1 r2 rl : Reply) : Outcome :=
  let line := productionLines.find? (fun l => decide (l.id = lineId))
  match r1 with
  | .error message => ⟨s, [], ["Error recording bunch: " ++ message]⟩
  | .ok id =>
    let bunch : Bunch :=
      { id := id
        bunch_id := bunchBarcode
        recipe_name := recipeNameOf line
        line_id := lineId
        produced_by := user_email
        status := "completed" }
    let s1 := { s with produced_bunches := s.produced_bunches ++ [bunch] }
    let ev1 : List Event := [.produced_bunches (.INSERT bunch)]
    let q := fun (l : Line) => decide (l.id = lineId)
    let g := fun (l : Line) => { l with produced_count := nextCount line }
    let s2 := match r2 with
      | .ok _ => { s1 with production_lines := updateWhere s1.production_lines q g }
      | .error _ => s1
    let ev2 : List Event := match r2 with
      | .ok _ => ev1 ++ (updatedRows s1.production_lines q g).map
          (fun l => .production_lines (.UPDATE l))
      | .error _ => ev1
    ⟨logActivity user_email s2 "COMPLETE_BUNCH"
        ("Completed bunch " ++ bunchBarcode ++ " on Line " ++ numberToString lineId)
        [("bunchBarcode", .str bunchBarcode), ("lineId", .num lineId)] rl,
      ev2,
      ["✓ Bunch " ++ bunchBarcode ++ " completed on Line " ++ numberToString lineId ++ "!"]⟩

/-- One flower line of the recipe form: the three inputs hold text. -/
structure FlowerForm where
  id : Nat
  type : String
  color : String
  quantity : String
  deriving DecidableEq

/-- The React state `newRecipe`: the recipe form. -/
structure RecipeForm where
  name : String
  flowers : List FlowerForm
  deriving DecidableEq

/-- What `saveRecipe` leaves behind: the store, the change events, the messages
shown, and the two pieces of React state it may set. -/
structure RecipeOutcome where
  store : Store
  events : List Event
  alerts : List String
  showRecipeModal : Bool
  newRecipe : RecipeForm
  deriving DecidableEq

/-- The function `saveRecipe`: `recipes` is the local cache of recipes, `now`
the reading of `Date.now()`, `r` the reply to the insert into `recipes`, `rl`
the reply to the activity insert. -/
def saveRecipe (user_email : String) (now : Nat) (recipes : List Recipe)
    (showRecipeModal : Bool) (newRecipe : RecipeForm) (s : Store) (r rl : Reply) :
    RecipeOutcome :=
  if trim newRecipe.name = "" then
    ⟨s, [], ["Please enter a recipe name"], showRecipeModal, newRecipe⟩
  else
    let validFlowers := newRecipe.flowers.filter
      (fun f => decide (f.type ≠ "") && decide (f.color ≠ "") && decide (f.quantity ≠ ""))
    if validFlowers.length = 0 then
      ⟨s, [], ["Please add at least one flower"], showRecipeModal, newRecipe⟩
    else
      let recipeId := "R" ++ padStart (numberToString (recipes.length + 1)) 3 '0'
      match r with
      | .error message =>
        ⟨s, [], ["Error creating recipe: " ++ message], showRecipeModal, newRecipe⟩
      | .ok id =>
        let row : Recipe :=
          { id := id
            recipe_id := recipeId
            name := newRecipe.name
            flowers := validFlowers.map
              (fun f => { type := f.type, color := f.color, quantity := parseInt f.quantity })
            created_by := user_email }
        let s1 := { s with recipes := s.recipes ++ [row] }
        ⟨logActivity user_email s1 "CREATE_RECIPE" ("Created recipe: " ++ newRecipe.name)
            [("recipeId", .str recipeId), ("name", .str newRecipe.name)] rl,
          [.recipes (.INSERT row)],
          ["✓ Recipe \"" ++ newRecipe.name ++ "\" created!"],
          false,
          { name := "", flowers := [{ id := now, type := "", color := "", quantity := "" }] }⟩

/-- A store with no row in any table. -/
def emptyStore : Store := ⟨[], [], [], [], [], []⟩

/-! ## Serialized scans of the persisted variant -/

/-- A client together with the store it talks to. -/
structure World where
  store : Store
  client : Client
  deriving DecidableEq

/-- One output scan: the bunch token and the store's replies to the three
calls of `completeBunch`. -/
structure OutputScan where
  bunchBarcode : String
  r1 : Reply
  r2 : Reply
  rl : Reply
  deriving DecidableEq

/-- Whether the store accepted both writes of the scan. -/
def OutputScan.accepted (k : OutputScan) : Bool :=
  (match k.r1 with | .ok _ => true | .error _ => false) &&
  (match k.r2 with | .ok _ => true | .error _ => false)

/-- One `completeBunch` call followed by the reconciliation of the local caches
with the change events of that call. -/
def completeBunchStep (user_email : String) (lineId : Nat) (w : World) (k : OutputScan) : World :=
  let o := completeBunch user_email w.client.productionLines w.store k.bunchBarcode lineId
    k.r1 k.r2 k.rl
  ⟨o.store, reconcile w.client o.events⟩

/-- Serialized `completeBunch` calls on one line: each call is made after the
caches have been reconciled with the previous call. -/
def completeBunchSerialized (user_email : String) (lineId : Nat) (w : World)
    (scans : List OutputScan) : World :=
  scans.foldl (completeBunchStep user_email lineId) w

/-! ## The in-memory demo (`src/flower-inventory-app.jsx`) -/

/-- An inventory record of the demo; `date` is the clock reading the ISO
timestamp is made from. -/
structure DemoBox where
  id : String
  type : String
  color : String
  quantity : Nat
  unit : String
  location : String
  date : Nat
  deriving DecidableEq

/-- A production line of the demo; an item is a box id, or `none` for
`undefined`. -/
structure DemoLine where
  id : Nat
  name : String
  status : String
  recipe : Option String
  items : List (Option String)
  produced : Nat
  deriving DecidableEq

/-- A produced bunch of the demo. -/
structure DemoBunch where
  id : String
  recipe : String
  line : Nat
  timestamp : Nat
  status : String
  deriving DecidableEq

/-- The React state of the demo that `simulateScan` reads and writes. -/
structure DemoState where
  inventory : List DemoBox
  productionLines : List DemoLine
  producedBunches : List DemoBunch
  deriving DecidableEq

/-- Truthiness of `selectedLine`: `null` and `0` are falsy. -/
def truthyLine : Option Nat → Option Nat
  | some 0 => none
  | some n => some n
  | none => none

/-- The function `simulateScan` of the demo, at clock reading `now`.  The result
is `none` when the function throws (the `output` branch reads `line.recipe` of a
line that `find` did not return). -/
def simulateScan (now : Nat) (st : DemoState) (scanMode : Option String)
    (selectedLine : Option Nat) : Option DemoState :=
  let firstInInventory : Option String :=
    (st.inventory.find? (fun item => decide (item.location = "inventory"))).map (fun b => b.id)
  if scanMode = some "inventory" then
    some { st with inventory := st.inventory ++
      [{ id := "BOX" ++ padStart (numberToString (st.inventory.length + 1)) 3 '0'
         type := "Roses", color := "Pink", quantity := 180, unit := "stems"
         location := "inventory", date := now }] }
  else if scanMode = some "checkout" then
    let scannedData := firstInInventory
    some { st with inventory := st.inventory.map (fun item =>
      if some item.id = scannedData then { item with location := "checked-out", date := now }
      else item) }
  else
    match scanMode, truthyLine selectedLine with
    | some "line", some selected =>
      let scannedData := firstInInventory
      some { st with
        inventory := st.inventory.map (fun item =>
          if some item.id = scannedData then
            { item with location := "line-" ++ numberToString selected, date := now }
          else item)
        productionLines := st.productionLines.map (fun line =>
          if line.id = selected then
            { line with items := line.items ++ [scannedData], status := "active" }
          else line) }
    | some "output", some selected =>
      let scannedData := "BUN" ++ padStart (numberToString (st.producedBunches.length + 1)) 3 '0'
      match st.productionLines.find? (fun l => decide (l.id = selected)) with
      | none => none
      | some line =>
        some { st with
          producedBunches := st.producedBunches ++
            [{ id := scannedData
               recipe := (match line.recipe with
                 | some r => if r = "" then "Unknown" else r
                 | none => "Unknown")
               line := selected, timestamp := now, status := "completed" }]
          productionLines := st.productionLines.map (fun l =>
            if l.id = selected then { l with produced := l.produced + 1 } else l) }
    | _, _ => some st

/-- The state the demo starts in. -/
def demoInitial (now : Nat) : DemoState :=
  { inventory :=
      [⟨"BOX001", "Roses", "Red", 200, "stems", "inventory", now⟩,
       ⟨"BOX002", "Tulips", "Yellow", 150, "stems", "inventory", now⟩,
       ⟨"BOX003", "Lilies", "White", 100, "stems", "line-1", now⟩]
    productionLines := (List.range 10).map (fun i =>
      { id := i + 1
        name := "Line " ++ numberToString (i + 1)
        status := if i = 0 then "active" else "idle"
        recipe := if i = 0 then some "Spring Mix" else none
        items := if i = 0 then [some "BOX003"] else []
        produced := if i = 0 then 15 else 0 })
    producedBunches := [⟨"BUN001", "Spring Mix", 1, now, "completed"⟩] }

/-! ## Sample states -/

/-- A store with two boxes in inventory and three lines. -/
def sampleStore : Store :=
  { inventory :=
      [⟨1, "BOX1700000000000", "ROSES", "RED", some 200, "stems", "inventory",
          "worker@farm.example"⟩,
       ⟨2, "BOX1700000000500", "TULIPS", "YELLOW", some 150, "stems", "inventory",
          "worker@farm.example"⟩]
    production_lines :=
      [⟨1, "Line 1", "idle", none, 0⟩,
       ⟨2, "Line 2", "idle", none, 0⟩,
       ⟨3, "Line 3", "idle", some "Spring Mix", 15⟩]
    recipes := []
    produced_bunches := []
    production_line_items := []
    activity_log := [] }

/-- The caches of a client that has loaded `sampleStore`: boxes newest first,
lines by ascending id. -/
def sampleClient : Client :=
  { inventory := sampleStore.inventory.reverse
    productionLines := sampleStore.production_lines
    recipes := []
    producedBunches := []
    lineItems := [] }

/-- A line cache that has fallen behind `sampleStore`: it still holds the count
2 for line 3. -/
def staleLines : List Line :=
  [⟨1, "Line 1", "idle", none, 0⟩,
   ⟨2, "Line 2", "idle", none, 0⟩,
   ⟨3, "Line 3", "idle", some "Spring Mix", 2⟩]

/-! ## Runs of the demo -/

/-- One press of the scan button of the demo: the clock reading and the scan
state set by `startCamera`. -/
structure DemoScan where
  now : Nat
  scanMode : Option String
  selectedLine : Option Nat
  deriving DecidableEq

/-- The state after one simulated scan; a scan that throws sets no state. -/
def demoStep (st : DemoState) (k : DemoScan) : DemoState :=
  (simulateScan k.now st k.scanMode k.selectedLine).getD st

/-- The state after a sequence of simulated scans. -/
def demoRun (st : DemoState) (scans : List DemoScan) : DemoState :=
  scans.foldl demoStep st

/-! ## Identity (`src/src/supabaseClient.js`, `handleAuth`) -/

/-- The classes of characters the email pattern tells apart: white space,
`@`, `.`, and every other character. -/
inductive CharKind where
  | space
  | at
  | dot
  | other
  deriving DecidableEq

/-- The class of a character. -/
def charKind (c : Char) : CharKind :=
  if isWhiteSpace c then .space
  else if c = '@' then .at
  else if c = '.' then .dot
  else .other

/-- The character class `[^\s@]`: a dot or any other character that is neither
white space nor `@`. -/
def notSpaceAt : RegularExpression CharKind :=
  RegularExpression.char CharKind.dot + RegularExpression.char CharKind.other

/-- The pattern `/^[^\s@]+@[^\s@]+\.[^\s@]+$/` over character classes; `x+` is
`x` followed by `x*`, the anchors make it a match of the whole text. -/
def emailRegex : RegularExpression CharKind :=
  (notSpaceAt * RegularExpression.star notSpaceAt) *
  (RegularExpression.char CharKind.at *
    ((notSpaceAt * RegularExpression.star notSpaceAt) *
      (RegularExpression.char CharKind.dot *
        (notSpaceAt * RegularExpression.star notSpaceAt))))

/-- The function `isAllowedEmail`: `emailRegex.test(email)`. -/
def isAllowedEmail (email : String) : Bool :=
  emailRegex.rmatch (email.toList.map charKind)

/-- A request that reaches the identity backend. -/
inductive AuthRequest where
  | signUp (email password : String)
  | signInWithPassword (email password : String)
  deriving DecidableEq

/-- A call of one of the two helpers of `supabaseClient.js`. -/
inductive AuthCall where
  | signUp (email password : String)
  | signIn (email password : String)
  deriving DecidableEq

/-- The helper `signUp`: the error it returns (`none` for no error) and the
requests it sends; `backend` is the error the identity backend answers with. -/
def signUp (email password : String) (backend : Option String) :
    Option String × List AuthRequest :=
  if isAllowedEmail email = false then (some "Please enter a valid email address", [])
  else (backend, [.signUp email password])

/-- The helper `signIn`, likewise. -/
def signIn (email password : String) (backend : Option String) :
    Option String × List AuthRequest :=
  if isAllowedEmail email = false then (some "Please enter a valid email address", [])
  else (backend, [.signInWithPassword email password])

/-- The React state of the sign-in form. -/
structure AuthState where
  authMode : String
  email : String
  password : String
  authError : String
  deriving DecidableEq

/-- What `handleAuth` leaves behind: the form state, the helper calls made, the
requests sent to the identity backend and the messages shown. -/
structure AuthOutcome where
  state : AuthState
  calls : List AuthCall
  requests : List AuthRequest
  alerts : List String
  deriving DecidableEq

/-- The function `handleAuth`; `backend` is the error the identity backend
would answer with (`none` for no error). -/
def handleAuth (st : AuthState) (backend : Option String) : AuthOutcome :=
  let st0 := { st with authError := "" }
  if jsLength st.password < 6 then
    ⟨{ st0 with authError := "Password must be at least 6 characters" }, [], [], []⟩
  else
    let result :=
      if st.authMode = "signin" then signIn st.email st.password backend
      else signUp st.email st.password backend
    let calls : List AuthCall :=
      if st.authMode = "signin" then [.signIn st.email st.password]
      else [.signUp st.email st.password]
    match result.1 with
    | some message =>
      if includes message "Invalid login credentials" then
        ⟨{ st0 with authError := "Invalid email or password" }, calls, result.2, []⟩
      else if includes message "User already registered" then
        ⟨{ st0 with authError := "This email is already registered. Please sign in."
                    authMode := "signin" }, calls, result.2, []⟩
      else
        ⟨{ st0 with authError := message }, calls, result.2, []⟩
    | none =>
      if st.authMode = "signup" then
        ⟨{ st0 with authMode := "signin", password := "" }, calls, result.2,
          ["Account created successfully! Please check your email to verify your account, then sign in."]⟩
      else
        ⟨st0, calls, result.2, []⟩

/-! ## Lemmas on the string primitives -/

theorem splitChars_ne_nil (sep : Char) (cs : List Char) : splitChars sep cs ≠ [] := by
  induction cs with
  | nil => simp [splitChars]
  | cons c cs ih =>
    unfold splitChars
    split
    · simp
    · split <;> simp

theorem splitChars_of_not_mem (sep : Char) (a : List Char) (h : sep ∉ a) :
    splitChars sep a = [a] := by
  induction a with
  | nil => simp [splitChars]
  | cons c cs ih =>
    have hc : c ≠ sep := fun e => h (by simp [e])
    have hcs : sep ∉ cs := fun e => h (by simp [e])
    simp [splitChars, hc, ih hcs]

theorem splitChars_append_sep (sep : Char) (a rest : List Char) (h : sep ∉ a) :
    splitChars sep (a ++ sep :: rest) = a :: splitChars sep rest := by
  induction a with
  | nil => simp [splitChars]
  | cons c cs ih =>
    have hc : c ≠ sep := fun e => h (by simp [e])
    have hcs : sep ∉ cs := fun e => h (by simp [e])
    simp [splitChars, hc, ih hcs]

theorem split_four (T C Q U : String) (hT : '|' ∉ T.toList) (hC : '|' ∉ C.toList)
    (hQ : '|' ∉ Q.toList) (hU : '|' ∉ U.toList) :
    split (T ++ "|" ++ C ++ "|" ++ Q ++ "|" ++ U) '|' = [T, C, Q, U] := by
  have e : (T ++ "|" ++ C ++ "|" ++ Q ++ "|" ++ U).toList
      = T.toList ++ '|' :: (C.toList ++ '|' :: (Q.toList ++ '|' :: U.toList)) := by
    simp [String.toList]
  unfold split
  rw [e, splitChars_append_sep _ _ _ hT, splitChars_append_sep _ _ _ hC,
    splitChars_append_sep _ _ _ hQ, splitChars_of_not_mem _ _ hU]
  rfl

/-- The ten decimal digit characters: what `parseInt` and the separators make of them. -/
theorem digitChar_facts (k : Nat) (hk : k < 10) :
    digitOf 10 (Nat.digitChar k) = some k ∧ isWhiteSpace (Nat.digitChar k) = false ∧
    Nat.digitChar k ≠ '|' ∧ Nat.digitChar k ≠ '-' ∧ Nat.digitChar k ≠ '+' ∧
    Nat.digitChar k ≠ 'x' ∧ Nat.digitChar k ≠ 'X' := by
  interval_cases k <;> decide

theorem toDigitsCore_append (fuel n : Nat) (acc : List Char) :
    Nat.toDigitsCore 10 fuel n acc = Nat.toDigitsCore 10 fuel n [] ++ acc := by
  induction fuel generalizing n acc with
  | zero => simp [Nat.toDigitsCore]
  | succ fuel ih =>
    simp only [Nat.toDigitsCore]
    split
    · simp
    · rw [ih _ (_ :: acc), ih _ [_]]
      simp

theorem toDigitsCore_digits (fuel n : Nat) :
    ∀ c ∈ Nat.toDigitsCore 10 fuel n [], ∃ k, k < 10 ∧ c = Nat.digitChar k := by
  induction fuel generalizing n with
  | zero => simp [Nat.toDigitsCore]
  | succ fuel ih =>
    intro c hc
    simp only [Nat.toDigitsCore] at hc
    split at hc
    · simp at hc
      exact ⟨n % 10, Nat.mod_lt _ (by decide), hc⟩
    · rw [toDigitsCore_append] at hc
      simp at hc
      rcases hc with hc | hc
      · exact ih _ c hc
      · exact ⟨n % 10, Nat.mod_lt _ (by decide), hc⟩

theorem toDigitsCore_value (fuel n : Nat) (h : n < fuel) :
    decimalValue 0 (Nat.toDigitsCore 10 fuel n []) = n ∧ Nat.toDigitsCore 10 fuel n [] ≠ [] := by
  induction fuel generalizing n with
  | zero => omega
  | succ fuel ih =>
    simp only [Nat.toDigitsCore]
    split
    · rename_i h0
      have hn : n % 10 = n := by omega
      have := (digitChar_facts (n % 10) (Nat.mod_lt _ (by decide))).1
      rw [hn] at this ⊢
      simp [decimalValue, this]
    · rename_i h0
      rw [toDigitsCore_append]
      have hlt : n / 10 < fuel := by omega
      have hd := (digitChar_facts (n % 10) (Nat.mod_lt _ (by decide))).1
      have hv := (ih (n / 10) hlt).1
      unfold decimalValue at hv ⊢
      rw [List.foldl_append, hv]
      simp [hd]
      omega

theorem readDigits_digits (xs ys : List Char) (seen : Bool) (acc : Nat)
    (h : ∀ c ∈ xs, ∃ k, k < 10 ∧ c = Nat.digitChar k) :
    readDigits 10 (xs ++ ys) seen acc
      = readDigits 10 ys (seen || !xs.isEmpty) (decimalValue acc xs) := by
  induction xs generalizing seen acc with
  | nil => simp [decimalValue]
  | cons c cs ih =>
    obtain ⟨k, hk, rfl⟩ := h _ (List.mem_cons_self _ _)
    have hd := (digitChar_facts k hk).1
    have hcs : ∀ c ∈ cs, ∃ k, k < 10 ∧ c = Nat.digitChar k :=
      fun c hc => h c (List.mem_cons_of_mem _ hc)
    have step : readDigits 10 (Nat.digitChar k :: (cs ++ ys)) seen acc
        = readDigits 10 (cs ++ ys) true (acc * 10 + k) := by
      simp only [readDigits, hd]
    rw [List.cons_append, step, ih _ _ hcs]
    simp [decimalValue, hd]

theorem readMagnitude_digits (xs : List Char)
    (h : ∀ c ∈ xs, ∃ k, k < 10 ∧ c = Nat.digitChar k) :
    readMagnitude xs = readDigits 10 xs false 0 := by
  unfold readMagnitude
  split
  · obtain ⟨k, hk, e⟩ := h 'x' (by simp)
    exact absurd e.symm (digitChar_facts k hk).2.2.2.2.2.1
  · obtain ⟨k, hk, e⟩ := h 'X' (by simp)
    exact absurd e.symm (digitChar_facts k hk).2.2.2.2.2.2
  · rfl

/-- The digits of the decimal text of a natural number read back as that
number. -/
theorem readMagnitude_numberToString (n : Nat) :
    readMagnitude (numberToString n).toList = some n := by
  have hdig := toDigitsCore_digits (n + 1) n
  obtain ⟨hval, _⟩ := toDigitsCore_value (n + 1) n (Nat.lt_succ_self n)
  have hlist : (numberToString n).toList = Nat.toDigitsCore 10 (n + 1) n [] := rfl
  rw [hlist, readMagnitude_digits _ hdig]
  have := readDigits_digits (Nat.toDigitsCore 10 (n + 1) n []) [] false 0 hdig
  simp only [List.append_nil] at this
  rw [this, hval]
  have hne := (toDigitsCore_value (n + 1) n (Nat.lt_succ_self n)).2
  cases hds : Nat.toDigitsCore 10 (n + 1) n [] with
  | nil => exact absurd hds hne
  | cons c cs => simp [readDigits]

/-- The decimal text of a natural number parses to the JavaScript number for
it: the nearest double. -/
theorem parseInt_numberToString_double (n : Nat) :
    parseInt (numberToString n) = (toDouble n).map (fun v => (v : Int)) := by
  have hdig := toDigitsCore_digits (n + 1) n
  obtain ⟨_, hne⟩ := toDigitsCore_value (n + 1) n (Nat.lt_succ_self n)
  have hmag := readMagnitude_numberToString n
  have hlist : (numberToString n).toList = Nat.toDigitsCore 10 (n + 1) n [] := rfl
  unfold parseInt
  rw [hlist] at hmag ⊢
  generalize Nat.toDigitsCore 10 (n + 1) n [] = ds at hdig hne hmag
  match ds, hne with
  | c :: cs, _ =>
    obtain ⟨k, hk, hc⟩ := hdig c (List.mem_cons_self _ _)
    obtain ⟨-, hws, -, hminus, hplus, -, -⟩ := digitChar_facts k hk
    have hdrop : List.dropWhile isWhiteSpace (c :: cs) = c :: cs := by
      simp [List.dropWhile, hc, hws]
    rw [hdrop]
    split
    · rename_i e
      simp at e
      exact absurd (hc.symm.trans e.1) hminus
    · rename_i e
      simp at e
      exact absurd (hc.symm.trans e.1) hplus
    · rw [hmag]; rfl

/-- Below `2 ^ 53` the decimal text of a natural number parses back to that
number. -/
theorem parseInt_numberToString (n : Nat) (h : n < 2 ^ 53) :
    parseInt (numberToString n) = some (n : Int) := by
  rw [parseInt_numberToString_double]
  unfold toDouble
  rw [if_pos h]
  rfl

/-- No character of a number's decimal text is the field separator. -/
theorem numberToString_no_sep (n : Nat) : '|' ∉ (numberToString n).toList := by
  intro h
  have hlist : (numberToString n).toList = Nat.toDigitsCore 10 (n + 1) n [] := rfl
  rw [hlist] at h
  obtain ⟨k, hk, e⟩ := toDigitsCore_digits (n + 1) n _ h
  exact (digitChar_facts k hk).2.2.1 e.symm

theorem numberToString_injective (a b : Nat) (h : numberToString a = numberToString b) :
    a = b := by
  have ha := readMagnitude_numberToString a
  rw [h, readMagnitude_numberToString b] at ha
  exact (Option.some.inj ha).symm

theorem box_id_injective (a b : Nat)
    (h : "BOX" ++ numberToString a = "BOX" ++ numberToString b) : a = b := by
  apply numberToString_injective
  have h2 := congrArg String.data h
  simp only [String.data_append, List.append_cancel_left_eq] at h2
  exact String.ext h2

/-- What `addToInventory` does with a barcode of exactly four fields. -/
theorem addToInventory_of_split (user_email : String) (now : Nat) (s : Store)
    (barcode T C Q U : String) (r rl : Reply) (h : split barcode '|' = [T, C, Q, U]) :
    addToInventory user_email now s barcode r rl =
      match r with
      | .error message => ⟨s, [], ["Error adding to inventory: " ++ message]⟩
      | .ok id =>
        ⟨logActivity user_email
            { s with inventory := s.inventory ++
                [{ id := id, box_id := "BOX" ++ numberToString now, flower_type := T, color := C,
                   quantity := parseInt Q, unit := toLowerCase U, location := "inventory",
                   updated_by := user_email }] }
            "ADD_INVENTORY" ("Added " ++ T ++ " " ++ C ++ " to inventory")
            [("barcode", .str barcode)] rl,
          [.inventory (.INSERT
            { id := id, box_id := "BOX" ++ numberToString now, flower_type := T, color := C,
              quantity := parseInt Q, unit := toLowerCase U, location := "inventory",
              updated_by := user_email })],
          ["✓ Added " ++ T ++ " - " ++ C ++ " to inventory!"]⟩ := by
  cases r <;> simp [addToInventory, h]

theorem logActivity_inventory (user_email : String) (s : Store) (a d : String)
    (m : List (String × Value)) (r : Reply) :
    (logActivity user_email s a d m r).inventory = s.inventory := by
  cases r <;> rfl

/-! ## Intake of a box -/

/-- On an ASCII character the lower-case mapping leaves no upper-case letter
and changes nothing but the case. -/
theorem toLower_ascii_code : ∀ k, k < 128 →
    (Char.ofNat k).toLower.isUpper = false ∧
      (Char.ofNat k).toLower.toUpper = (Char.ofNat k).toUpper := by
  decide

theorem toLower_ascii (c : Char) (h : c.toNat < 128) :
    c.toLower.isUpper = false ∧ c.toLower.toUpper = c.toUpper := by
  have := toLower_ascii_code c.toNat h
  rwa [Char.ofNat_toNat] at this

/-- On ASCII text `toLowerCase` leaves no upper-case letter. -/
theorem toLowerCase_ascii_no_upper (U : String) (h : ∀ c ∈ U.toList, c.toNat < 128) :
    ∀ c ∈ (toLowerCase U).toList, c.isUpper = false := by
  intro c hc
  have hlist : (toLowerCase U).toList = U.toList.map Char.toLower := rfl
  rw [hlist, List.mem_map] at hc
  obtain ⟨d, hd, rfl⟩ := hc
  exact (toLower_ascii d (h d hd)).1

/-- On ASCII text `toLowerCase` changes nothing but the case of letters. -/
theorem toLowerCase_ascii_same_letters (U : String) (h : ∀ c ∈ U.toList, c.toNat < 128) :
    (toLowerCase U).toList.map Char.toUpper = U.toList.map Char.toUpper := by
  have hlist : (toLowerCase U).toList = U.toList.map Char.toLower := rfl
  rw [hlist, List.map_map]
  apply List.map_congr_left
  intro d hd
  exact (toLower_ascii d (h d hd)).2

/-- C1, as stated, fails: the token `ROSES|RED|9007199254740993|STEMS` has four
fields and its `Q` is the decimal text of the integer `9007199254740993 ≥ 1`,
and the store accepts the insert, yet the Box that `addToInventory` inserts has
quantity `9007199254740992`: `parseInt` yields the nearest double, not `Q`. -/
theorem addToInventory_large_quantity_counterexample :
    numberToString 9007199254740993 = "9007199254740993" ∧
    (addToInventory "worker@farm.example" 1700000000000 emptyStore
        "ROSES|RED|9007199254740993|STEMS" (.ok 1) (.ok 2)).store.inventory
      = [{ id := 1, box_id := "BOX1700000000000", flower_type := "ROSES", color := "RED",
           quantity := some 9007199254740992, unit := "stems", location := "inventory",
           updated_by := "worker@farm.example" }] ∧
    (some 9007199254740992 : Option Int) ≠ some 9007199254740993 := by
  decide

/-- C1, amended: for every token `T|C|Q|U` whose fields hold no separator, whose
`U` is ASCII text and whose `Q` is the decimal text of an integer `n` with
`1 ≤ n < 2 ^ 53`, `addToInventory`, when the store accepts the insert, adds
exactly one Box to `inventory`: its location is `inventory`, its quantity is
`n`, its flower type is `T`, its color is `C` and its unit is `U` in lower
case, that is, text with no upper-case letter that differs from `U` in case
only; the change feed carries that one INSERT. -/
theorem addToInventory_valid_token (user_email : String) (now : Nat) (s : Store)
    (T C U : String) (n id : Nat) (rl : Reply)
    (hT : '|' ∉ T.toList) (hC : '|' ∉ C.toList) (hU : '|' ∉ U.toList)
    (hascii : ∀ c ∈ U.toList, c.toNat < 128) (_hn : 1 ≤ n) (hsafe : n < 2 ^ 53) :
    (addToInventory user_email now s
        (T ++ "|" ++ C ++ "|" ++ numberToString n ++ "|" ++ U) (.ok id) rl).store.inventory
      = s.inventory ++
          [{ id := id, box_id := "BOX" ++ numberToString now, flower_type := T, color := C,
             quantity := some (n : Int), unit := toLowerCase U, location := "inventory",
             updated_by := user_email }] ∧
    (addToInventory user_email now s
        (T ++ "|" ++ C ++ "|" ++ numberToString n ++ "|" ++ U) (.ok id) rl).events
      = [.inventory (.INSERT
          { id := id, box_id := "BOX" ++ numberToString now, flower_type := T, color := C,
            quantity := some (n : Int), unit := toLowerCase U, location := "inventory",
            updated_by := user_email })] ∧
    (∀ c ∈ (toLowerCase U).toList, c.isUpper = false) ∧
    (toLowerCase U).toList.map Char.toUpper = U.toList.map Char.toUpper := by
  have hsplit := split_four T C (numberToString n) U hT hC (numberToString_no_sep n) hU
  rw [addToInventory_of_split user_email now s _ T C (numberToString n) U (.ok id) rl hsplit]
  refine ⟨?_, ?_, toLowerCase_ascii_no_upper U hascii, toLowerCase_ascii_same_letters U hascii⟩
  · simp [logActivity_inventory, parseInt_numberToString n hsafe]
  · simp [logActivity_inventory, parseInt_numberToString n hsafe]

theorem addToInventory_valid_token_witness :
    ('|' ∉ "LILIES".toList ∧ '|' ∉ "WHITE".toList ∧ '|' ∉ "STEMS".toList ∧
      (∀ c ∈ "STEMS".toList, c.toNat < 128) ∧ 1 ≤ 100 ∧ 100 < 2 ^ 53) ∧
    (addToInventory "worker@farm.example" 1700000000000 emptyStore
        ("LILIES" ++ "|" ++ "WHITE" ++ "|" ++ numberToString 100 ++ "|" ++ "STEMS")
        (.ok 7) (.ok 8)).store.inventory
      = emptyStore.inventory ++
          [{ id := 7, box_id := "BOX" ++ numberToString 1700000000000, flower_type := "LILIES",
             color := "WHITE", quantity := some ((100 : Nat) : Int), unit := toLowerCase "STEMS",
             location := "inventory", updated_by := "worker@farm.example" }] ∧
    (addToInventory "worker@farm.example" 1700000000000 emptyStore
        ("LILIES" ++ "|" ++ "WHITE" ++ "|" ++ numberToString 100 ++ "|" ++ "STEMS")
        (.ok 7) (.ok 8)).events
      = [.inventory (.INSERT
          { id := 7, box_id := "BOX" ++ numberToString 1700000000000, flower_type := "LILIES",
            color := "WHITE", quantity := some ((100 : Nat) : Int), unit := toLowerCase "STEMS",
            location := "inventory", updated_by := "worker@farm.example" })] ∧
    (∀ c ∈ (toLowerCase "STEMS").toList, c.isUpper = false) ∧
    (toLowerCase "STEMS").toList.map Char.toUpper = "STEMS".toList.map Char.toUpper :=
  ⟨by decide, addToInventory_valid_token "worker@farm.example" 1700000000000 emptyStore
    "LILIES" "WHITE" "STEMS" 100 7 (.ok 8) (by decide) (by decide) (by decide) (by decide)
    (by decide) (by decide)⟩

/-- C2: for every token whose number of pipe-separated fields is not 4,
`addToInventory` stops at the format check whatever the store would answer: the
store is left as it was (no Box, no activity entry), no change event arises and
the user is shown the format error. -/
theorem addToInventory_wrong_field_count (user_email : String) (now : Nat) (s : Store)
    (barcode : String) (r rl : Reply) (h : (split barcode '|').length ≠ 4) :
    addToInventory user_email now s barcode r rl
      = ⟨s, [], ["Invalid barcode format. Expected: TYPE|COLOR|QUANTITY|UNIT"]⟩ := by
  simp [addToInventory, h]

theorem addToInventory_wrong_field_count_witness :
    (split "ROSES|RED|200" '|').length ≠ 4 ∧
    addToInventory "worker@farm.example" 1700000000000 emptyStore "ROSES|RED|200" (.ok 1) (.ok 2)
      = ⟨emptyStore, [], ["Invalid barcode format. Expected: TYPE|COLOR|QUANTITY|UNIT"]⟩ :=
  ⟨by decide, addToInventory_wrong_field_count "worker@farm.example" 1700000000000 emptyStore
    "ROSES|RED|200" (.ok 1) (.ok 2) (by decide)⟩

/-- C3, as stated, fails: the token `ROSES|RED|12abc|STEMS` has four fields and
a QUANTITY that is not the decimal text of an integer, yet with a store that
accepts the insert `addToInventory` persists a Box of quantity 12, appends an
ADD_INVENTORY entry and reports success. -/
theorem addToInventory_quantity_unchecked_counterexample :
    split "ROSES|RED|12abc|STEMS" '|' = ["ROSES", "RED", "12abc", "STEMS"] ∧
    addToInventory "worker@farm.example" 1700000000000 emptyStore "ROSES|RED|12abc|STEMS"
        (.ok 1) (.ok 2)
      = ⟨{ emptyStore with
            inventory := [⟨1, "BOX1700000000000", "ROSES", "RED", some 12, "stems", "inventory",
              "worker@farm.example"⟩]
            activity_log := [⟨"ADD_INVENTORY", "Added ROSES RED to inventory",
              "worker@farm.example", [("barcode", .str "ROSES|RED|12abc|STEMS")]⟩] },
          [.inventory (.INSERT ⟨1, "BOX1700000000000", "ROSES", "RED", some 12, "stems",
              "inventory", "worker@farm.example"⟩)],
          ["✓ Added ROSES - RED to inventory!"]⟩ := by
  decide

/-- C3, amended: on a token with exactly four fields `addToInventory` does not
validate QUANTITY.  When the store accepts the insert, one Box is added whose
quantity is `parseInt` of the field (12 for `12abc`, 0 for `0`, -5 for `-5`,
NaN for `abc` and for the empty text) and the activity entry is issued; the
operation performs zero writes exactly when the store rejects the insert. -/
theorem addToInventory_four_fields (user_email : String) (now : Nat) (s : Store)
    (barcode T C Q U : String) (rl : Reply) (h : split barcode '|' = [T, C, Q, U]) :
    (∀ id, (addToInventory user_email now s barcode (.ok id) rl).store
        = logActivity user_email
            { s with inventory := s.inventory ++
                [{ id := id, box_id := "BOX" ++ numberToString now, flower_type := T, color := C,
                   quantity := parseInt Q, unit := toLowerCase U, location := "inventory",
                   updated_by := user_email }] }
            "ADD_INVENTORY" ("Added " ++ T ++ " " ++ C ++ " to inventory")
            [("barcode", .str barcode)] rl) ∧
    (∀ message, addToInventory user_email now s barcode (.error message) rl
        = ⟨s, [], ["Error adding to inventory: " ++ message]⟩) ∧
    parseInt "12abc" = some 12 ∧ parseInt "0" = some 0 ∧ parseInt "-5" = some (-5) ∧
    parseInt "abc" = none ∧ parseInt "" = none := by
  refine ⟨fun id => ?_, fun message => ?_, by decide, by decide, by decide, by decide, by decide⟩
  · rw [addToInventory_of_split user_email now s barcode T C Q U (.ok id) rl h]
  · rw [addToInventory_of_split user_email now s barcode T C Q U (.error message) rl h]

theorem addToInventory_four_fields_witness :
    split "ROSES|RED|0|STEMS" '|' = ["ROSES", "RED", "0", "STEMS"] ∧
    ((∀ id, (addToInventory "worker@farm.example" 5 emptyStore "ROSES|RED|0|STEMS"
          (.ok id) (.ok 2)).store
        = logActivity "worker@farm.example"
            { emptyStore with inventory := emptyStore.inventory ++
                [{ id := id, box_id := "BOX" ++ numberToString 5, flower_type := "ROSES",
                   color := "RED", quantity := parseInt "0", unit := toLowerCase "STEMS",
                   location := "inventory", updated_by := "worker@farm.example" }] }
            "ADD_INVENTORY" ("Added " ++ "ROSES" ++ " " ++ "RED" ++ " to inventory")
            [("barcode", .str "ROSES|RED|0|STEMS")] (.ok 2)) ∧
    (∀ message, addToInventory "worker@farm.example" 5 emptyStore "ROSES|RED|0|STEMS"
          (.error message) (.ok 2)
        = ⟨emptyStore, [], ["Error adding to inventory: " ++ message]⟩) ∧
    parseInt "12abc" = some 12 ∧ parseInt "0" = some 0 ∧ parseInt "-5" = some (-5) ∧
    parseInt "abc" = none ∧ parseInt "" = none) :=
  ⟨by decide, addToInventory_four_fields "worker@farm.example" 5 emptyStore "ROSES|RED|0|STEMS"
    "ROSES" "RED" "0" "STEMS" (.ok 2) (by decide)⟩

/-- C4, as stated, fails: two accepted intakes made at the same clock reading
get the same box id. -/
theorem addToInventory_box_id_clash_counterexample :
    (addToInventory "worker@farm.example" 1700000000000
        (addToInventory "worker@farm.example" 1700000000000 emptyStore "ROSES|RED|200|STEMS"
          (.ok 1) (.ok 1)).store
        "TULIPS|YELLOW|150|STEMS" (.ok 2) (.ok 2)).store.inventory.map Box.box_id
      = ["BOX1700000000000", "BOX1700000000000"] := by
  decide

/-- C4, amended: the box id of an accepted intake is `BOX` followed by the
decimal reading of the clock at the call.  It differs from the box id of every
Box of the store whose id was made from a different clock reading, so two
accepted intakes made at different clock readings get different box ids. -/
theorem addToInventory_box_id_fresh (user_email : String) (now : Nat) (s : Store)
    (barcode : String) (id : Nat) (rl : Reply) (h4 : (split barcode '|').length = 4)
    (hs : ∀ b ∈ s.inventory, ∃ t, t ≠ now ∧ b.box_id = "BOX" ++ numberToString t) :
    ∃ row : Box,
      (addToInventory user_email now s barcode (.ok id) rl).store.inventory
        = s.inventory ++ [row] ∧
      row.box_id = "BOX" ++ numberToString now ∧
      (∀ b ∈ s.inventory, b.box_id ≠ row.box_id) ∧
      (∀ (user2 barcode2 : String) (now2 id2 : Nat) (rl2 : Reply),
        (split barcode2 '|').length = 4 → now2 ≠ now →
        ∃ row2 : Box,
          (addToInventory user2 now2
              (addToInventory user_email now s barcode (.ok id) rl).store barcode2 (.ok id2)
              rl2).store.inventory = s.inventory ++ [row, row2] ∧
          row2.box_id ≠ row.box_id) := by
  have four : ∀ b : String, (split b '|').length = 4 →
      ∃ T C Q U, split b '|' = [T, C, Q, U] := by
    intro b hb
    match hl : split b '|', hb with
    | [T, C, Q, U], _ => exact ⟨T, C, Q, U, rfl⟩
  obtain ⟨T, C, Q, U, hsp⟩ := four barcode h4
  refine ⟨{ id := id, box_id := "BOX" ++ numberToString now, flower_type := T, color := C,
            quantity := parseInt Q, unit := toLowerCase U, location := "inventory",
            updated_by := user_email }, ?_, rfl, ?_, ?_⟩
  · rw [addToInventory_of_split user_email now s barcode T C Q U (.ok id) rl hsp]
    simp [logActivity_inventory]
  · intro b hb e
    obtain ⟨t, ht, hbt⟩ := hs b hb
    rw [hbt] at e
    exact ht (box_id_injective _ _ e)
  · intro user2 barcode2 now2 id2 rl2 h42 hne
    obtain ⟨T2, C2, Q2, U2, hsp2⟩ := four barcode2 h42
    refine ⟨{ id := id2, box_id := "BOX" ++ numberToString now2, flower_type := T2,
              color := C2, quantity := parseInt Q2, unit := toLowerCase U2,
              location := "inventory", updated_by := user2 }, ?_, ?_⟩
    · rw [addToInventory_of_split user2 now2 _ barcode2 T2 C2 Q2 U2 (.ok id2) rl2 hsp2,
        addToInventory_of_split user_email now s barcode T C Q U (.ok id) rl hsp]
      simp [logActivity_inventory]
    · intro e
      exact hne (box_id_injective _ _ e)

theorem addToInventory_box_id_fresh_witness :
    ∃ row : Box,
      (addToInventory "worker@farm.example" 1700000000001
          { emptyStore with inventory := [⟨1, "BOX1700000000000", "ROSES", "RED", some 200,
              "stems", "inventory", "worker@farm.example"⟩] }
          "TULIPS|YELLOW|150|STEMS" (.ok 2) (.ok 3)).store.inventory
        = [⟨1, "BOX1700000000000", "ROSES", "RED", some 200, "stems", "inventory",
              "worker@farm.example"⟩] ++ [row] ∧
      row.box_id = "BOX" ++ numberToString 1700000000001 :=
  have h := addToInventory_box_id_fresh "worker@farm.example" 1700000000001
    { emptyStore with inventory := [⟨1, "BOX1700000000000", "ROSES", "RED", some 200,
        "stems", "inventory", "worker@farm.example"⟩] }
    "TULIPS|YELLOW|150|STEMS" 2 (.ok 3) (by decide)
    (by
      intro b hb
      refine ⟨1700000000000, by decide, ?_⟩
      simp only [emptyStore, List.mem_singleton] at hb
      rw [hb]
      decide)
  h.elim fun row hrow => ⟨row, hrow.1, hrow.2.1⟩

/-- C5, as stated, fails: the Box persisted for `ROSES|RED|200|STEMS` keeps the
type and color as scanned, `ROSES` and `RED`; no persisted Box has type `Roses`
and color `Red`. -/
theorem addToInventory_roses_counterexample :
    (addToInventory "worker@farm.example" 1700000000000 emptyStore "ROSES|RED|200|STEMS"
        (.ok 1) (.ok 2)).store.inventory
      = [⟨1, "BOX1700000000000", "ROSES", "RED", some 200, "stems", "inventory",
          "worker@farm.example"⟩] ∧
    ¬ ∃ b ∈ (addToInventory "worker@farm.example" 1700000000000 emptyStore
        "ROSES|RED|200|STEMS" (.ok 1) (.ok 2)).store.inventory,
        b.flower_type = "Roses" ∧ b.color = "Red" := by
  decide

/-- C5, amended: `addToInventory` on the intake token `ROSES|RED|200|STEMS`,
when the store accepts the insert, persists a Box with type `ROSES` and color
`RED` (both as scanned), quantity 200, unit `stems` and location `inventory`. -/
theorem addToInventory_roses (user_email : String) (now : Nat) (s : Store) (id : Nat)
    (rl : Reply) :
    (addToInventory user_email now s "ROSES|RED|200|STEMS" (.ok id) rl).store.inventory
      = s.inventory ++
          [{ id := id, box_id := "BOX" ++ numberToString now, flower_type := "ROSES",
             color := "RED", quantity := some 200, unit := "stems", location := "inventory",
             updated_by := user_email }] := by
  have hsp : split "ROSES|RED|200|STEMS" '|' = ["ROSES", "RED", "200", "STEMS"] := by decide
  have hq : parseInt "200" = some 200 := by decide
  have hu : toLowerCase "STEMS" = "stems" := by decide
  rw [addToInventory_of_split user_email now s _ "ROSES" "RED" "200" "STEMS" (.ok id) rl hsp]
  simp [logActivity_inventory, hq, hu]

/-! ## Reconciliation of the caches with a filtered update -/

/-- Replaying the UPDATE events of a filtered update on a cache whose rows are
rows of the table, when the table's keys are unique, rewrites the cache the way
the update rewrote the table. -/
theorem foldl_replace_updated {α : Type} [DecidableEq α] (key : α → Nat) (rows cs : List α)
    (p : α → Bool) (f : α → α) (hf : ∀ x, key (f x) = key x)
    (huniq : ∀ x ∈ rows, ∀ y ∈ rows, key x = key y → x = y)
    (hsub : ∀ x ∈ cs, x ∈ rows) :
    (updatedRows rows p f).foldl
        (fun acc new => acc.map (fun x => if key x = key new then new else x)) cs
      = updateWhere cs p f := by
  have main : ∀ us : List α, (∀ u ∈ us, u ∈ rows) →
      (us.map f).foldl
          (fun acc new => acc.map (fun x => if key x = key new then new else x)) cs
        = cs.map (fun x => if x ∈ us then f x else x) := by
    intro us
    induction us using List.reverseRecOn with
    | nil => intro _; simp
    | append_singleton us u ih =>
      intro hus
      have hu : u ∈ rows := hus u (by simp)
      rw [List.map_append, List.foldl_append, ih (fun v hv => hus v (by simp [hv]))]
      simp only [List.map_cons, List.map_nil, List.foldl_cons, List.foldl_nil, List.map_map]
      apply List.map_congr_left
      intro x hx
      have hkey : key (if x ∈ us then f x else x) = key x := by
        split <;> simp [hf]
      simp only [Function.comp, hkey, hf]
      by_cases hk : key x = key u
      · have hxu : x = u := huniq x (hsub x hx) u hu hk
        subst hxu
        simp
      · have hxu : x ≠ u := fun e => hk (by rw [e])
        simp [hk, hxu]
  unfold updatedRows updateWhere
  rw [main _ (fun u hu => (List.mem_filter.mp hu).1)]
  apply List.map_congr_left
  intro x hx
  simp [List.mem_filter, hsub x hx]

theorem reconcile_append (c : Client) (a b : List Event) :
    reconcile c (a ++ b) = reconcile (reconcile c a) b := by
  simp [reconcile, List.foldl_append]

theorem reconcile_inventory_updates (c : Client) (us : List Box) :
    reconcile c (us.map (fun b => Event.inventory (.UPDATE b)))
      = { c with
          inventory := List.foldl
            (fun acc new => acc.map (fun x => if x.id = new.id then new else x)) c.inventory us } := by
  induction us generalizing c with
  | nil => rfl
  | cons u us ih =>
    simp only [List.map_cons, reconcile, List.foldl_cons] at ih ⊢
    rw [ih]
    rfl

theorem reconcile_line_updates (c : Client) (us : List Line) :
    reconcile c (us.map (fun l => Event.production_lines (.UPDATE l)))
      = { c with
          productionLines := List.foldl
            (fun acc new => acc.map (fun x => if x.id = new.id then new else x))
            c.productionLines us } := by
  induction us generalizing c with
  | nil => rfl
  | cons u us ih =>
    simp only [List.map_cons, reconcile, List.foldl_cons] at ih ⊢
    rw [ih]
    rfl

/-- The caches after the feed of a filtered update of `inventory`. -/
theorem reconcile_inventory_update (c : Client) (rows : List Box) (p : Box → Bool)
    (f : Box → Box) (hf : ∀ x, (f x).id = x.id)
    (huniq : ∀ x ∈ rows, ∀ y ∈ rows, x.id = y.id → x = y)
    (hsub : ∀ x ∈ c.inventory, x ∈ rows) :
    reconcile c ((updatedRows rows p f).map (fun b => Event.inventory (.UPDATE b)))
      = { c with inventory := updateWhere c.inventory p f } := by
  rw [reconcile_inventory_updates, foldl_replace_updated Box.id rows c.inventory p f hf huniq hsub]

/-- The caches after the feed of a filtered update of `production_lines`. -/
theorem reconcile_line_update (c : Client) (rows : List Line) (p : Line → Bool)
    (f : Line → Line) (hf : ∀ x, (f x).id = x.id)
    (huniq : ∀ x ∈ rows, ∀ y ∈ rows, x.id = y.id → x = y)
    (hsub : ∀ x ∈ c.productionLines, x ∈ rows) :
    reconcile c ((updatedRows rows p f).map (fun l => Event.production_lines (.UPDATE l)))
      = { c with productionLines := updateWhere c.productionLines p f } := by
  rw [reconcile_line_updates,
    foldl_replace_updated Line.id rows c.productionLines p f hf huniq hsub]


/-! ## Assignment of a box to a line -/

theorem logActivity_tables (user_email : String) (s : Store) (a d : String)
    (m : List (String × Value)) (r : Reply) :
    (logActivity user_email s a d m r).inventory = s.inventory ∧
    (logActivity user_email s a d m r).production_lines = s.production_lines ∧
    (logActivity user_email s a d m r).recipes = s.recipes ∧
    (logActivity user_email s a d m r).produced_bunches = s.produced_bunches ∧
    (logActivity user_email s a d m r).production_line_items = s.production_line_items := by
  cases r <;> simp [logActivity]

/-- The tables and the feed left by an `assignToLine` whose three writes the
store accepts. -/
theorem assignToLine_accepted (user_email : String) (s : Store) (boxId : String)
    (L i1 i2 i3 : Nat) (rl : Reply) :
    (assignToLine user_email s boxId L (.ok i1) (.ok i2) (.ok i3) rl).store.inventory
      = updateWhere s.inventory (fun b => decide (b.box_id = boxId))
          (fun b => { b with location := "line-" ++ numberToString L,
                             updated_by := user_email }) ∧
    (assignToLine user_email s boxId L (.ok i1) (.ok i2) (.ok i3) rl).store.production_line_items
      = s.production_line_items ++ [⟨i2, L, boxId, user_email⟩] ∧
    (assignToLine user_email s boxId L (.ok i1) (.ok i2) (.ok i3) rl).store.production_lines
      = updateWhere s.production_lines (fun l => decide (l.id = L))
          (fun l => { l with status := "active" }) ∧
    (assignToLine user_email s boxId L (.ok i1) (.ok i2) (.ok i3) rl).events
      = (updatedRows s.inventory (fun b => decide (b.box_id = boxId))
          (fun b => { b with location := "line-" ++ numberToString L,
                             updated_by := user_email })).map
            (fun b => Event.inventory (.UPDATE b))
        ++ [Event.production_line_items (.INSERT ⟨i2, L, boxId, user_email⟩)]
        ++ (updatedRows s.production_lines (fun l => decide (l.id = L))
          (fun l => { l with status := "active" })).map
            (fun l => Event.production_lines (.UPDATE l)) := by
  simp [assignToLine, logActivity_tables]

/-- C6: let box `b` and line `L` be cached rows of a store whose primary keys
are unique and whose rows the caches hold.  After an `assignToLine` on
`b.box_id` and `L` whose writes the store accepts, and after the change events
of the call have been applied to the caches: the row of `b` has location
`line-L` in the store and in the cache, exactly one LineAssignment row, for
line `L` and box `b.box_id`, has been added to the store and to the cache, and
the row of line `L` has status `active` in the store and in the cache. -/
theorem assignToLine_reconciled (user_email : String) (s : Store) (c : Client) (b : Box)
    (L i1 i2 i3 : Nat) (rl : Reply)
    (hb : b ∈ c.inventory) (hline : ∃ l ∈ c.productionLines, l.id = L)
    (hci : ∀ x ∈ c.inventory, x ∈ s.inventory)
    (hcl : ∀ l ∈ c.productionLines, l ∈ s.production_lines)
    (hbox_ids : ∀ x ∈ s.inventory, ∀ y ∈ s.inventory, x.id = y.id → x = y)
    (hline_ids : ∀ x ∈ s.production_lines, ∀ y ∈ s.production_lines, x.id = y.id → x = y) :
    ({ b with location := "line-" ++ numberToString L, updated_by := user_email } : Box)
        ∈ (assignToLine user_email s b.box_id L (.ok i1) (.ok i2) (.ok i3) rl).store.inventory ∧
    ({ b with location := "line-" ++ numberToString L, updated_by := user_email } : Box)
        ∈ (reconcile c
            (assignToLine user_email s b.box_id L (.ok i1) (.ok i2) (.ok i3) rl).events).inventory ∧
    (∀ x ∈ (reconcile c
            (assignToLine user_email s b.box_id L (.ok i1) (.ok i2) (.ok i3) rl).events).inventory,
        x.id = b.id → x.location = "line-" ++ numberToString L) ∧
    (assignToLine user_email s b.box_id L (.ok i1) (.ok i2) (.ok i3) rl).store.production_line_items
        = s.production_line_items ++ [⟨i2, L, b.box_id, user_email⟩] ∧
    (reconcile c
        (assignToLine user_email s b.box_id L (.ok i1) (.ok i2) (.ok i3) rl).events).lineItems
        = c.lineItems ++ [⟨i2, L, b.box_id, user_email⟩] ∧
    (∃ l ∈ (assignToLine user_email s b.box_id L (.ok i1) (.ok i2) (.ok i3)
        rl).store.production_lines, l.id = L) ∧
    (∀ l ∈ (assignToLine user_email s b.box_id L (.ok i1) (.ok i2) (.ok i3)
        rl).store.production_lines, l.id = L → l.status = "active") ∧
    (∃ l ∈ (reconcile c
        (assignToLine user_email s b.box_id L (.ok i1) (.ok i2) (.ok i3) rl).events).productionLines,
        l.id = L) ∧
    (∀ l ∈ (reconcile c
        (assignToLine user_email s b.box_id L (.ok i1) (.ok i2) (.ok i3) rl).events).productionLines,
        l.id = L → l.status = "active") := by
  obtain ⟨hinv, hitems, hlines, hev⟩ := assignToLine_accepted user_email s b.box_id L i1 i2 i3 rl
  obtain ⟨l0, hl0, hl0id⟩ := hline
  have hrec : reconcile c
      (assignToLine user_email s b.box_id L (.ok i1) (.ok i2) (.ok i3) rl).events
      = { c with
          inventory := updateWhere c.inventory (fun x => decide (x.box_id = b.box_id))
            (fun x => { x with location := "line-" ++ numberToString L,
                               updated_by := user_email })
          lineItems := c.lineItems ++ [⟨i2, L, b.box_id, user_email⟩]
          productionLines := updateWhere c.productionLines (fun l => decide (l.id = L))
            (fun l => { l with status := "active" }) } := by
    rw [hev, reconcile_append, reconcile_append,
      reconcile_inventory_update c s.inventory (fun x => decide (x.box_id = b.box_id))
        (fun x => { x with location := "line-" ++ numberToString L, updated_by := user_email })
        (fun _ => rfl) hbox_ids hci]
    have hmid : ∀ c1 : Client, reconcile c1
        [Event.production_line_items (.INSERT ⟨i2, L, b.box_id, user_email⟩)]
        = { c1 with lineItems := c1.lineItems ++ [⟨i2, L, b.box_id, user_email⟩] } :=
      fun _ => rfl
    rw [hmid]
    exact reconcile_line_update
      { c with
        inventory := updateWhere c.inventory (fun x => decide (x.box_id = b.box_id))
          (fun x => { x with location := "line-" ++ numberToString L,
                             updated_by := user_email })
        lineItems := c.lineItems ++ [⟨i2, L, b.box_id, user_email⟩] }
      s.production_lines (fun l => decide (l.id = L))
      (fun l => { l with status := "active" }) (fun _ => rfl) hline_ids hcl
  rw [hrec, hinv, hitems, hlines]
  simp only [updateWhere, List.mem_map]
  refine ⟨⟨b, hci b hb, by simp⟩, ⟨b, hb, by simp⟩, ?_, trivial, trivial,
    ⟨_, ⟨l0, hcl l0 hl0, rfl⟩, by simp [hl0id]⟩, ?_, ⟨_, ⟨l0, hl0, rfl⟩, by simp [hl0id]⟩, ?_⟩
  · rintro x ⟨y, hy, rfl⟩ hid
    have hyid : y.id = b.id := by
      by_cases hyb : y.box_id = b.box_id <;> simpa [hyb] using hid
    have : y = b := hbox_ids y (hci y hy) b (hci b hb) hyid
    subst this
    simp
  · rintro l ⟨y, _, rfl⟩ hid
    by_cases hy : y.id = L
    · simp [hy]
    · simp [hy] at hid
  · rintro l ⟨y, _, rfl⟩ hid
    by_cases hy : y.id = L
    · simp [hy]
    · simp [hy] at hid

theorem assignToLine_reconciled_witness :
    (⟨1, "BOX1700000000000", "ROSES", "RED", some 200, "stems", "line-3",
        "worker@farm.example"⟩ : Box)
      ∈ (reconcile sampleClient (assignToLine "worker@farm.example" sampleStore
          "BOX1700000000000" 3 (.ok 0) (.ok 11) (.ok 0) (.ok 0)).events).inventory ∧
    (reconcile sampleClient (assignToLine "worker@farm.example" sampleStore
        "BOX1700000000000" 3 (.ok 0) (.ok 11) (.ok 0) (.ok 0)).events).lineItems
      = [⟨11, 3, "BOX1700000000000", "worker@farm.example"⟩] ∧
    (∀ l ∈ (reconcile sampleClient (assignToLine "worker@farm.example" sampleStore
        "BOX1700000000000" 3 (.ok 0) (.ok 11) (.ok 0) (.ok 0)).events).productionLines,
      l.id = 3 → l.status = "active") :=
  have h := assignToLine_reconciled "worker@farm.example" sampleStore sampleClient
    ⟨1, "BOX1700000000000", "ROSES", "RED", some 200, "stems", "inventory",
      "worker@farm.example"⟩ 3 0 11 0 (.ok 0)
    (by decide) (by decide) (by decide) (by decide) (by decide) (by decide)
  ⟨h.2.1, h.2.2.2.2.1, h.2.2.2.2.2.2.2.2⟩

/-! ## Completion of a bunch -/

/-- The tables and the feed left by a `completeBunch` whose two writes the
store accepts. -/
theorem completeBunch_accepted (user_email : String) (cache : List Line) (s : Store)
    (token : String) (L i1 i2 : Nat) (rl : Reply) :
    (completeBunch user_email cache s token L (.ok i1) (.ok i2) rl).store.production_lines
      = updateWhere s.production_lines (fun l => decide (l.id = L))
          (fun l => { l with
            produced_count := nextCount (cache.find? (fun l => decide (l.id = L))) }) ∧
    (completeBunch user_email cache s token L (.ok i1) (.ok i2) rl).store.produced_bunches
      = s.produced_bunches ++
          [⟨i1, token, recipeNameOf (cache.find? (fun l => decide (l.id = L))), L, user_email,
            "completed"⟩] ∧
    (completeBunch user_email cache s token L (.ok i1) (.ok i2) rl).events
      = [Event.produced_bunches (.INSERT
          ⟨i1, token, recipeNameOf (cache.find? (fun l => decide (l.id = L))), L, user_email,
            "completed"⟩)]
        ++ (updatedRows s.production_lines (fun l => decide (l.id = L))
          (fun l => { l with
            produced_count := nextCount (cache.find? (fun l => decide (l.id = L))) })).map
            (fun l => Event.production_lines (.UPDATE l)) := by
  simp [completeBunch, logActivity_tables]

theorem nextCount_some (l : Line) : nextCount (some l) = l.produced_count + 1 := by
  unfold nextCount
  by_cases h : l.produced_count = 0 <;> simp [h]

/-- One accepted output scan followed by reconciliation, when line `L` is
cached, the cached lines are rows of the store and the store's line keys are
unique: the produced count of `L` goes up by one in the store and in the cache,
and the three conditions hold again. -/
theorem completeBunchStep_count (user_email : String) (L : Nat) (w : World) (k : OutputScan)
    (hk : k.accepted = true)
    (h1 : ∃ l ∈ w.client.productionLines, l.id = L)
    (h2 : ∀ l ∈ w.client.productionLines, l ∈ w.store.production_lines)
    (h3 : ∀ x ∈ w.store.production_lines, ∀ y ∈ w.store.production_lines, x.id = y.id → x = y) :
    (completeBunchStep user_email L w k).store.production_lines
      = w.store.production_lines.map
          (fun l => if l.id = L then { l with produced_count := l.produced_count + 1 } else l) ∧
    (completeBunchStep user_email L w k).client.productionLines
      = w.client.productionLines.map
          (fun l => if l.id = L then { l with produced_count := l.produced_count + 1 } else l) := by
  obtain ⟨token, r1, r2, rl⟩ := k
  cases r1 with
  | error m => simp [OutputScan.accepted] at hk
  | ok i1 =>
  cases r2 with
  | error m => simp [OutputScan.accepted] at hk
  | ok i2 =>
  obtain ⟨hlines, -, hev⟩ :=
    completeBunch_accepted user_email w.client.productionLines w.store token L i1 i2 rl
  -- the cached row of `L`
  obtain ⟨l0, hl0, hl0id⟩ := h1
  obtain ⟨lc, hfind⟩ : ∃ lc, w.client.productionLines.find? (fun l => decide (l.id = L))
      = some lc := by
    cases hf : w.client.productionLines.find? (fun l => decide (l.id = L)) with
    | some lc => exact ⟨lc, rfl⟩
    | none =>
      have := List.find?_eq_none.mp hf l0 hl0
      simp [hl0id] at this
  have hlc_mem : lc ∈ w.client.productionLines := List.mem_of_find?_eq_some hfind
  have hlc_id : lc.id = L := by
    have := List.find?_some hfind
    simpa using this
  have hsame : ∀ x ∈ w.store.production_lines, x.id = L → x = lc :=
    fun x hx hid => h3 x hx lc (h2 lc hlc_mem) (hid.trans hlc_id.symm)
  have hcongr : ∀ rows : List Line, (∀ x ∈ rows, x ∈ w.store.production_lines) →
      updateWhere rows (fun l => decide (l.id = L))
          (fun l => { l with
            produced_count :=
              nextCount (w.client.productionLines.find? (fun l => decide (l.id = L))) })
        = rows.map
          (fun l => if l.id = L then { l with produced_count := l.produced_count + 1 }
            else l) := by
    intro rows hrows
    unfold updateWhere
    apply List.map_congr_left
    intro x hx
    by_cases hid : x.id = L
    · have := hsame x (hrows x hx) hid
      subst this
      simp [hid, hfind, nextCount_some]
    · simp [hid]
  constructor
  · show (completeBunch user_email w.client.productionLines w.store token L (.ok i1) (.ok i2)
        rl).store.production_lines = _
    rw [hlines, hcongr _ (fun _ h => h)]
  · show (reconcile w.client (completeBunch user_email w.client.productionLines w.store token L
        (.ok i1) (.ok i2) rl).events).productionLines = _
    rw [hev, reconcile_append]
    have hfirst : ∀ (c1 : Client) (bn : Bunch), reconcile c1
        [Event.produced_bunches (.INSERT bn)]
        = { c1 with producedBunches := bn :: c1.producedBunches } := fun _ _ => rfl
    rw [hfirst]
    have := reconcile_line_update
      { w.client with
        producedBunches :=
          (⟨i1, token, recipeNameOf (w.client.productionLines.find?
            (fun l => decide (l.id = L))), L, user_email, "completed"⟩ : Bunch)
            :: w.client.producedBunches }
      w.store.production_lines (fun l => decide (l.id = L))
      (fun l => { l with
        produced_count :=
          nextCount (w.client.productionLines.find? (fun l => decide (l.id = L))) })
      (fun _ => rfl) h3 h2
    rw [this]
    exact hcongr _ h2

/-- Raising the count of line `L` by one, then by `n`, raises it by `n + 1`. -/
theorem map_count_succ (rows : List Line) (L n : Nat) :
    (rows.map (fun l => if l.id = L then { l with produced_count := l.produced_count + 1 }
        else l)).map
      (fun l => if l.id = L then { l with produced_count := l.produced_count + n } else l)
    = rows.map
      (fun l => if l.id = L then { l with produced_count := l.produced_count + (n + 1) }
        else l) := by
  rw [List.map_map]
  apply List.map_congr_left
  intro x _
  by_cases hid : x.id = L
  · simp [hid]
    omega
  · simp [hid]

/-- C7: for every line `L` that is cached, when the cached lines are rows of
the store and the store's line keys are unique, `N` serialized `completeBunch`
calls on `L` that the store accepts, each followed by the reconciliation of the
cache with its change events, raise the produced count of `L` by exactly `N`,
in the store and in the cache, and leave every other line as it was; with one
call the count goes up by exactly 1. -/
theorem completeBunch_serialized_count (user_email : String) (L : Nat) (scans : List OutputScan)
    (w : World) (hacc : ∀ k ∈ scans, k.accepted = true)
    (h1 : ∃ l ∈ w.client.productionLines, l.id = L)
    (h2 : ∀ l ∈ w.client.productionLines, l ∈ w.store.production_lines)
    (h3 : ∀ x ∈ w.store.production_lines, ∀ y ∈ w.store.production_lines, x.id = y.id → x = y) :
    (completeBunchSerialized user_email L w scans).store.production_lines
      = w.store.production_lines.map
          (fun l => if l.id = L then { l with produced_count := l.produced_count + scans.length }
            else l) ∧
    (completeBunchSerialized user_email L w scans).client.productionLines
      = w.client.productionLines.map
          (fun l => if l.id = L then { l with produced_count := l.produced_count + scans.length }
            else l) := by
  induction scans generalizing w with
  | nil =>
    simp [completeBunchSerialized]
  | cons k ks ih =>
    obtain ⟨hs, hc⟩ := completeBunchStep_count user_email L w k (hacc k (by simp)) h1 h2 h3
    have step : completeBunchSerialized user_email L w (k :: ks)
        = completeBunchSerialized user_email L (completeBunchStep user_email L w k) ks := rfl
    have h1' : ∃ l ∈ (completeBunchStep user_email L w k).client.productionLines, l.id = L := by
      obtain ⟨l0, hl0, hl0id⟩ := h1
      rw [hc]
      exact ⟨_, List.mem_map.mpr ⟨l0, hl0, rfl⟩, by simp [hl0id]⟩
    have h2' : ∀ l ∈ (completeBunchStep user_email L w k).client.productionLines,
        l ∈ (completeBunchStep user_email L w k).store.production_lines := by
      rw [hs, hc]
      intro l hl
      obtain ⟨x, hx, rfl⟩ := List.mem_map.mp hl
      exact List.mem_map.mpr ⟨x, h2 x hx, rfl⟩
    have h3' : ∀ x ∈ (completeBunchStep user_email L w k).store.production_lines,
        ∀ y ∈ (completeBunchStep user_email L w k).store.production_lines,
        x.id = y.id → x = y := by
      rw [hs]
      intro x hx y hy hxy
      obtain ⟨a, ha, rfl⟩ := List.mem_map.mp hx
      obtain ⟨b, hb, rfl⟩ := List.mem_map.mp hy
      have hab : a.id = b.id := by
        by_cases ha' : a.id = L <;> by_cases hb' : b.id = L <;> simp [ha', hb'] at hxy <;> simp [*]
      rw [h3 a ha b hb hab]
    obtain ⟨ihs, ihc⟩ := ih (completeBunchStep user_email L w k)
      (fun k' hk' => hacc k' (by simp [hk'])) h1' h2' h3'
    rw [step, ihs, ihc, hs, hc, map_count_succ, map_count_succ]
    simp

theorem completeBunch_serialized_count_witness :
    (completeBunchSerialized "worker@farm.example" 3 ⟨sampleStore, sampleClient⟩
        [⟨"BUN100", .ok 1, .ok 0, .ok 0⟩, ⟨"BUN101", .ok 2, .ok 0, .ok 0⟩]).store.production_lines
      = [⟨1, "Line 1", "idle", none, 0⟩, ⟨2, "Line 2", "idle", none, 0⟩,
         ⟨3, "Line 3", "idle", some "Spring Mix", 17⟩] ∧
    (completeBunchSerialized "worker@farm.example" 3 ⟨sampleStore, sampleClient⟩
        [⟨"BUN100", .ok 1, .ok 0, .ok 0⟩, ⟨"BUN101", .ok 2, .ok 0, .ok 0⟩]).client.productionLines
      = [⟨1, "Line 1", "idle", none, 0⟩, ⟨2, "Line 2", "idle", none, 0⟩,
         ⟨3, "Line 3", "idle", some "Spring Mix", 17⟩] :=
  completeBunch_serialized_count "worker@farm.example" 3
    [⟨"BUN100", .ok 1, .ok 0, .ok 0⟩, ⟨"BUN101", .ok 2, .ok 0, .ok 0⟩]
    ⟨sampleStore, sampleClient⟩ (by decide) (by decide) (by decide) (by decide)

/-- C8, as stated, fails: with a cache that still holds the count 2 for line 3
while the store holds 15, an accepted `completeBunch` on line 3 leaves the
store's count at 3, lower than before. -/
theorem completeBunch_stale_cache_counterexample :
    sampleStore.production_lines = [⟨1, "Line 1", "idle", none, 0⟩,
      ⟨2, "Line 2", "idle", none, 0⟩, ⟨3, "Line 3", "idle", some "Spring Mix", 15⟩] ∧
    (completeBunch "worker@farm.example" staleLines sampleStore "BUN100" 3
        (.ok 1) (.ok 0) (.ok 0)).store.production_lines
      = [⟨1, "Line 1", "idle", none, 0⟩, ⟨2, "Line 2", "idle", none, 0⟩,
         ⟨3, "Line 3", "idle", some "Spring Mix", 3⟩] := by
  decide

/-- C8, amended: an accepted `completeBunch` on line `L` whose cached row is
`lc` writes the cached count plus 1 to the store: every stored row of `L` then
has count `lc.produced_count + 1` and every other line is as before.  So for a
stored row of `L` whose count equals the cached one, the count after the call is
exactly the count before the call plus 1. -/
theorem completeBunch_writes_cached_count (user_email : String) (cache : List Line) (s : Store)
    (token : String) (L i1 i2 : Nat) (rl : Reply) (lc : Line)
    (hfind : cache.find? (fun l => decide (l.id = L)) = some lc) :
    (completeBunch user_email cache s token L (.ok i1) (.ok i2) rl).store.production_lines
      = s.production_lines.map
          (fun l => if l.id = L then { l with produced_count := lc.produced_count + 1 } else l) ∧
    (∀ l ∈ s.production_lines, l.id = L → l.produced_count = lc.produced_count →
      ({ l with produced_count := l.produced_count + 1 } : Line)
        ∈ (completeBunch user_email cache s token L (.ok i1) (.ok i2)
            rl).store.production_lines) := by
  have hlines := (completeBunch_accepted user_email cache s token L i1 i2 rl).1
  rw [hlines, hfind, nextCount_some]
  refine ⟨by simp [updateWhere], ?_⟩
  intro l hl hid hcount
  simp only [updateWhere, List.mem_map]
  exact ⟨l, hl, by simp [hid, hcount]⟩

theorem completeBunch_writes_cached_count_witness :
    (completeBunch "worker@farm.example" staleLines sampleStore "BUN100" 3
        (.ok 1) (.ok 0) (.ok 0)).store.production_lines
      = sampleStore.production_lines.map
          (fun l => if l.id = 3 then { l with produced_count := 2 + 1 } else l) :=
  (completeBunch_writes_cached_count "worker@farm.example" staleLines sampleStore "BUN100" 3
    1 0 (.ok 0) ⟨3, "Line 3", "idle", some "Spring Mix", 2⟩ (by decide)).1

/-! ## Scans of an unknown box id -/

/-- C9, at the failing input: `checkoutBox` on the box id `BOX999`, which
matches no Box of `sampleStore`, with the filtered update answered without
error: no Box changes, but a CHECKOUT entry is appended and the user is told
the box was checked out. -/
theorem checkoutBox_unknown_box :
    (∀ b ∈ sampleStore.inventory, b.box_id ≠ "BOX999") ∧
    checkoutBox "worker@farm.example" sampleStore "BOX999" (.ok 0) (.ok 0)
      = ⟨{ sampleStore with
            activity_log := [⟨"CHECKOUT", "Checked out box BOX999", "worker@farm.example",
              [("boxId", .str "BOX999")]⟩] },
          [], ["✓ Box BOX999 checked out!"]⟩ := by
  decide

/-- C10, at the failing input: `assignToLine` on the box id `BOX999`, which
matches no Box of `sampleStore`, and line 3, with every call answered without
error: no Box changes, but a LineAssignment row for `BOX999` is inserted, line 3
becomes `active`, an ASSIGN_TO_LINE entry is appended and the user is told the
box was assigned. -/
theorem assignToLine_unknown_box :
    (∀ b ∈ sampleStore.inventory, b.box_id ≠ "BOX999") ∧
    assignToLine "worker@farm.example" sampleStore "BOX999" 3 (.ok 0) (.ok 11) (.ok 0) (.ok 0)
      = ⟨{ sampleStore with
            production_line_items := [⟨11, 3, "BOX999", "worker@farm.example"⟩]
            production_lines := [⟨1, "Line 1", "idle", none, 0⟩, ⟨2, "Line 2", "idle", none, 0⟩,
              ⟨3, "Line 3", "active", some "Spring Mix", 15⟩]
            activity_log := [⟨"ASSIGN_TO_LINE", "Assigned box BOX999 to Line 3",
              "worker@farm.example", [("boxId", .str "BOX999"), ("lineId", .num 3)]⟩] },
          [.production_line_items (.INSERT ⟨11, 3, "BOX999", "worker@farm.example"⟩),
           .production_lines (.UPDATE ⟨3, "Line 3", "active", some "Spring Mix", 15⟩)],
          ["✓ Box BOX999 assigned to Line 3!"]⟩ := by
  decide

/-! ## Output scan on a line that is not cached -/

/-- C11, as stated, fails: with an empty line cache (lines not loaded yet) and a
store that accepts the writes, `completeBunch` on line 3 inserts a ProducedBunch
with recipe name `Unknown`, writes the count 1 to the stored line 3, appends a
COMPLETE_BUNCH entry and reports success. -/
theorem completeBunch_line_not_cached_counterexample :
    completeBunch "worker@farm.example" [] sampleStore "BUN100" 3 (.ok 1) (.ok 0) (.ok 0)
      = ⟨{ sampleStore with
            produced_bunches := [⟨1, "BUN100", "Unknown", 3, "worker@farm.example", "completed"⟩]
            production_lines := [⟨1, "Line 1", "idle", none, 0⟩, ⟨2, "Line 2", "idle", none, 0⟩,
              ⟨3, "Line 3", "idle", some "Spring Mix", 1⟩]
            activity_log := [⟨"COMPLETE_BUNCH", "Completed bunch BUN100 on Line 3",
              "worker@farm.example", [("bunchBarcode", .str "BUN100"), ("lineId", .num 3)]⟩] },
          [.produced_bunches (.INSERT
              ⟨1, "BUN100", "Unknown", 3, "worker@farm.example", "completed"⟩),
           .production_lines (.UPDATE ⟨3, "Line 3", "idle", some "Spring Mix", 1⟩)],
          ["✓ Bunch BUN100 completed on Line 3!"]⟩ := by
  decide

/-- C11, amended: `completeBunch` on a line id that is not in the local cache
does not fail with a not-found error.  When the store accepts its writes it
inserts a ProducedBunch with recipe name `Unknown`, writes the count 1 to every
stored line of that id, issues the COMPLETE_BUNCH entry and reports success; it
performs zero writes only when the store rejects the ProducedBunch insert. -/
theorem completeBunch_line_not_cached (user_email : String) (cache : List Line) (s : Store)
    (token : String) (L i1 i2 : Nat) (r2 rl : Reply) (h : ∀ l ∈ cache, l.id ≠ L) :
    completeBunch user_email cache s token L (.ok i1) (.ok i2) rl
      = ⟨logActivity user_email
            { s with
              produced_bunches := s.produced_bunches ++
                [⟨i1, token, "Unknown", L, user_email, "completed"⟩]
              production_lines := s.production_lines.map
                (fun l => if l.id = L then { l with produced_count := 1 } else l) }
            "COMPLETE_BUNCH" ("Completed bunch " ++ token ++ " on Line " ++ numberToString L)
            [("bunchBarcode", .str token), ("lineId", .num L)] rl,
          [Event.produced_bunches (.INSERT ⟨i1, token, "Unknown", L, user_email, "completed"⟩)]
            ++ ((s.production_lines.filter (fun l => decide (l.id = L))).map
                (fun l => ({ l with produced_count := 1 } : Line))).map
              (fun l => Event.production_lines (.UPDATE l)),
          ["✓ Bunch " ++ token ++ " completed on Line " ++ numberToString L ++ "!"]⟩ ∧
    (∀ message, completeBunch user_email cache s token L (.error message) r2 rl
      = ⟨s, [], ["Error recording bunch: " ++ message]⟩) := by
  have hfind : cache.find? (fun l => decide (l.id = L)) = none := by
    rw [List.find?_eq_none]
    intro l hl
    simpa using h l hl
  constructor
  · simp [completeBunch, hfind, recipeNameOf, nextCount, updateWhere, updatedRows]
  · intro message
    rfl

theorem completeBunch_line_not_cached_witness :
    (∀ l ∈ ([] : List Line), l.id ≠ 3) ∧
    (completeBunch "worker@farm.example" [] sampleStore "BUN100" 3 (.ok 1) (.ok 0) (.ok 0)).store
      = logActivity "worker@farm.example"
          { sampleStore with
            produced_bunches := sampleStore.produced_bunches ++
              [⟨1, "BUN100", "Unknown", 3, "worker@farm.example", "completed"⟩]
            production_lines := sampleStore.production_lines.map
              (fun l => if l.id = 3 then { l with produced_count := 1 } else l) }
          "COMPLETE_BUNCH" ("Completed bunch " ++ "BUN100" ++ " on Line " ++ numberToString 3)
          [("bunchBarcode", .str "BUN100"), ("lineId", .num 3)] (.ok 0) :=
  ⟨by decide, congrArg Outcome.store
    (completeBunch_line_not_cached "worker@farm.example" [] sampleStore "BUN100" 3 1 0
      (.ok 0) (.ok 0) (by decide)).1⟩

/-! ## Checking a box out twice -/

/-- The inventory and the message left by a `checkoutBox` whose update the store
accepts. -/
theorem checkoutBox_accepted (user_email : String) (s : Store) (boxId : String) (i : Nat)
    (rl : Reply) :
    (checkoutBox user_email s boxId (.ok i) rl).store.inventory
      = s.inventory.map (fun b =>
          if b.box_id = boxId then { b with location := "checked-out", updated_by := user_email }
          else b) ∧
    (checkoutBox user_email s boxId (.ok i) rl).alerts = ["✓ Box " ++ boxId ++ " checked out!"] := by
  simp [checkoutBox, logActivity_tables, updateWhere]

/-- A simulated checkout scan of the demo never throws: it checks out the
records carrying the id of the first record located in `inventory`. -/
theorem simulateScan_checkout (now : Nat) (st : DemoState) (selectedLine : Option Nat) :
    simulateScan now st (some "checkout") selectedLine
      = some { st with inventory := st.inventory.map (fun item =>
          if some item.id
              = (st.inventory.find? (fun item => decide (item.location = "inventory"))).map
                  (fun b => b.id)
          then { item with location := "checked-out", date := now }
          else item) } := by
  simp [simulateScan]

/-- A checkout pass of the demo keeps the ids: a key that is present stays
present. -/
theorem demo_checkout_has (inv : List DemoBox) (sc : Option String) (now : Nat) (k : String)
    (h : ∃ x ∈ inv, x.id = k) :
    ∃ x ∈ inv.map (fun item =>
        if some item.id = sc then ({ item with location := "checked-out", date := now } : DemoBox)
        else item), x.id = k := by
  obtain ⟨x, hx, hk⟩ := h
  refine ⟨_, List.mem_map.mpr ⟨x, hx, rfl⟩, ?_⟩
  split <;> exact hk

/-- A checkout pass of the demo leaves checked-out records checked out. -/
theorem demo_checkout_keeps (inv : List DemoBox) (sc : Option String) (now : Nat) (k : String)
    (h : ∀ x ∈ inv, x.id = k → x.location = "checked-out") :
    ∀ x ∈ inv.map (fun item =>
        if some item.id = sc then ({ item with location := "checked-out", date := now } : DemoBox)
        else item), x.id = k → x.location = "checked-out" := by
  intro x hx hid
  obtain ⟨y, hy, rfl⟩ := List.mem_map.mp hx
  have hyid : y.id = k := by
    split at hid <;> exact hid
  split
  · rfl
  · exact h y hy hyid

/-- C12: for every box `b` of the store with location `inventory`, `checkoutBox`
on `b.box_id` applied twice, the store accepting the update each time, reports
success both times and leaves the row of `b` with location `checked-out`: the
locations after the second call are those after the first, and when the same
user makes both calls the inventory is the same.  In the demo, where the
simulated scan picks the first record located in `inventory`, two checkout scans
both return normally and the records with that id are `checked-out` after the
first scan and after the second. -/
theorem checkoutBox_twice (user1 user2 : String) (s : Store) (b : Box) (i1 i2 : Nat)
    (rl1 rl2 : Reply) (hb : b ∈ s.inventory) (_hloc : b.location = "inventory") :
    ((checkoutBox user1 s b.box_id (.ok i1) rl1).alerts
        = ["✓ Box " ++ b.box_id ++ " checked out!"] ∧
     (checkoutBox user2 (checkoutBox user1 s b.box_id (.ok i1) rl1).store b.box_id (.ok i2)
        rl2).alerts = ["✓ Box " ++ b.box_id ++ " checked out!"] ∧
     ({ b with location := "checked-out", updated_by := user1 } : Box)
        ∈ (checkoutBox user1 s b.box_id (.ok i1) rl1).store.inventory ∧
     ({ b with location := "checked-out", updated_by := user2 } : Box)
        ∈ (checkoutBox user2 (checkoutBox user1 s b.box_id (.ok i1) rl1).store b.box_id (.ok i2)
            rl2).store.inventory ∧
     (checkoutBox user2 (checkoutBox user1 s b.box_id (.ok i1) rl1).store b.box_id (.ok i2)
        rl2).store.inventory.map Box.location
      = (checkoutBox user1 s b.box_id (.ok i1) rl1).store.inventory.map Box.location ∧
     (user1 = user2 →
      (checkoutBox user2 (checkoutBox user1 s b.box_id (.ok i1) rl1).store b.box_id (.ok i2)
        rl2).store.inventory
      = (checkoutBox user1 s b.box_id (.ok i1) rl1).store.inventory)) ∧
    (∀ (now1 now2 : Nat) (st : DemoState) (sel1 sel2 : Option Nat) (db : DemoBox),
      st.inventory.find? (fun item => decide (item.location = "inventory")) = some db →
      ∃ st1 st2,
        simulateScan now1 st (some "checkout") sel1 = some st1 ∧
        simulateScan now2 st1 (some "checkout") sel2 = some st2 ∧
        ({ db with location := "checked-out", date := now1 } : DemoBox) ∈ st1.inventory ∧
        (∀ x ∈ st1.inventory, x.id = db.id → x.location = "checked-out") ∧
        (∃ x ∈ st2.inventory, x.id = db.id) ∧
        (∀ x ∈ st2.inventory, x.id = db.id → x.location = "checked-out")) := by
  constructor
  · obtain ⟨h1, a1⟩ := checkoutBox_accepted user1 s b.box_id i1 rl1
    obtain ⟨h2, a2⟩ := checkoutBox_accepted user2
      (checkoutBox user1 s b.box_id (.ok i1) rl1).store b.box_id i2 rl2
    refine ⟨a1, a2, ?_, ?_, ?_, ?_⟩
    · rw [h1]
      exact List.mem_map.mpr ⟨b, hb, by simp⟩
    · rw [h2, h1]
      exact List.mem_map.mpr ⟨_, List.mem_map.mpr ⟨b, hb, rfl⟩, by simp⟩
    · rw [h2, h1, List.map_map, List.map_map, List.map_map]
      apply List.map_congr_left
      intro x _
      by_cases hx : x.box_id = b.box_id <;> simp [hx]
    · intro hu
      subst hu
      rw [h2, h1, List.map_map]
      apply List.map_congr_left
      intro x _
      by_cases hx : x.box_id = b.box_id <;> simp [hx]
  · intro now1 now2 st sel1 sel2 db hfind
    have hmem : db ∈ st.inventory := List.mem_of_find?_eq_some hfind
    refine ⟨_, _, simulateScan_checkout now1 st sel1, simulateScan_checkout now2 _ sel2, ?_⟩
    have hst1 : ∀ x ∈ st.inventory.map (fun item =>
        if some item.id = (st.inventory.find?
            (fun item => decide (item.location = "inventory"))).map (fun b => b.id)
        then ({ item with location := "checked-out", date := now1 } : DemoBox)
        else item), x.id = db.id → x.location = "checked-out" := by
      intro x hx hid
      obtain ⟨y, _, rfl⟩ := List.mem_map.mp hx
      rw [hfind] at hid ⊢
      by_cases hy : y.id = db.id
      · simp [hy]
      · simp [hy] at hid
    refine ⟨?_, hst1, ?_, ?_⟩
    · refine List.mem_map.mpr ⟨db, hmem, ?_⟩
      rw [hfind]
      simp
    · exact demo_checkout_has _ _ _ _ (demo_checkout_has _ _ _ _ ⟨db, hmem, rfl⟩)
    · exact demo_checkout_keeps _ _ _ _ hst1

theorem checkoutBox_twice_witness :
    (⟨1, "BOX1700000000000", "ROSES", "RED", some 200, "stems", "inventory",
        "worker@farm.example"⟩ : Box) ∈ sampleStore.inventory ∧
    (checkoutBox "worker@farm.example"
        (checkoutBox "worker@farm.example" sampleStore "BOX1700000000000" (.ok 0) (.ok 0)).store
        "BOX1700000000000" (.ok 0) (.ok 0)).store.inventory
      = (checkoutBox "worker@farm.example" sampleStore "BOX1700000000000" (.ok 0)
          (.ok 0)).store.inventory :=
  ⟨by decide,
   (checkoutBox_twice "worker@farm.example" "worker@farm.example" sampleStore
      ⟨1, "BOX1700000000000", "ROSES", "RED", some 200, "stems", "inventory",
        "worker@farm.example"⟩ 0 0 (.ok 0) (.ok 0) (by decide) (by decide)).1.2.2.2.2.2 rfl⟩

/-! ## Creation of a recipe -/

theorem trim_blank (name : String) (h : ∀ c ∈ name.toList, isWhiteSpace c = true) :
    trim name = "" := by
  have h0 : name.toList.dropWhile isWhiteSpace = [] := by
    rw [List.dropWhile_eq_nil_iff]
    exact h
  unfold trim
  rw [h0]
  rfl

/-- What `saveRecipe` does with a form that passes both checks. -/
theorem saveRecipe_of_valid (user_email : String) (now : Nat) (recipes : List Recipe)
    (showRecipeModal : Bool) (form : RecipeForm) (s : Store) (r rl : Reply)
    (hname : trim form.name ≠ "")
    (hvalid : ∃ f ∈ form.flowers, f.type ≠ "" ∧ f.color ≠ "" ∧ f.quantity ≠ "") :
    saveRecipe user_email now recipes showRecipeModal form s r rl =
      match r with
      | .error message =>
        ⟨s, [], ["Error creating recipe: " ++ message], showRecipeModal, form⟩
      | .ok id =>
        ⟨logActivity user_email
            { s with recipes := s.recipes ++
              [{ id := id
                 recipe_id := "R" ++ padStart (numberToString (recipes.length + 1)) 3 '0'
                 name := form.name
                 flowers := (form.flowers.filter (fun f =>
                    decide (f.type ≠ "") && decide (f.color ≠ "") && decide (f.quantity ≠ ""))).map
                    (fun f => { type := f.type, color := f.color,
                                quantity := parseInt f.quantity })
                 created_by := user_email }] }
            "CREATE_RECIPE" ("Created recipe: " ++ form.name)
            [("recipeId", .str ("R" ++ padStart (numberToString (recipes.length + 1)) 3 '0')),
             ("name", .str form.name)] rl,
          [.recipes (.INSERT
              { id := id
                recipe_id := "R" ++ padStart (numberToString (recipes.length + 1)) 3 '0'
                name := form.name
                flowers := (form.flowers.filter (fun f =>
                   decide (f.type ≠ "") && decide (f.color ≠ "") && decide (f.quantity ≠ ""))).map
                   (fun f => { type := f.type, color := f.color,
                               quantity := parseInt f.quantity })
                created_by := user_email })],
          ["✓ Recipe \"" ++ form.name ++ "\" created!"],
          false,
          { name := "", flowers := [{ id := now, type := "", color := "", quantity := "" }] }⟩ := by
  obtain ⟨f, hf, h1, h2, h3⟩ := hvalid
  have hlen : (form.flowers.filter (fun f =>
      decide (f.type ≠ "") && decide (f.color ≠ "") && decide (f.quantity ≠ ""))).length ≠ 0 := by
    intro h0
    have hmem : f ∈ form.flowers.filter (fun f =>
        decide (f.type ≠ "") && decide (f.color ≠ "") && decide (f.quantity ≠ "")) := by
      rw [List.mem_filter]
      exact ⟨hf, by simp [h1, h2, h3]⟩
    rw [List.length_eq_zero] at h0
    rw [h0] at hmem
    exact List.not_mem_nil _ hmem
  unfold saveRecipe
  rw [if_neg hname]
  simp only []
  rw [if_neg hlen]

/-- C13: `saveRecipe` fails and writes nothing whenever the name is empty or
holds only white space, and whenever the flower list is empty or every flower
line has an empty type, an empty color or an empty quantity: the store is left
as it was (no Recipe row, no CREATE_RECIPE entry), no change event arises, the
form stays as it was, and the user is shown one of the two validation messages,
whatever the store would answer. -/
theorem saveRecipe_rejected (user_email : String) (now : Nat) (recipes : List Recipe)
    (showRecipeModal : Bool) (form : RecipeForm) (s : Store) (r rl : Reply)
    (h : (∀ c ∈ form.name.toList, isWhiteSpace c = true) ∨ form.flowers = [] ∨
      (∀ f ∈ form.flowers, f.type = "" ∨ f.color = "" ∨ f.quantity = "")) :
    saveRecipe user_email now recipes showRecipeModal form s r rl
      = ⟨s, [], ["Please enter a recipe name"], showRecipeModal, form⟩ ∨
    saveRecipe user_email now recipes showRecipeModal form s r rl
      = ⟨s, [], ["Please add at least one flower"], showRecipeModal, form⟩ := by
  by_cases hname : trim form.name = ""
  · left
    simp [saveRecipe, hname]
  · right
    have hall : ∀ f ∈ form.flowers, f.type = "" ∨ f.color = "" ∨ f.quantity = "" := by
      rcases h with h | h | h
      · exact absurd (trim_blank _ h) hname
      · rw [h]
        intro f hf
        exact absurd hf (List.not_mem_nil _)
      · exact h
    have hfil : form.flowers.filter (fun f =>
        decide (f.type ≠ "") && decide (f.color ≠ "") && decide (f.quantity ≠ "")) = [] := by
      rw [List.filter_eq_nil_iff]
      intro f hf
      rcases hall f hf with h1 | h1 | h1 <;> simp [h1]
    unfold saveRecipe
    rw [if_neg hname]
    simp only []
    rw [hfil]
    rfl

theorem saveRecipe_rejected_witness :
    ((∀ c ∈ " \t ".toList, isWhiteSpace c = true) ∨ ([⟨1, "Roses", "Red", "3"⟩] : List FlowerForm) = [] ∨
      (∀ f ∈ ([⟨1, "Roses", "Red", "3"⟩] : List FlowerForm),
        f.type = "" ∨ f.color = "" ∨ f.quantity = "")) ∧
    (saveRecipe "worker@farm.example" 9 [] true ⟨" \t ", [⟨1, "Roses", "Red", "3"⟩]⟩ sampleStore
        (.ok 4) (.ok 5)
      = ⟨sampleStore, [], ["Please enter a recipe name"], true,
          ⟨" \t ", [⟨1, "Roses", "Red", "3"⟩]⟩⟩ ∨
     saveRecipe "worker@farm.example" 9 [] true ⟨" \t ", [⟨1, "Roses", "Red", "3"⟩]⟩ sampleStore
        (.ok 4) (.ok 5)
      = ⟨sampleStore, [], ["Please add at least one flower"], true,
          ⟨" \t ", [⟨1, "Roses", "Red", "3"⟩]⟩⟩) :=
  ⟨Or.inl (by decide),
   saveRecipe_rejected "worker@farm.example" 9 [] true ⟨" \t ", [⟨1, "Roses", "Red", "3"⟩]⟩
    sampleStore (.ok 4) (.ok 5) (Or.inl (by decide))⟩

/-- C14, as stated, fails: a form with the quantity texts `0` and `-3` is
saved, and the persisted Recipe holds the quantities 0 and -3. -/
theorem saveRecipe_quantity_unchecked_counterexample :
    (saveRecipe "worker@farm.example" 9 [] true
        ⟨"Mix", [⟨1, "Roses", "Red", "0"⟩, ⟨2, "Tulips", "Yellow", "-3"⟩]⟩ emptyStore
        (.ok 4) (.ok 5)).store.recipes
      = [⟨4, "R001", "Mix", [⟨"Roses", "Red", some 0⟩, ⟨"Tulips", "Yellow", some (-3)⟩],
          "worker@farm.example"⟩] ∧
    (saveRecipe "worker@farm.example" 9 [] true
        ⟨"Mix", [⟨1, "Roses", "Red", "0"⟩, ⟨2, "Tulips", "Yellow", "-3"⟩]⟩ emptyStore
        (.ok 4) (.ok 5)).alerts = ["✓ Recipe \"Mix\" created!"] := by
  decide

/-- C14, amended: for every successful `saveRecipe` the flower lines of the
persisted Recipe are the form lines whose type, color and quantity texts are
all non-empty, in the order of the form, each with quantity `parseInt` of its
text.  The quantity is not checked to be positive: a line with the text `0`,
`-3` or `abc` is persisted with quantity 0, -3 or NaN; only a line with an empty
text is never persisted. -/
theorem saveRecipe_persisted_flowers (user_email : String) (now : Nat) (recipes : List Recipe)
    (showRecipeModal : Bool) (form : RecipeForm) (s : Store) (id : Nat) (rl : Reply)
    (hname : trim form.name ≠ "")
    (hvalid : ∃ f ∈ form.flowers, f.type ≠ "" ∧ f.color ≠ "" ∧ f.quantity ≠ "") :
    ∃ row : Recipe,
      (saveRecipe user_email now recipes showRecipeModal form s (.ok id) rl).store.recipes
        = s.recipes ++ [row] ∧
      row.flowers = (form.flowers.filter (fun f =>
          decide (f.type ≠ "") && decide (f.color ≠ "") && decide (f.quantity ≠ ""))).map
          (fun f => { type := f.type, color := f.color, quantity := parseInt f.quantity }) ∧
      (∀ f ∈ form.flowers, f.type ≠ "" → f.color ≠ "" → f.quantity ≠ "" →
        ({ type := f.type, color := f.color, quantity := parseInt f.quantity } : Flower)
          ∈ row.flowers) ∧
      (∀ fl ∈ row.flowers, ∃ f ∈ form.flowers,
        f.type ≠ "" ∧ f.color ≠ "" ∧ f.quantity ≠ "" ∧
        fl = { type := f.type, color := f.color, quantity := parseInt f.quantity }) ∧
      parseInt "0" = some 0 ∧ parseInt "-3" = some (-3) ∧ parseInt "abc" = none := by
  refine ⟨(⟨id, "R" ++ padStart (numberToString (recipes.length + 1)) 3 '0', form.name,
      (form.flowers.filter (fun f =>
        decide (f.type ≠ "") && decide (f.color ≠ "") && decide (f.quantity ≠ ""))).map
        (fun f => { type := f.type, color := f.color, quantity := parseInt f.quantity }),
      user_email⟩ : Recipe),
    ?_, rfl, ?_, ?_, by decide, by decide, by decide⟩
  · rw [saveRecipe_of_valid user_email now recipes showRecipeModal form s (.ok id) rl hname hvalid]
    simp only [(logActivity_tables _ _ _ _ _ _).2.2.1]
  · intro f hf h1 h2 h3
    refine List.mem_map.mpr ⟨f, ?_, rfl⟩
    rw [List.mem_filter]
    exact ⟨hf, by simp [h1, h2, h3]⟩
  · intro fl hfl
    obtain ⟨f, hf, rfl⟩ := List.mem_map.mp hfl
    rw [List.mem_filter] at hf
    obtain ⟨hf, hcond⟩ := hf
    simp only [Bool.and_eq_true, decide_eq_true_eq] at hcond
    exact ⟨f, hf, hcond.1.1, hcond.1.2, hcond.2, rfl⟩

theorem saveRecipe_persisted_flowers_witness :
    ∃ row : Recipe,
      (saveRecipe "worker@farm.example" 9 [] true
          ⟨"Mix", [⟨1, "Roses", "Red", "0"⟩, ⟨2, "Tulips", "", "5"⟩]⟩ emptyStore
          (.ok 4) (.ok 5)).store.recipes = emptyStore.recipes ++ [row] ∧
      row.flowers = [⟨"Roses", "Red", some 0⟩] :=
  have h := saveRecipe_persisted_flowers "worker@farm.example" 9 [] true
    ⟨"Mix", [⟨1, "Roses", "Red", "0"⟩, ⟨2, "Tulips", "", "5"⟩]⟩ emptyStore 4 (.ok 5)
    (by decide) ⟨⟨1, "Roses", "Red", "0"⟩, by decide, by decide, by decide, by decide⟩
  h.elim fun row hrow => ⟨row, hrow.1, hrow.2.1.trans (by decide)⟩

/-- C20: a successful `saveRecipe` makes the recipe id from the number `n` of
recipes in the local cache alone: the id is `R` followed by the decimal text of
`n + 1` with as many `0` in front as are missing to three characters, so with
three cached recipes the id is `R004`; a second successful call made with a
cache of the same length, whatever the store, the user and the form, gets the
same id. -/
theorem saveRecipe_recipe_id (user_email : String) (now : Nat) (recipes : List Recipe)
    (showRecipeModal : Bool) (form : RecipeForm) (s : Store) (id : Nat) (rl : Reply)
    (hname : trim form.name ≠ "")
    (hvalid : ∃ f ∈ form.flowers, f.type ≠ "" ∧ f.color ≠ "" ∧ f.quantity ≠ "") :
    ∃ row : Recipe,
      (saveRecipe user_email now recipes showRecipeModal form s (.ok id) rl).store.recipes
        = s.recipes ++ [row] ∧
      row.recipe_id = "R" ++ String.mk
        (List.replicate (3 - (numberToString (recipes.length + 1)).toList.length) '0'
          ++ (numberToString (recipes.length + 1)).toList) ∧
      (recipes.length = 3 → row.recipe_id = "R004") ∧
      (∀ (user2 : String) (now2 : Nat) (recipes2 : List Recipe) (show2 : Bool)
          (form2 : RecipeForm) (s2 : Store) (id2 : Nat) (rl2 : Reply),
        trim form2.name ≠ "" →
        (∃ f ∈ form2.flowers, f.type ≠ "" ∧ f.color ≠ "" ∧ f.quantity ≠ "") →
        recipes2.length = recipes.length →
        ∃ row2 : Recipe,
          (saveRecipe user2 now2 recipes2 show2 form2 s2 (.ok id2) rl2).store.recipes
            = s2.recipes ++ [row2] ∧
          row2.recipe_id = row.recipe_id) := by
  refine ⟨(⟨id, "R" ++ padStart (numberToString (recipes.length + 1)) 3 '0', form.name,
      (form.flowers.filter (fun f =>
        decide (f.type ≠ "") && decide (f.color ≠ "") && decide (f.quantity ≠ ""))).map
        (fun f => { type := f.type, color := f.color, quantity := parseInt f.quantity }),
      user_email⟩ : Recipe),
    ?_, rfl, ?_, ?_⟩
  · rw [saveRecipe_of_valid user_email now recipes showRecipeModal form s (.ok id) rl hname hvalid]
    simp only [(logActivity_tables _ _ _ _ _ _).2.2.1]
  · intro h3
    show "R" ++ padStart (numberToString (recipes.length + 1)) 3 '0' = "R004"
    rw [h3]
    decide
  · intro user2 now2 recipes2 show2 form2 s2 id2 rl2 hname2 hvalid2 hlen
    refine ⟨(⟨id2, "R" ++ padStart (numberToString (recipes2.length + 1)) 3 '0', form2.name,
      (form2.flowers.filter (fun f =>
        decide (f.type ≠ "") && decide (f.color ≠ "") && decide (f.quantity ≠ ""))).map
        (fun f => { type := f.type, color := f.color, quantity := parseInt f.quantity }),
      user2⟩ : Recipe),
      ?_, ?_⟩
    · rw [saveRecipe_of_valid user2 now2 recipes2 show2 form2 s2 (.ok id2) rl2 hname2 hvalid2]
      simp only [(logActivity_tables _ _ _ _ _ _).2.2.1]
    · show "R" ++ padStart (numberToString (recipes2.length + 1)) 3 '0'
        = "R" ++ padStart (numberToString (recipes.length + 1)) 3 '0'
      rw [hlen]

theorem saveRecipe_recipe_id_witness :
    ∃ row : Recipe,
      (saveRecipe "worker@farm.example" 9
          [⟨3, "R003", "Garden Delight", [], "a@farm.example"⟩,
           ⟨2, "R002", "Romance Bundle", [], "a@farm.example"⟩,
           ⟨1, "R001", "Spring Mix", [], "a@farm.example"⟩]
          true ⟨"Mix", [⟨1, "Roses", "Red", "12"⟩]⟩ emptyStore (.ok 4) (.ok 5)).store.recipes
        = emptyStore.recipes ++ [row] ∧
      row.recipe_id = "R004" :=
  have h := saveRecipe_recipe_id "worker@farm.example" 9
    [⟨3, "R003", "Garden Delight", [], "a@farm.example"⟩,
     ⟨2, "R002", "Romance Bundle", [], "a@farm.example"⟩,
     ⟨1, "R001", "Spring Mix", [], "a@farm.example"⟩]
    true ⟨"Mix", [⟨1, "Roses", "Red", "12"⟩]⟩ emptyStore 4 (.ok 5)
    (by decide) ⟨⟨1, "Roses", "Red", "12"⟩, by decide, by decide, by decide, by decide⟩
  h.elim fun row hrow => ⟨row, hrow.1, hrow.2.2.1 rfl⟩

/-! ## Change events on the caches -/

/-- Replacing by key twice with the same record is replacing once. -/
theorem map_replace_idem {α : Type} (key : α → Nat) (prev : List α) (new : α) :
    (prev.map (fun x => if key x = key new then new else x)).map
        (fun x => if key x = key new then new else x)
      = prev.map (fun x => if key x = key new then new else x) := by
  rw [List.map_map]
  apply List.map_congr_left
  intro x _
  by_cases h : key x = key new <;> simp [h]

/-- C15: replaying the same UPDATE change event on a cached collection leaves
the cache as one application left it, for every cache and every payload: on the
Box, ProductionLine and Recipe caches the second replacement changes nothing,
on the ProducedBunch and LineAssignment caches an UPDATE is ignored both times;
the cache keeps its length, so no record is duplicated. -/
theorem update_event_idempotent (c : Client) (b : Box) (l : Line) (rc : Recipe) (bn : Bunch)
    (it : LineItem) :
    applyEvent (applyEvent c (.inventory (.UPDATE b))) (.inventory (.UPDATE b))
      = applyEvent c (.inventory (.UPDATE b)) ∧
    applyEvent (applyEvent c (.production_lines (.UPDATE l))) (.production_lines (.UPDATE l))
      = applyEvent c (.production_lines (.UPDATE l)) ∧
    applyEvent (applyEvent c (.recipes (.UPDATE rc))) (.recipes (.UPDATE rc))
      = applyEvent c (.recipes (.UPDATE rc)) ∧
    applyEvent (applyEvent c (.produced_bunches (.UPDATE bn))) (.produced_bunches (.UPDATE bn))
      = applyEvent c (.produced_bunches (.UPDATE bn)) ∧
    applyEvent (applyEvent c (.production_line_items (.UPDATE it)))
        (.production_line_items (.UPDATE it))
      = applyEvent c (.production_line_items (.UPDATE it)) ∧
    (applyEvent c (.inventory (.UPDATE b))).inventory.length = c.inventory.length ∧
    (applyEvent c (.production_lines (.UPDATE l))).productionLines.length
      = c.productionLines.length ∧
    (applyEvent c (.recipes (.UPDATE rc))).recipes.length = c.recipes.length := by
  refine ⟨?_, ?_, ?_, rfl, rfl, ?_, ?_, ?_⟩
  · simp only [applyEvent, onInventory]
    rw [map_replace_idem Box.id]
  · simp only [applyEvent, onProductionLines]
    rw [map_replace_idem Line.id]
  · simp only [applyEvent, onRecipes]
    rw [map_replace_idem Recipe.id]
  · simp [applyEvent, onInventory]
  · simp [applyEvent, onProductionLines]
  · simp [applyEvent, onRecipes]

/-- C16: an UPDATE change event on the Box, ProductionLine or Recipe cache keeps
the length of the cache and, position by position, puts the whole payload where
the cached record has the payload's id and keeps the cached record where it has
another id. -/
theorem update_event_replaces (c : Client) (b : Box) (l : Line) (rc : Recipe) :
    ((applyEvent c (.inventory (.UPDATE b))).inventory.length = c.inventory.length ∧
      ∀ (i : Nat) (x : Box), c.inventory[i]? = some x →
        (applyEvent c (.inventory (.UPDATE b))).inventory[i]?
          = some (if x.id = b.id then b else x)) ∧
    ((applyEvent c (.production_lines (.UPDATE l))).productionLines.length
        = c.productionLines.length ∧
      ∀ (i : Nat) (x : Line), c.productionLines[i]? = some x →
        (applyEvent c (.production_lines (.UPDATE l))).productionLines[i]?
          = some (if x.id = l.id then l else x)) ∧
    ((applyEvent c (.recipes (.UPDATE rc))).recipes.length = c.recipes.length ∧
      ∀ (i : Nat) (x : Recipe), c.recipes[i]? = some x →
        (applyEvent c (.recipes (.UPDATE rc))).recipes[i]?
          = some (if x.id = rc.id then rc else x)) := by
  refine ⟨⟨?_, ?_⟩, ⟨?_, ?_⟩, ⟨?_, ?_⟩⟩
  · simp [applyEvent, onInventory]
  · intro i x hx
    simp [applyEvent, onInventory, List.getElem?_map, hx]
  · simp [applyEvent, onProductionLines]
  · intro i x hx
    simp [applyEvent, onProductionLines, List.getElem?_map, hx]
  · simp [applyEvent, onRecipes]
  · intro i x hx
    simp [applyEvent, onRecipes, List.getElem?_map, hx]

theorem update_event_replaces_witness :
    sampleClient.productionLines[2]? = some ⟨3, "Line 3", "idle", some "Spring Mix", 15⟩ ∧
    (applyEvent sampleClient (.production_lines
        (.UPDATE ⟨3, "Line 3", "active", none, 16⟩))).productionLines[2]?
      = some ⟨3, "Line 3", "active", none, 16⟩ :=
  ⟨by decide,
   ((update_event_replaces sampleClient
      ⟨1, "BOX1700000000000", "ROSES", "RED", some 200, "stems", "checked-out",
        "worker@farm.example"⟩
      ⟨3, "Line 3", "active", none, 16⟩
      ⟨1, "R001", "Spring Mix", [], "worker@farm.example"⟩).2.1.2 2
      ⟨3, "Line 3", "idle", some "Spring Mix", 15⟩ (by decide)).trans (by decide)⟩

/-- C17: an INSERT change event puts the new record at the front of the Box,
Recipe and ProducedBunch caches and at the end of the LineAssignment cache; the
records already cached follow (or precede) it in their old order. -/
theorem insert_event_position (c : Client) (b : Box) (rc : Recipe) (bn : Bunch)
    (it : LineItem) :
    (applyEvent c (.inventory (.INSERT b))).inventory = b :: c.inventory ∧
    (applyEvent c (.recipes (.INSERT rc))).recipes = rc :: c.recipes ∧
    (applyEvent c (.produced_bunches (.INSERT bn))).producedBunches = bn :: c.producedBunches ∧
    (applyEvent c (.production_line_items (.INSERT it))).lineItems = c.lineItems ++ [it] ∧
    (∀ i : Nat, (applyEvent c (.inventory (.INSERT b))).inventory[i + 1]? = c.inventory[i]?) ∧
    (∀ i : Nat, (applyEvent c (.recipes (.INSERT rc))).recipes[i + 1]? = c.recipes[i]?) ∧
    (∀ i : Nat, (applyEvent c (.produced_bunches (.INSERT bn))).producedBunches[i + 1]?
      = c.producedBunches[i]?) ∧
    (∀ i : Nat, i < c.lineItems.length →
      (applyEvent c (.production_line_items (.INSERT it))).lineItems[i]? = c.lineItems[i]?) ∧
    (applyEvent c (.production_line_items (.INSERT it))).lineItems[c.lineItems.length]?
      = some it := by
  refine ⟨rfl, rfl, rfl, rfl, fun _ => ?_, fun _ => ?_, fun _ => ?_, ?_, ?_⟩
  · simp [applyEvent, onInventory]
  · simp [applyEvent, onRecipes]
  · simp [applyEvent, onProducedBunches]
  · intro i hi
    simp [applyEvent, onLineItems, List.getElem?_append_left hi]
  · simp [applyEvent, onLineItems]

/-- C18, as stated, fails: a DELETE change event for line 3 leaves the
ProductionLine cache as it was, line 3 included, and a DELETE change event for
a produced bunch leaves the ProducedBunch cache as it was. -/
theorem delete_event_ignored_counterexample :
    (applyEvent sampleClient (.production_lines
        (.DELETE ⟨3, "Line 3", "idle", some "Spring Mix", 15⟩))).productionLines
      = [⟨1, "Line 1", "idle", none, 0⟩, ⟨2, "Line 2", "idle", none, 0⟩,
         ⟨3, "Line 3", "idle", some "Spring Mix", 15⟩] ∧
    (applyEvent
        { sampleClient with
          producedBunches := [⟨7, "BUN100", "Spring Mix", 3, "worker@farm.example",
            "completed"⟩] }
        (.produced_bunches (.DELETE ⟨7, "BUN100", "Spring Mix", 3, "worker@farm.example",
            "completed"⟩))).producedBunches
      = [⟨7, "BUN100", "Spring Mix", 3, "worker@farm.example", "completed"⟩] := by
  decide

/-- C18, amended: on the Box, Recipe and LineAssignment caches a DELETE change
event removes every record whose id equals the deleted row's id and leaves every
other record in place, in the old order; on the ProductionLine and ProducedBunch
caches a DELETE change event is ignored and the cache stays as it was. -/
theorem delete_event_removes (c : Client) (b : Box) (l : Line) (rc : Recipe) (bn : Bunch)
    (it : LineItem) :
    ((∀ x, x ∈ (applyEvent c (.inventory (.DELETE b))).inventory
        ↔ x ∈ c.inventory ∧ x.id ≠ b.id) ∧
      List.Sublist (applyEvent c (.inventory (.DELETE b))).inventory c.inventory) ∧
    ((∀ x, x ∈ (applyEvent c (.recipes (.DELETE rc))).recipes
        ↔ x ∈ c.recipes ∧ x.id ≠ rc.id) ∧
      List.Sublist (applyEvent c (.recipes (.DELETE rc))).recipes c.recipes) ∧
    ((∀ x, x ∈ (applyEvent c (.production_line_items (.DELETE it))).lineItems
        ↔ x ∈ c.lineItems ∧ x.id ≠ it.id) ∧
      List.Sublist (applyEvent c (.production_line_items (.DELETE it))).lineItems c.lineItems) ∧
    applyEvent c (.production_lines (.DELETE l)) = c ∧
    applyEvent c (.produced_bunches (.DELETE bn)) = c := by
  refine ⟨⟨?_, ?_⟩, ⟨?_, ?_⟩, ⟨?_, ?_⟩, rfl, rfl⟩
  · intro x
    simp [applyEvent, onInventory, List.mem_filter]
  · exact List.filter_sublist _
  · intro x
    simp [applyEvent, onRecipes, List.mem_filter]
  · exact List.filter_sublist _
  · intro x
    simp [applyEvent, onLineItems, List.mem_filter]
  · exact List.filter_sublist _

/-! ## The produced bunch -/

/-- An output scan of the demo on a line that `find` returns. -/
theorem simulateScan_output (now : Nat) (st : DemoState) (L : Nat) (line : DemoLine)
    (hL : L ≠ 0)
    (hfind : st.productionLines.find? (fun l => decide (l.id = L)) = some line) :
    simulateScan now st (some "output") (some L)
      = some { st with
          producedBunches := st.producedBunches ++
            [{ id := "BUN" ++ padStart (numberToString (st.producedBunches.length + 1)) 3 '0'
               recipe := (match line.recipe with
                 | some r => if r = "" then "Unknown" else r
                 | none => "Unknown")
               line := L, timestamp := now, status := "completed" }]
          productionLines := st.productionLines.map (fun l =>
            if l.id = L then { l with produced := l.produced + 1 } else l) } := by
  have ht : truthyLine (some L) = some L := by
    cases L with
    | zero => exact absurd rfl hL
    | succ n => rfl
  have h1 : (some "output" : Option String) ≠ some "inventory" := by decide
  have h2 : (some "output" : Option String) ≠ some "checkout" := by decide
  unfold simulateScan
  simp only [h1, h2, if_false, ht, hfind]

/-- C19: `completeBunch` on token and line `L`, when the store accepts the
insert, adds one ProducedBunch whose bunch id is the scanned token, whose line
is `L` and whose status is `completed`; its recipe name is the active recipe of
the cached line `L` when one is set, and `Unknown` when none is set or the line
is not cached.  The output scan of the demo does the same with the recipe of
the line and the generated token. -/
theorem completeBunch_bunch_row (user_email : String) (cache : List Line) (s : Store)
    (token : String) (L i1 : Nat) (r2 rl : Reply) :
    (∃ name : String,
      (completeBunch user_email cache s token L (.ok i1) r2 rl).store.produced_bunches
        = s.produced_bunches ++ [⟨i1, token, name, L, user_email, "completed"⟩] ∧
      (∀ (l : Line) (r : String), cache.find? (fun l => decide (l.id = L)) = some l →
        l.active_recipe_id = some r → r ≠ "" → name = r) ∧
      (∀ l : Line, cache.find? (fun l => decide (l.id = L)) = some l →
        l.active_recipe_id = none ∨ l.active_recipe_id = some "" → name = "Unknown") ∧
      (cache.find? (fun l => decide (l.id = L)) = none → name = "Unknown")) ∧
    (∀ (now : Nat) (st : DemoState) (line : DemoLine), L ≠ 0 →
      st.productionLines.find? (fun l => decide (l.id = L)) = some line →
      ∃ (st1 : DemoState) (name : String),
        simulateScan now st (some "output") (some L) = some st1 ∧
        st1.producedBunches = st.producedBunches ++
          [⟨"BUN" ++ padStart (numberToString (st.producedBunches.length + 1)) 3 '0', name, L,
            now, "completed"⟩] ∧
        (∀ r : String, line.recipe = some r → r ≠ "" → name = r) ∧
        (line.recipe = none ∨ line.recipe = some "" → name = "Unknown")) := by
  constructor
  · refine ⟨recipeNameOf (cache.find? (fun l => decide (l.id = L))), ?_, ?_, ?_, ?_⟩
    · cases r2 <;> simp [completeBunch, logActivity_tables]
    · intro l r hf hr hne
      simp [recipeNameOf, hf, hr, hne]
    · intro l hf hr
      rcases hr with hr | hr <;> simp [recipeNameOf, hf, hr]
    · intro hf
      simp [recipeNameOf, hf]
  · intro now st line hL hfind
    refine ⟨_, (match line.recipe with
        | some r => if r = "" then "Unknown" else r
        | none => "Unknown"), simulateScan_output now st L line hL hfind, rfl, ?_, ?_⟩
    · intro r hr hne
      simp [hr, hne]
    · intro hr
      rcases hr with hr | hr <;> simp [hr]

theorem completeBunch_bunch_row_witness :
    ∃ name : String,
      (completeBunch "worker@farm.example" sampleClient.productionLines sampleStore "BUN100" 3
          (.ok 1) (.ok 0) (.ok 0)).store.produced_bunches
        = sampleStore.produced_bunches
            ++ [⟨1, "BUN100", name, 3, "worker@farm.example", "completed"⟩] ∧
      name = "Spring Mix" :=
  have h := (completeBunch_bunch_row "worker@farm.example" sampleClient.productionLines
    sampleStore "BUN100" 3 1 (.ok 0) (.ok 0)).1
  h.elim fun name hn =>
    ⟨name, hn.1, hn.2.1 ⟨3, "Line 3", "idle", some "Spring Mix", 15⟩ "Spring Mix"
      (by decide) rfl (by decide)⟩

/-! ## What the operations do to existing boxes -/

theorem forall₂_map_self {α : Type} (R : α → α → Prop) (f : α → α) (l : List α)
    (h : ∀ x ∈ l, R x (f x)) : List.Forall₂ R l (l.map f) := by
  induction l with
  | nil => exact List.Forall₂.nil
  | cons a l ih =>
    exact List.Forall₂.cons (h a (by simp)) (ih (fun x hx => h x (by simp [hx])))

theorem checked_out_ne_inventory : ("checked-out" : String) ≠ "inventory" := by decide

theorem line_location_ne_inventory (L : Nat) : "line-" ++ numberToString L ≠ "inventory" := by
  intro h
  have h2 := congrArg String.data h
  rw [String.data_append] at h2
  have h3 : ("line-" : String).data = ['l', 'i', 'n', 'e', '-'] := rfl
  have h4 : ("inventory" : String).data = ['i', 'n', 'v', 'e', 'n', 't', 'o', 'r', 'y'] := rfl
  rw [h3, h4] at h2
  simp at h2

/-- The inventory after one of the four operations is the old inventory, row by
row, where a row is either kept or, if its box id is the scanned one, given the
new location and the user. -/
theorem inventory_after_operation (user_email : String) (s : Store) (boxId : String)
    (L : Nat) (token : String) (cache : List Line) (now : Nat) (recipes : List Recipe)
    (showRecipeModal : Bool) (form : RecipeForm) (r r1 r2 r3 rl : Reply) (s1 : Store)
    (h : s1 = (checkoutBox user_email s boxId r rl).store ∨
      s1 = (assignToLine user_email s boxId L r1 r2 r3 rl).store ∨
      s1 = (completeBunch user_email cache s token L r1 r2 rl).store ∨
      s1 = (saveRecipe user_email now recipes showRecipeModal form s r rl).store) :
    ∃ f : Box → Box, s1.inventory = s.inventory.map f ∧
      ∀ x, f x = x ∨ (x.box_id = boxId ∧
        (f x = { x with location := "checked-out", updated_by := user_email } ∨
         f x = { x with location := "line-" ++ numberToString L, updated_by := user_email })) := by
  have keep : ∃ f : Box → Box, s.inventory = s.inventory.map f ∧
      ∀ x, f x = x ∨ (x.box_id = boxId ∧
        (f x = { x with location := "checked-out", updated_by := user_email } ∨
         f x = { x with location := "line-" ++ numberToString L, updated_by := user_email })) :=
    ⟨id, by simp, fun x => Or.inl rfl⟩
  rcases h with h | h | h | h
  · subst h
    cases r with
    | error m => exact keep
    | ok i =>
      refine ⟨fun b => if b.box_id = boxId then
        { b with location := "checked-out", updated_by := user_email } else b, ?_, ?_⟩
      · exact (checkoutBox_accepted user_email s boxId i rl).1
      · intro x
        by_cases hx : x.box_id = boxId
        · exact Or.inr ⟨hx, Or.inl (by simp [hx])⟩
        · exact Or.inl (by simp [hx])
  · subst h
    cases r1 with
    | error m => exact keep
    | ok i1 =>
      refine ⟨fun b => if b.box_id = boxId then
        { b with location := "line-" ++ numberToString L, updated_by := user_email } else b,
        ?_, ?_⟩
      · cases r2 <;> cases r3 <;> simp [assignToLine, logActivity_tables, updateWhere]
      · intro x
        by_cases hx : x.box_id = boxId
        · exact Or.inr ⟨hx, Or.inr (by simp [hx])⟩
        · exact Or.inl (by simp [hx])
  · subst h
    have : (completeBunch user_email cache s token L r1 r2 rl).store.inventory = s.inventory := by
      cases r1 <;> cases r2 <;> simp [completeBunch, logActivity_tables]
    rw [this]
    exact keep
  · subst h
    have : (saveRecipe user_email now recipes showRecipeModal form s r rl).store.inventory
        = s.inventory := by
      unfold saveRecipe
      split
      · rfl
      · simp only []
        split
        · rfl
        · cases r <;> simp [logActivity_tables]
    rw [this]
    exact keep

/-- The inventory after a simulated scan of the demo in a mode other than
`inventory` is the old inventory, record by record, where a record is either
kept or given the location `checked-out` or `line-N` and the clock reading. -/
theorem simulateScan_inventory_shape (now : Nat) (st st1 : DemoState) (scanMode : Option String)
    (selectedLine : Option Nat) (hmode : scanMode ≠ some "inventory")
    (h : simulateScan now st scanMode selectedLine = some st1) :
    ∃ f : DemoBox → DemoBox, st1.inventory = st.inventory.map f ∧
      ∀ x, f x = x ∨
        f x = { x with location := "checked-out", date := now } ∨
        ∃ N : Nat, f x = { x with location := "line-" ++ numberToString N, date := now } := by
  have keep : ∃ f : DemoBox → DemoBox, st.inventory = st.inventory.map f ∧
      ∀ x, f x = x ∨
        f x = { x with location := "checked-out", date := now } ∨
        ∃ N : Nat, f x = { x with location := "line-" ++ numberToString N, date := now } :=
    ⟨id, by simp, fun x => Or.inl rfl⟩
  unfold simulateScan at h
  simp only [hmode, if_false] at h
  split at h
  · injection h with h
    subst h
    refine ⟨_, rfl, ?_⟩
    intro x
    split
    · exact Or.inr (Or.inl rfl)
    · exact Or.inl rfl
  · split at h
    · injection h with h
      subst h
      refine ⟨_, rfl, ?_⟩
      intro x
      split
      · exact Or.inr (Or.inr ⟨_, rfl⟩)
      · exact Or.inl rfl
    · split at h
      · exact absurd h (by simp)
      · injection h with h
        subst h
        exact keep
    · injection h with h
      subst h
      exact keep

/-- C21: no operation moves an existing box back to `inventory`.  After
`checkoutBox`, `assignToLine`, `completeBunch` or `saveRecipe`, whatever the
store answers, the inventory holds the same rows in the same order, and a row
has location `inventory` only if it had it before; the location of a row is
the old one, `checked-out`, or `line-L` for the scanned line `L`.  The same
holds for a simulated scan of the demo in the modes `checkout`, `line` and
`output`. -/
theorem operations_never_return_to_inventory (user_email : String) (s : Store)
    (boxId : String) (L : Nat) (token : String) (cache : List Line) (now : Nat)
    (recipes : List Recipe) (showRecipeModal : Bool) (form : RecipeForm)
    (r r1 r2 r3 rl : Reply) (s1 : Store)
    (h : s1 = (checkoutBox user_email s boxId r rl).store ∨
      s1 = (assignToLine user_email s boxId L r1 r2 r3 rl).store ∨
      s1 = (completeBunch user_email cache s token L r1 r2 rl).store ∨
      s1 = (saveRecipe user_email now recipes showRecipeModal form s r rl).store) :
    List.Forall₂
      (fun (x y : Box) => y.id = x.id ∧ y.box_id = x.box_id ∧
        (y.location = "inventory" → x.location = "inventory") ∧
        (y.location = x.location ∨ y.location = "checked-out" ∨
          y.location = "line-" ++ numberToString L))
      s.inventory s1.inventory ∧
    (∀ (st st1 : DemoState) (scanMode : Option String) (selectedLine : Option Nat),
      scanMode ≠ some "inventory" →
      simulateScan now st scanMode selectedLine = some st1 →
      List.Forall₂
        (fun (x y : DemoBox) => y.id = x.id ∧
          (y.location = "inventory" → x.location = "inventory") ∧
          (y.location = x.location ∨ y.location = "checked-out" ∨
            ∃ N : Nat, y.location = "line-" ++ numberToString N))
        st.inventory st1.inventory) := by
  constructor
  · obtain ⟨f, hf, hcases⟩ := inventory_after_operation user_email s boxId L token cache now
      recipes showRecipeModal form r r1 r2 r3 rl s1 h
    rw [hf]
    apply forall₂_map_self
    intro x _
    rcases hcases x with hx | ⟨_, hx | hx⟩ <;> rw [hx]
    · exact ⟨rfl, rfl, id, Or.inl rfl⟩
    · exact ⟨rfl, rfl, fun e => absurd e checked_out_ne_inventory, Or.inr (Or.inl rfl)⟩
    · exact ⟨rfl, rfl, fun e => absurd e (line_location_ne_inventory L), Or.inr (Or.inr rfl)⟩
  · intro st st1 scanMode selectedLine hmode hscan
    obtain ⟨f, hf, hcases⟩ := simulateScan_inventory_shape now st st1 scanMode selectedLine
      hmode hscan
    rw [hf]
    apply forall₂_map_self
    intro x _
    rcases hcases x with hx | hx | ⟨N, hx⟩ <;> rw [hx]
    · exact ⟨rfl, id, Or.inl rfl⟩
    · exact ⟨rfl, fun e => absurd e checked_out_ne_inventory, Or.inr (Or.inl rfl)⟩
    · exact ⟨rfl, fun e => absurd e (line_location_ne_inventory N), Or.inr (Or.inr ⟨N, rfl⟩)⟩

theorem operations_never_return_to_inventory_witness :
    List.Forall₂
      (fun (x y : Box) => y.id = x.id ∧ y.box_id = x.box_id ∧
        (y.location = "inventory" → x.location = "inventory") ∧
        (y.location = x.location ∨ y.location = "checked-out" ∨
          y.location = "line-" ++ numberToString 3))
      sampleStore.inventory
      (checkoutBox "worker@farm.example" sampleStore "BOX1700000000000" (.ok 0)
        (.ok 0)).store.inventory :=
  (operations_never_return_to_inventory "worker@farm.example" sampleStore "BOX1700000000000" 3
    "BUN100" [] 9 [] false ⟨"", []⟩ (.ok 0) (.ok 0) (.ok 0) (.ok 0) (.ok 0)
    (checkoutBox "worker@farm.example" sampleStore "BOX1700000000000" (.ok 0) (.ok 0)).store
    (Or.inl rfl)).1

/-- A line scan of the demo for a selected line. -/
theorem simulateScan_line (now : Nat) (st : DemoState) (L : Nat) (hL : L ≠ 0) :
    simulateScan now st (some "line") (some L)
      = some { st with
          inventory := st.inventory.map (fun item =>
            if some item.id
                = (st.inventory.find? (fun item => decide (item.location = "inventory"))).map
                    (fun b => b.id)
            then { item with location := "line-" ++ numberToString L, date := now }
            else item)
          productionLines := st.productionLines.map (fun line =>
            if line.id = L then
              { line with
                items := line.items ++
                  [(st.inventory.find? (fun item => decide (item.location = "inventory"))).map
                    (fun b => b.id)]
                status := "active" }
            else line) } := by
  have ht : truthyLine (some L) = some L := by
    cases L with
    | zero => exact absurd rfl hL
    | succ n => rfl
  have h1 : (some "line" : Option String) ≠ some "inventory" := by decide
  have h2 : (some "line" : Option String) ≠ some "checkout" := by decide
  unfold simulateScan
  simp only [h1, h2, if_false, ht]

/-- C22: `checkoutBox` and `assignToLine`, whatever the store answers, keep the
rows of the inventory in their order and change no field of a row other than
its location and `updated_by`: id, box id, flower type, color, quantity and unit
are as before, and a row whose box id is not the scanned one is unchanged.  In
the demo the checkout scan and the line scan change only location and date of
the records with the scanned id and nothing of the others. -/
theorem scanned_box_frame (user_email : String) (s : Store) (boxId : String) (L : Nat)
    (r r1 r2 r3 rl : Reply) (s1 : Store)
    (h : s1 = (checkoutBox user_email s boxId r rl).store ∨
      s1 = (assignToLine user_email s boxId L r1 r2 r3 rl).store) :
    List.Forall₂
      (fun (x y : Box) => y.id = x.id ∧ y.box_id = x.box_id ∧
        y.flower_type = x.flower_type ∧ y.color = x.color ∧ y.quantity = x.quantity ∧
        y.unit = x.unit ∧ (x.box_id ≠ boxId → y = x))
      s.inventory s1.inventory ∧
    (∀ (now : Nat) (st st1 : DemoState) (selectedLine : Option Nat) (N : Nat), N ≠ 0 →
      (simulateScan now st (some "checkout") selectedLine = some st1 ∨
        simulateScan now st (some "line") (some N) = some st1) →
      List.Forall₂
        (fun (x y : DemoBox) => y.id = x.id ∧ y.type = x.type ∧ y.color = x.color ∧
          y.quantity = x.quantity ∧ y.unit = x.unit ∧
          (some x.id ≠ (st.inventory.find?
              (fun item => decide (item.location = "inventory"))).map (fun b => b.id)
            → y = x))
        st.inventory st1.inventory) := by
  constructor
  · obtain ⟨f, hf, hcases⟩ := inventory_after_operation user_email s boxId L "" [] 0 [] false
      ⟨"", []⟩ r r1 r2 r3 rl s1 (h.elim Or.inl (fun h2 => Or.inr (Or.inl h2)))
    rw [hf]
    apply forall₂_map_self
    intro x _
    rcases hcases x with hx | ⟨hid, hx | hx⟩ <;> rw [hx]
    · exact ⟨rfl, rfl, rfl, rfl, rfl, rfl, fun _ => rfl⟩
    · exact ⟨rfl, rfl, rfl, rfl, rfl, rfl, fun hne => absurd hid hne⟩
    · exact ⟨rfl, rfl, rfl, rfl, rfl, rfl, fun hne => absurd hid hne⟩
  · intro now st st1 selectedLine N hN hscan
    rcases hscan with hscan | hscan
    · rw [simulateScan_checkout] at hscan
      injection hscan with hscan
      subst hscan
      apply forall₂_map_self
      intro x _
      split
      · rename_i hx
        exact ⟨rfl, rfl, rfl, rfl, rfl, fun hne => absurd hx hne⟩
      · exact ⟨rfl, rfl, rfl, rfl, rfl, fun _ => rfl⟩
    · rw [simulateScan_line now st N hN] at hscan
      injection hscan with hscan
      subst hscan
      apply forall₂_map_self
      intro x _
      split
      · rename_i hx
        exact ⟨rfl, rfl, rfl, rfl, rfl, fun hne => absurd hx hne⟩
      · exact ⟨rfl, rfl, rfl, rfl, rfl, fun _ => rfl⟩

theorem scanned_box_frame_witness :
    List.Forall₂
      (fun (x y : Box) => y.id = x.id ∧ y.box_id = x.box_id ∧
        y.flower_type = x.flower_type ∧ y.color = x.color ∧ y.quantity = x.quantity ∧
        y.unit = x.unit ∧ (x.box_id ≠ "BOX1700000000000" → y = x))
      sampleStore.inventory
      (assignToLine "worker@farm.example" sampleStore "BOX1700000000000" 3 (.ok 0) (.ok 11)
        (.ok 0) (.ok 0)).store.inventory :=
  (scanned_box_frame "worker@farm.example" sampleStore "BOX1700000000000" 3
    (.ok 0) (.ok 0) (.ok 11) (.ok 0) (.ok 0)
    (assignToLine "worker@farm.example" sampleStore "BOX1700000000000" 3 (.ok 0) (.ok 11)
      (.ok 0) (.ok 0)).store (Or.inr rfl)).1

/-! ## A line scan of the demo with nothing in inventory -/

/-- C30: in the demo, a simulated scan in `line` mode for the selected line `L`
when no box has location `inventory` leaves the inventory as it was, appends an
undefined box id to the items of every line with id `L` and sets its status to
`active`; that entry is the id of no box. -/
theorem simulateScan_line_without_inventory (now : Nat) (st : DemoState) (L : Nat)
    (hL : L ≠ 0) (hnone : ∀ b ∈ st.inventory, b.location ≠ "inventory") :
    ∃ st1 : DemoState,
      simulateScan now st (some "line") (some L) = some st1 ∧
      st1.inventory = st.inventory ∧
      st1.producedBunches = st.producedBunches ∧
      st1.productionLines = st.productionLines.map (fun line =>
        if line.id = L then { line with items := line.items ++ [none], status := "active" }
        else line) ∧
      (∀ line ∈ st.productionLines, line.id = L →
        ∃ line1 ∈ st1.productionLines,
          line1.id = L ∧ line1.status = "active" ∧ line1.items = line.items ++ [none] ∧
          none ∈ line1.items) ∧
      (∀ b ∈ st1.inventory, some b.id ≠ (none : Option String)) := by
  have hfind : st.inventory.find? (fun item => decide (item.location = "inventory")) = none := by
    rw [List.find?_eq_none]
    intro b hb
    simpa using hnone b hb
  refine ⟨_, simulateScan_line now st L hL, ?_, rfl, ?_, ?_, ?_⟩
  · rw [hfind]
    simp
  · rw [hfind]
    rfl
  · intro line hline hid
    refine ⟨{ line with items := line.items ++ [none], status := "active" }, ?_, hid, rfl, rfl,
      by simp⟩
    rw [hfind]
    exact List.mem_map.mpr ⟨line, hline, by simp [hid]⟩
  · intro b _ hb
    exact Option.noConfusion hb

theorem simulateScan_line_without_inventory_witness :
    ∃ st1 : DemoState,
      simulateScan 5
          { demoInitial 0 with
            inventory := [⟨"BOX003", "Lilies", "White", 100, "stems", "line-1", 0⟩] }
          (some "line") (some 2) = some st1 ∧
      st1.inventory = [⟨"BOX003", "Lilies", "White", 100, "stems", "line-1", 0⟩] :=
  have h := simulateScan_line_without_inventory 5
    { demoInitial 0 with
      inventory := [⟨"BOX003", "Lilies", "White", 100, "stems", "line-1", 0⟩] }
    2 (by decide) (by decide)
  h.elim fun st1 h1 => ⟨st1, h1.1, h1.2.1⟩

/-! ## The set of production lines -/

theorem applyEvent_line_ids (c : Client) (e : Event) :
    (applyEvent c e).productionLines.map Line.id = c.productionLines.map Line.id := by
  cases e with
  | production_lines p =>
    cases p with
    | UPDATE new =>
      simp only [applyEvent, onProductionLines, List.map_map]
      apply List.map_congr_left
      intro x _
      by_cases hx : x.id = new.id <;> simp [hx]
    | INSERT new => rfl
    | DELETE old => rfl
  | inventory p => rfl
  | recipes p => rfl
  | produced_bunches p => rfl
  | production_line_items p => rfl

theorem reconcile_line_ids (c : Client) (events : List Event) :
    (reconcile c events).productionLines.map Line.id = c.productionLines.map Line.id := by
  induction events generalizing c with
  | nil => rfl
  | cons e es ih =>
    have step : reconcile c (e :: es) = reconcile (applyEvent c e) es := rfl
    rw [step, ih, applyEvent_line_ids]

/-- A simulated scan of the demo keeps the ids of the lines. -/
theorem simulateScan_line_ids (now : Nat) (st st1 : DemoState) (scanMode : Option String)
    (selectedLine : Option Nat) (h : simulateScan now st scanMode selectedLine = some st1) :
    st1.productionLines.map DemoLine.id = st.productionLines.map DemoLine.id := by
  unfold simulateScan at h
  split at h
  · injection h with h
    subst h
    rfl
  · split at h
    · injection h with h
      subst h
      rfl
    · split at h
      · injection h with h
        subst h
        simp only [List.map_map]
        apply List.map_congr_left
        intro x _
        simp only [Function.comp]
        split <;> rfl
      · split at h
        · exact absurd h (by simp)
        · injection h with h
          subst h
          simp only [List.map_map]
          apply List.map_congr_left
          intro x _
          simp only [Function.comp]
          split <;> rfl
      · injection h with h
        subst h
        rfl

theorem demoStep_line_ids (st : DemoState) (k : DemoScan) :
    (demoStep st k).productionLines.map DemoLine.id = st.productionLines.map DemoLine.id := by
  unfold demoStep
  cases h : simulateScan k.now st k.scanMode k.selectedLine with
  | none => rfl
  | some st1 => exact simulateScan_line_ids _ _ _ _ _ h

theorem demoRun_line_ids (st : DemoState) (scans : List DemoScan) :
    (demoRun st scans).productionLines.map DemoLine.id = st.productionLines.map DemoLine.id := by
  induction scans generalizing st with
  | nil => rfl
  | cons k ks ih =>
    have step : demoRun st (k :: ks) = demoRun (demoStep st k) ks := rfl
    rw [step, ih, demoStep_line_ids]

/-- C23: the set of production lines of the local state is fixed.  No change
event, on any table and of any kind (INSERT, UPDATE or DELETE on production
lines included), changes the list of the ids of the cached lines or their
number, so no feed of a scan operation does either; in the demo the lines of
every state reached from the initial state by simulated scans have exactly the
ids 1 to 10, in this order. -/
theorem production_lines_fixed (c : Client) (e : Event) (events : List Event) (now : Nat)
    (scans : List DemoScan) :
    (applyEvent c e).productionLines.map Line.id = c.productionLines.map Line.id ∧
    (applyEvent c e).productionLines.length = c.productionLines.length ∧
    (reconcile c events).productionLines.map Line.id = c.productionLines.map Line.id ∧
    (reconcile c events).productionLines.length = c.productionLines.length ∧
    (demoRun (demoInitial now) scans).productionLines.map DemoLine.id
      = [1, 2, 3, 4, 5, 6, 7, 8, 9, 10] ∧
    (demoRun (demoInitial now) scans).productionLines.length = 10 := by
  have h1 := applyEvent_line_ids c e
  have h2 := reconcile_line_ids c events
  have h3 : (demoRun (demoInitial now) scans).productionLines.map DemoLine.id
      = [1, 2, 3, 4, 5, 6, 7, 8, 9, 10] := by
    rw [demoRun_line_ids]
    rfl
  refine ⟨h1, ?_, h2, ?_, h3, ?_⟩
  · simpa using congrArg List.length h1
  · simpa using congrArg List.length h2
  · simpa using congrArg List.length h3

/-! ## The non-transactional writes -/

/-- C27: when the store accepts the box update of `assignToLine` and rejects the
insert of the LineAssignment, the operation stops there and rolls nothing back:
the rows of the scanned box keep location `line-L`, the LineAssignment table,
the lines and the activity log are as before, the only change events are those
of the box update, and the user is shown the error of the insert. -/
theorem assignToLine_insert_rejected (user_email : String) (s : Store) (boxId : String)
    (L i1 : Nat) (message : String) (r3 rl : Reply) :
    assignToLine user_email s boxId L (.ok i1) (.error message) r3 rl
      = ⟨{ s with inventory := s.inventory.map (fun b =>
            if b.box_id = boxId then
              { b with location := "line-" ++ numberToString L, updated_by := user_email }
            else b) },
          ((s.inventory.filter (fun b => decide (b.box_id = boxId))).map
            (fun b => ({ b with location := "line-" ++ numberToString L,
                                updated_by := user_email } : Box))).map
            (fun b => Event.inventory (.UPDATE b)),
          ["Error assigning to line: " ++ message]⟩ ∧
    (∀ b ∈ s.inventory, b.box_id = boxId →
      ({ b with location := "line-" ++ numberToString L, updated_by := user_email } : Box)
        ∈ (assignToLine user_email s boxId L (.ok i1) (.error message) r3 rl).store.inventory) ∧
    (∀ b ∈ (assignToLine user_email s boxId L (.ok i1) (.error message) r3 rl).store.inventory,
      b.box_id = boxId → b.location = "line-" ++ numberToString L) ∧
    (assignToLine user_email s boxId L (.ok i1) (.error message) r3
        rl).store.production_line_items = s.production_line_items ∧
    (assignToLine user_email s boxId L (.ok i1) (.error message) r3 rl).store.production_lines
      = s.production_lines ∧
    (assignToLine user_email s boxId L (.ok i1) (.error message) r3 rl).store.activity_log
      = s.activity_log := by
  have hout : assignToLine user_email s boxId L (.ok i1) (.error message) r3 rl
      = ⟨{ s with inventory := s.inventory.map (fun b =>
            if b.box_id = boxId then
              { b with location := "line-" ++ numberToString L, updated_by := user_email }
            else b) },
          ((s.inventory.filter (fun b => decide (b.box_id = boxId))).map
            (fun b => ({ b with location := "line-" ++ numberToString L,
                                updated_by := user_email } : Box))).map
            (fun b => Event.inventory (.UPDATE b)),
          ["Error assigning to line: " ++ message]⟩ := by
    simp [assignToLine, updateWhere, updatedRows]
  rw [hout]
  refine ⟨rfl, ?_, ?_, rfl, rfl, rfl⟩
  · intro b hb hid
    exact List.mem_map.mpr ⟨b, hb, by simp [hid]⟩
  · intro b hb hid
    obtain ⟨y, _, rfl⟩ := List.mem_map.mp hb
    by_cases hy : y.box_id = boxId
    · simp [hy]
    · simp [hy] at hid

/-- C28: `completeBunch` computes the new count from the local cache.  Two
accepted calls on line `L` made against the same cache, whose row of `L` is
`lc`, both write `lc.produced_count + 1`: after the second call the stored
lines are those after the first, so a stored line of `L` whose count was the
cached one has risen by 1 in total, while both bunches have been inserted. -/
theorem completeBunch_lost_increment (user_email : String) (cache : List Line) (s : Store)
    (t1 t2 : String) (L i1 i2 j1 j2 : Nat) (rl1 rl2 : Reply) (lc : Line)
    (hfind : cache.find? (fun l => decide (l.id = L)) = some lc) :
    (completeBunch user_email cache s t1 L (.ok i1) (.ok i2) rl1).store.production_lines
      = s.production_lines.map
          (fun l => if l.id = L then { l with produced_count := lc.produced_count + 1 } else l) ∧
    (completeBunch user_email cache
        (completeBunch user_email cache s t1 L (.ok i1) (.ok i2) rl1).store t2 L
        (.ok j1) (.ok j2) rl2).store.production_lines
      = s.production_lines.map
          (fun l => if l.id = L then { l with produced_count := lc.produced_count + 1 } else l) ∧
    (∀ l ∈ s.production_lines, l.id = L → l.produced_count = lc.produced_count →
      ({ l with produced_count := l.produced_count + 1 } : Line)
        ∈ (completeBunch user_email cache
            (completeBunch user_email cache s t1 L (.ok i1) (.ok i2) rl1).store t2 L
            (.ok j1) (.ok j2) rl2).store.production_lines) ∧
    (∀ l ∈ (completeBunch user_email cache
            (completeBunch user_email cache s t1 L (.ok i1) (.ok i2) rl1).store t2 L
            (.ok j1) (.ok j2) rl2).store.production_lines,
      l.id = L → l.produced_count = lc.produced_count + 1) ∧
    (completeBunch user_email cache
        (completeBunch user_email cache s t1 L (.ok i1) (.ok i2) rl1).store t2 L
        (.ok j1) (.ok j2) rl2).store.produced_bunches
      = s.produced_bunches ++
          [⟨i1, t1, recipeNameOf (some lc), L, user_email, "completed"⟩,
           ⟨j1, t2, recipeNameOf (some lc), L, user_email, "completed"⟩] := by
  obtain ⟨hl1, hb1, -⟩ := completeBunch_accepted user_email cache s t1 L i1 i2 rl1
  obtain ⟨hl2, hb2, -⟩ := completeBunch_accepted user_email cache
    (completeBunch user_email cache s t1 L (.ok i1) (.ok i2) rl1).store t2 L j1 j2 rl2
  have e1 : (completeBunch user_email cache s t1 L (.ok i1) (.ok i2) rl1).store.production_lines
      = s.production_lines.map
          (fun l => if l.id = L then { l with produced_count := lc.produced_count + 1 }
            else l) := by
    rw [hl1, hfind, nextCount_some]
    simp [updateWhere]
  have e2 : (completeBunch user_email cache
        (completeBunch user_email cache s t1 L (.ok i1) (.ok i2) rl1).store t2 L
        (.ok j1) (.ok j2) rl2).store.production_lines
      = s.production_lines.map
          (fun l => if l.id = L then { l with produced_count := lc.produced_count + 1 }
            else l) := by
    rw [hl2, e1, hfind, nextCount_some]
    simp only [updateWhere, List.map_map]
    apply List.map_congr_left
    intro x _
    by_cases hx : x.id = L <;> simp [hx]
  refine ⟨e1, e2, ?_, ?_, ?_⟩
  · intro l hl hid hcount
    rw [e2]
    exact List.mem_map.mpr ⟨l, hl, by simp [hid, hcount]⟩
  · intro l hl hid
    rw [e2] at hl
    obtain ⟨y, _, rfl⟩ := List.mem_map.mp hl
    by_cases hy : y.id = L
    · simp [hy]
    · simp [hy] at hid
  · rw [hb2, hb1, hfind]
    simp

theorem completeBunch_lost_increment_witness :
    sampleClient.productionLines.find? (fun l => decide (l.id = 3))
      = some ⟨3, "Line 3", "idle", some "Spring Mix", 15⟩ ∧
    (completeBunch "worker@farm.example" sampleClient.productionLines
        (completeBunch "worker@farm.example" sampleClient.productionLines sampleStore "BUN100" 3
          (.ok 1) (.ok 0) (.ok 0)).store "BUN101" 3
        (.ok 2) (.ok 0) (.ok 0)).store.production_lines
      = sampleStore.production_lines.map
          (fun l => if l.id = 3 then { l with produced_count := 15 + 1 } else l) :=
  ⟨by decide,
   (completeBunch_lost_increment "worker@farm.example" sampleClient.productionLines sampleStore
      "BUN100" "BUN101" 3 1 0 2 0 (.ok 0) (.ok 0) ⟨3, "Line 3", "idle", some "Spring Mix", 15⟩
      (by decide)).2.1⟩

/-! ## The password check -/

theorem jsLength_of_basic (s : String) (h : ∀ c ∈ s.toList, c.toNat < 65536) :
    jsLength s = s.length := by
  unfold jsLength
  have : ∀ l : List Char, (∀ c ∈ l, c.toNat < 65536) →
      (l.map (fun c => if c.toNat < 65536 then 1 else 2)).sum = l.length := by
    intro l
    induction l with
    | nil => intro _; rfl
    | cons a l ih =>
      intro hl
      have ha : a.toNat < 65536 := hl a (by simp)
      simp only [List.map_cons, List.sum_cons, List.length_cons, if_pos ha]
      rw [ih (fun c hc => hl c (by simp [hc]))]
      omega
  exact this s.toList h

/-- C26: for every password whose length, counted as JavaScript counts it (in
UTF-16 code units, which for a password of characters below U+10000 is its
number of characters), is less than 6, submitting the form in either mode sets
the error `Password must be at least 6 characters`, calls neither `signIn` nor
`signUp` and sends no request to the identity backend; the rest of the form is
as it was. -/
theorem handleAuth_short_password (st : AuthState) (backend : Option String)
    (h : jsLength st.password < 6 ∨
      ((∀ c ∈ st.password.toList, c.toNat < 65536) ∧ st.password.length < 6)) :
    handleAuth st backend
      = ⟨{ st with authError := "Password must be at least 6 characters" }, [], [], []⟩ := by
  have hlen : jsLength st.password < 6 := by
    rcases h with h | ⟨hb, h⟩
    · exact h
    · rw [jsLength_of_basic _ hb]
      exact h
  unfold handleAuth
  simp only [hlen, if_true]

theorem handleAuth_short_password_witness :
    (jsLength "abc12" < 6 ∨
      ((∀ c ∈ "abc12".toList, c.toNat < 65536) ∧ "abc12".length < 6)) ∧
    handleAuth ⟨"signup", "worker@farm.example", "abc12", ""⟩ none
      = ⟨⟨"signup", "worker@farm.example", "abc12", "Password must be at least 6 characters"⟩,
          [], [], []⟩ :=
  ⟨Or.inl (by decide),
   handleAuth_short_password ⟨"signup", "worker@farm.example", "abc12", ""⟩ none
    (Or.inl (by decide))⟩

/-! ## The activity log -/

theorem addToInventory_wrong_field_count_aux (user_email : String) (now : Nat) (s : Store)
    (barcode : String) (r rl : Reply) (h : (split barcode '|').length ≠ 4) :
    addToInventory user_email now s barcode r rl
      = ⟨s, [], ["Invalid barcode format. Expected: TYPE|COLOR|QUANTITY|UNIT"]⟩ := by
  simp [addToInventory, h]

theorem saveRecipe_rejected_aux (user_email : String) (now : Nat) (recipes : List Recipe)
    (showRecipeModal : Bool) (form : RecipeForm) (s : Store) (r rl : Reply)
    (h : (∀ c ∈ form.name.toList, isWhiteSpace c = true) ∨ form.flowers = [] ∨
      (∀ f ∈ form.flowers, f.type = "" ∨ f.color = "" ∨ f.quantity = "")) :
    saveRecipe user_email now recipes showRecipeModal form s r rl
      = ⟨s, [], ["Please enter a recipe name"], showRecipeModal, form⟩ ∨
    saveRecipe user_email now recipes showRecipeModal form s r rl
      = ⟨s, [], ["Please add at least one flower"], showRecipeModal, form⟩ := by
  by_cases hname : trim form.name = ""
  · left
    simp [saveRecipe, hname]
  · right
    have hall : ∀ f ∈ form.flowers, f.type = "" ∨ f.color = "" ∨ f.quantity = "" := by
      rcases h with h | h | h
      · exact absurd (trim_blank _ h) hname
      · rw [h]
        intro f hf
        exact absurd hf (List.not_mem_nil _)
      · exact h
    have hfil : form.flowers.filter (fun f =>
        decide (f.type ≠ "") && decide (f.color ≠ "") && decide (f.quantity ≠ "")) = [] := by
      rw [List.filter_eq_nil_iff]
      intro f hf
      rcases hall f hf with h1 | h1 | h1 <;> simp [h1]
    unfold saveRecipe
    rw [if_neg hname]
    simp only []
    rw [hfil]
    rfl

theorem logActivity_log (user_email : String) (s : Store) (a d : String)
    (m : List (String × Value)) (rl : Reply) :
    (logActivity user_email s a d m rl).activity_log
      = s.activity_log ++ (match rl with
          | .ok _ => [⟨a, d, user_email, m⟩]
          | .error _ => []) := by
  cases rl <;> simp [logActivity]

theorem head_of_append (p m : String) (c : Char) (h : p.data.head? = some c) :
    (p ++ m).data.head? = some c := by
  rw [String.data_append]
  cases hp : p.data with
  | nil => rw [hp] at h; exact absurd h (by simp)
  | cons a as => rw [hp] at h; simpa using h

theorem split_length_four (barcode : String) (h : (split barcode '|').length = 4) :
    ∃ T C Q U, split barcode '|' = [T, C, Q, U] := by
  match hl : split barcode '|', h with
  | [T, C, Q, U], _ => exact ⟨T, C, Q, U, rfl⟩

/-- C24, as stated, fails: the store accepts the update of `checkoutBox` and
rejects the activity insert; the operation reports success and no activity
entry has been appended. -/
theorem checkoutBox_log_rejected_counterexample :
    (checkoutBox "worker@farm.example" sampleStore "BOX1700000000000" (.ok 0)
        (.error "network")).alerts = ["✓ Box BOX1700000000000 checked out!"] ∧
    (checkoutBox "worker@farm.example" sampleStore "BOX1700000000000" (.ok 0)
        (.error "network")).store.activity_log = sampleStore.activity_log := by
  decide

theorem logActivity_log_cases (user_email : String) (s : Store) (a d : String)
    (m : List (String × Value)) (rl : Reply) :
    (∀ i, rl = .ok i →
      (logActivity user_email s a d m rl).activity_log
        = s.activity_log ++ [⟨a, d, user_email, m⟩]) ∧
    (∀ message, rl = .error message →
      (logActivity user_email s a d m rl).activity_log = s.activity_log) := by
  constructor
  · intro i h
    subst h
    rfl
  · intro message h
    subst h
    rfl

/-- C24, amended: each of the five operations shows one message.  When it is
the success message (it starts with the check mark) the operation has issued
exactly one activity insert, with its own action type and the user: one entry
is appended when the store accepts that insert and none when the store rejects
it, which the operation does not report.  When it is a failure message no
activity entry is appended. -/
theorem activity_log_per_operation (user_email : String) (s : Store) (now : Nat)
    (barcode boxId token : String) (L : Nat) (cache : List Line) (recipes : List Recipe)
    (showRecipeModal : Bool) (form : RecipeForm) (r r1 r2 r3 rl : Reply)
    (alerts : List String) (s1 : Store) (actionType : String)
    (h : (alerts = (addToInventory user_email now s barcode r rl).alerts ∧
          s1 = (addToInventory user_email now s barcode r rl).store ∧
          actionType = "ADD_INVENTORY") ∨
      (alerts = (checkoutBox user_email s boxId r rl).alerts ∧
          s1 = (checkoutBox user_email s boxId r rl).store ∧
          actionType = "CHECKOUT") ∨
      (alerts = (assignToLine user_email s boxId L r1 r2 r3 rl).alerts ∧
          s1 = (assignToLine user_email s boxId L r1 r2 r3 rl).store ∧
          actionType = "ASSIGN_TO_LINE") ∨
      (alerts = (completeBunch user_email cache s token L r1 r2 rl).alerts ∧
          s1 = (completeBunch user_email cache s token L r1 r2 rl).store ∧
          actionType = "COMPLETE_BUNCH") ∨
      (alerts = (saveRecipe user_email now recipes showRecipeModal form s r rl).alerts ∧
          s1 = (saveRecipe user_email now recipes showRecipeModal form s r rl).store ∧
          actionType = "CREATE_RECIPE")) :
    ∃ msg : String, alerts = [msg] ∧
      ((msg.data.head? = some '✓' ∧
        ∃ e : Activity, e.action_type = actionType ∧ e.user_email = user_email ∧
          (∀ i, rl = .ok i → s1.activity_log = s.activity_log ++ [e]) ∧
          (∀ message, rl = .error message → s1.activity_log = s.activity_log)) ∨
       (msg.data.head? ≠ some '✓' ∧ s1.activity_log = s.activity_log)) := by
  rcases h with ⟨ha, hs, ht⟩ | ⟨ha, hs, ht⟩ | ⟨ha, hs, ht⟩ | ⟨ha, hs, ht⟩ | ⟨ha, hs, ht⟩
  · subst ha hs ht
    by_cases h4 : (split barcode '|').length = 4
    · obtain ⟨T, C, Q, U, hsp⟩ := split_length_four barcode h4
      rw [addToInventory_of_split user_email now s barcode T C Q U r rl hsp]
      cases r with
      | error m =>
        refine ⟨_, rfl, Or.inr ⟨?_, rfl⟩⟩
        rw [head_of_append "Error adding to inventory: " m 'E' rfl]
        decide
      | ok i =>
        refine ⟨_, rfl, Or.inl ⟨?_, _, rfl, rfl, logActivity_log_cases _ _ _ _ _ _⟩⟩
        have e : "✓ Added " ++ T ++ " - " ++ C ++ " to inventory!"
            = "✓ Added " ++ (T ++ " - " ++ C ++ " to inventory!") := by
          simp [String.append_assoc]
        rw [e]
        exact head_of_append "✓ Added " _ '✓' rfl
    · rw [addToInventory_wrong_field_count_aux user_email now s barcode r rl h4]
      exact ⟨_, rfl, Or.inr ⟨by decide, rfl⟩⟩
  · subst ha hs ht
    cases r with
    | error m =>
      refine ⟨"Box not found or error: " ++ m, rfl, Or.inr ⟨?_, rfl⟩⟩
      rw [head_of_append "Box not found or error: " m 'B' rfl]
      decide
    | ok i =>
      refine ⟨"✓ Box " ++ boxId ++ " checked out!", rfl,
        Or.inl ⟨?_, _, rfl, rfl, logActivity_log_cases _ _ _ _ _ _⟩⟩
      rw [String.append_assoc]
      exact head_of_append "✓ Box " _ '✓' rfl
  · subst ha hs ht
    cases r1 with
    | error m =>
      refine ⟨"Box not found: " ++ m, rfl, Or.inr ⟨?_, rfl⟩⟩
      rw [head_of_append "Box not found: " m 'B' rfl]
      decide
    | ok i1 =>
      cases r2 with
      | error m =>
        refine ⟨"Error assigning to line: " ++ m, rfl, Or.inr ⟨?_, rfl⟩⟩
        rw [head_of_append "Error assigning to line: " m 'E' rfl]
        decide
      | ok i2 =>
        refine ⟨"✓ Box " ++ boxId ++ " assigned to Line " ++ numberToString L ++ "!", rfl,
          Or.inl ⟨?_, ⟨"ASSIGN_TO_LINE",
            "Assigned box " ++ boxId ++ " to Line " ++ numberToString L, user_email,
            [("boxId", .str boxId), ("lineId", .num L)]⟩, rfl, rfl, ?_⟩⟩
        · rw [String.append_assoc, String.append_assoc, String.append_assoc]
          exact head_of_append "✓ Box " _ '✓' rfl
        · cases r3 <;> exact logActivity_log_cases _ _ _ _ _ _
  · subst ha hs ht
    cases r1 with
    | error m =>
      refine ⟨"Error recording bunch: " ++ m, rfl, Or.inr ⟨?_, rfl⟩⟩
      rw [head_of_append "Error recording bunch: " m 'E' rfl]
      decide
    | ok i1 =>
      refine ⟨"✓ Bunch " ++ token ++ " completed on Line " ++ numberToString L ++ "!", rfl,
        Or.inl ⟨?_, ⟨"COMPLETE_BUNCH",
          "Completed bunch " ++ token ++ " on Line " ++ numberToString L, user_email,
          [("bunchBarcode", .str token), ("lineId", .num L)]⟩, rfl, rfl, ?_⟩⟩
      · rw [String.append_assoc, String.append_assoc, String.append_assoc]
        exact head_of_append "✓ Bunch " _ '✓' rfl
      · cases r2 <;> exact logActivity_log_cases _ _ _ _ _ _
  · subst ha hs ht
    by_cases hname : trim form.name = ""
    · have : saveRecipe user_email now recipes showRecipeModal form s r rl
          = ⟨s, [], ["Please enter a recipe name"], showRecipeModal, form⟩ := by
        simp [saveRecipe, hname]
      rw [this]
      exact ⟨_, rfl, Or.inr ⟨by decide, rfl⟩⟩
    · by_cases hvalid : ∃ f ∈ form.flowers, f.type ≠ "" ∧ f.color ≠ "" ∧ f.quantity ≠ ""
      · rw [saveRecipe_of_valid user_email now recipes showRecipeModal form s r rl hname hvalid]
        cases r with
        | error m =>
          refine ⟨"Error creating recipe: " ++ m, rfl, Or.inr ⟨?_, rfl⟩⟩
          rw [head_of_append "Error creating recipe: " m 'E' rfl]
          decide
        | ok i =>
          refine ⟨"✓ Recipe \"" ++ form.name ++ "\" created!", rfl,
            Or.inl ⟨?_, _, rfl, rfl, logActivity_log_cases _ _ _ _ _ _⟩⟩
          rw [String.append_assoc]
          exact head_of_append "✓ Recipe \"" _ '✓' rfl
      · have hall : (∀ c ∈ form.name.toList, isWhiteSpace c = true) ∨ form.flowers = [] ∨
            (∀ f ∈ form.flowers, f.type = "" ∨ f.color = "" ∨ f.quantity = "") := by
          refine Or.inr (Or.inr ?_)
          intro f hf
          by_contra hcon
          push_neg at hcon
          exact hvalid ⟨f, hf, hcon⟩
        rcases saveRecipe_rejected_aux user_email now recipes showRecipeModal form s r rl hall
          with h1 | h1 <;> rw [h1]
        · exact ⟨_, rfl, Or.inr ⟨by decide, rfl⟩⟩
        · exact ⟨_, rfl, Or.inr ⟨by decide, rfl⟩⟩

theorem activity_log_per_operation_witness :
    ∃ msg : String,
      (checkoutBox "worker@farm.example" sampleStore "BOX1700000000000" (.ok 0) (.ok 0)).alerts
        = [msg] ∧
      ((msg.data.head? = some '✓' ∧
        ∃ e : Activity, e.action_type = "CHECKOUT" ∧ e.user_email = "worker@farm.example" ∧
          (∀ i, (Reply.ok 0) = .ok i →
            (checkoutBox "worker@farm.example" sampleStore "BOX1700000000000" (.ok 0)
              (.ok 0)).store.activity_log = sampleStore.activity_log ++ [e]) ∧
          (∀ message, (Reply.ok 0) = .error message →
            (checkoutBox "worker@farm.example" sampleStore "BOX1700000000000" (.ok 0)
              (.ok 0)).store.activity_log = sampleStore.activity_log)) ∨
       (msg.data.head? ≠ some '✓' ∧
        (checkoutBox "worker@farm.example" sampleStore "BOX1700000000000" (.ok 0)
          (.ok 0)).store.activity_log = sampleStore.activity_log)) :=
  activity_log_per_operation "worker@farm.example" sampleStore 9 "" "BOX1700000000000" "" 3
    [] [] false ⟨"", []⟩ (.ok 0) (.ok 0) (.ok 0) (.ok 0) (.ok 0)
    (checkoutBox "worker@farm.example" sampleStore "BOX1700000000000" (.ok 0) (.ok 0)).alerts
    (checkoutBox "worker@farm.example" sampleStore "BOX1700000000000" (.ok 0) (.ok 0)).store
    "CHECKOUT" (Or.inr (Or.inl ⟨rfl, rfl, rfl⟩))

/-! ## Attribution -/

theorem mem_updateWhere_or {α : Type} (rows : List α) (p : α → Bool) (f : α → α)
    (P : α → Prop) (hP : ∀ x, P (f x)) : ∀ y ∈ updateWhere rows p f, y ∈ rows ∨ P y := by
  intro y hy
  obtain ⟨x, hx, rfl⟩ := List.mem_map.mp hy
  by_cases hpx : p x = true
  · simp only [hpx, if_true]
    exact Or.inr (hP x)
  · simp only [hpx]
    exact Or.inl hx

theorem mem_append_singleton_or {α : Type} (rows : List α) (row : α) (P : α → Prop)
    (hP : P row) : ∀ y ∈ rows ++ [row], y ∈ rows ∨ P y := by
  intro y hy
  rcases List.mem_append.mp hy with h | h
  · exact Or.inl h
  · rw [List.mem_singleton.mp h]
    exact Or.inr hP

theorem logActivity_entries (user_email : String) (s : Store) (a d : String)
    (m : List (String × Value)) (rl : Reply) :
    ∀ e ∈ (logActivity user_email s a d m rl).activity_log,
      e ∈ s.activity_log ∨ e.user_email = user_email := by
  cases rl with
  | ok i => exact mem_append_singleton_or _ _ (fun e : Activity => e.user_email = user_email) rfl
  | error msg => exact fun e he => Or.inl he

/-- C25: every Box, LineAssignment, ProducedBunch, Recipe and activity-log row
that one of the five operations writes carries the email of the signed-in user
in its attribution field: whatever the store answers, a row of these tables
after the operation either was there before, unchanged, or has `updated_by`,
`assigned_by`, `produced_by`, `created_by` or `user_email` equal to the user. -/
theorem records_carry_user (user_email : String) (s : Store) (now : Nat)
    (barcode boxId token : String) (L : Nat) (cache : List Line) (recipes : List Recipe)
    (showRecipeModal : Bool) (form : RecipeForm) (r r1 r2 r3 rl : Reply) (s1 : Store)
    (h : s1 = (addToInventory user_email now s barcode r rl).store ∨
      s1 = (checkoutBox user_email s boxId r rl).store ∨
      s1 = (assignToLine user_email s boxId L r1 r2 r3 rl).store ∨
      s1 = (completeBunch user_email cache s token L r1 r2 rl).store ∨
      s1 = (saveRecipe user_email now recipes showRecipeModal form s r rl).store) :
    (∀ b ∈ s1.inventory, b ∈ s.inventory ∨ b.updated_by = user_email) ∧
    (∀ it ∈ s1.production_line_items,
      it ∈ s.production_line_items ∨ it.assigned_by = user_email) ∧
    (∀ bn ∈ s1.produced_bunches, bn ∈ s.produced_bunches ∨ bn.produced_by = user_email) ∧
    (∀ rc ∈ s1.recipes, rc ∈ s.recipes ∨ rc.created_by = user_email) ∧
    (∀ a ∈ s1.activity_log, a ∈ s.activity_log ∨ a.user_email = user_email) := by
  have same : (∀ b ∈ s.inventory, b ∈ s.inventory ∨ b.updated_by = user_email) ∧
      (∀ it ∈ s.production_line_items,
        it ∈ s.production_line_items ∨ it.assigned_by = user_email) ∧
      (∀ bn ∈ s.produced_bunches, bn ∈ s.produced_bunches ∨ bn.produced_by = user_email) ∧
      (∀ rc ∈ s.recipes, rc ∈ s.recipes ∨ rc.created_by = user_email) ∧
      (∀ a ∈ s.activity_log, a ∈ s.activity_log ∨ a.user_email = user_email) :=
    ⟨fun _ h => Or.inl h, fun _ h => Or.inl h, fun _ h => Or.inl h, fun _ h => Or.inl h,
      fun _ h => Or.inl h⟩
  rcases h with h | h | h | h | h
  · subst h
    by_cases h4 : (split barcode '|').length = 4
    · obtain ⟨T, C, Q, U, hsp⟩ := split_length_four barcode h4
      rw [addToInventory_of_split user_email now s barcode T C Q U r rl hsp]
      cases r with
      | error m => exact same
      | ok i =>
        obtain ⟨t1, t2, t3, t4, t5⟩ := logActivity_tables user_email
          { s with
            inventory := s.inventory ++
              [{ id := i, box_id := "BOX" ++ numberToString now, flower_type := T, color := C,
                 quantity := parseInt Q, unit := toLowerCase U, location := "inventory",
                 updated_by := user_email }] }
          "ADD_INVENTORY" ("Added " ++ T ++ " " ++ C ++ " to inventory")
          [("barcode", .str barcode)] rl
        refine ⟨?_, ?_, ?_, ?_, logActivity_entries _ _ _ _ _ _⟩
        · simp only [t1]
          exact mem_append_singleton_or _ _ (fun b : Box => b.updated_by = user_email) rfl
        · simp only [t5]
          exact fun _ h => Or.inl h
        · simp only [t4]
          exact fun _ h => Or.inl h
        · simp only [t3]
          exact fun _ h => Or.inl h
    · rw [addToInventory_wrong_field_count_aux user_email now s barcode r rl h4]
      exact same
  · subst h
    cases r with
    | error m => exact same
    | ok i =>
      obtain ⟨t1, t2, t3, t4, t5⟩ := logActivity_tables user_email
        { s with
          inventory := updateWhere s.inventory (fun b => decide (b.box_id = boxId))
            (fun b => { b with location := "checked-out", updated_by := user_email }) }
        "CHECKOUT" ("Checked out box " ++ boxId) [("boxId", .str boxId)] rl
      refine ⟨?_, ?_, ?_, ?_, logActivity_entries _ _ _ _ _ _⟩
      · simp only [checkoutBox, t1]
        exact mem_updateWhere_or _ _ _ (fun b : Box => b.updated_by = user_email) (fun _ => rfl)
      · simp only [checkoutBox, t5]
        exact fun _ h => Or.inl h
      · simp only [checkoutBox, t4]
        exact fun _ h => Or.inl h
      · simp only [checkoutBox, t3]
        exact fun _ h => Or.inl h
  · subst h
    cases r1 with
    | error m => exact same
    | ok i1 =>
      cases r2 with
      | error m =>
        refine ⟨?_, fun _ h => Or.inl h, fun _ h => Or.inl h, fun _ h => Or.inl h,
          fun _ h => Or.inl h⟩
        exact mem_updateWhere_or _ _ _ (fun b : Box => b.updated_by = user_email) (fun _ => rfl)
      | ok i2 =>
        refine ⟨?_, ?_, ?_, ?_, ?_⟩
        · cases r3 <;> simp only [assignToLine, (logActivity_tables _ _ _ _ _ _).1] <;>
            exact mem_updateWhere_or _ _ _ (fun b : Box => b.updated_by = user_email) (fun _ => rfl)
        · cases r3 <;> simp only [assignToLine, (logActivity_tables _ _ _ _ _ _).2.2.2.2] <;>
            exact mem_append_singleton_or _ _ (fun it : LineItem => it.assigned_by = user_email) rfl
        · cases r3 <;> simp only [assignToLine, (logActivity_tables _ _ _ _ _ _).2.2.2.1] <;>
            exact fun _ h => Or.inl h
        · cases r3 <;> simp only [assignToLine, (logActivity_tables _ _ _ _ _ _).2.2.1] <;>
            exact fun _ h => Or.inl h
        · cases r3 <;> exact logActivity_entries _ _ _ _ _ _
  · subst h
    cases r1 with
    | error m => exact same
    | ok i1 =>
      refine ⟨?_, ?_, ?_, ?_, ?_⟩
      · cases r2 <;> simp only [completeBunch, (logActivity_tables _ _ _ _ _ _).1] <;>
          exact fun _ h => Or.inl h
      · cases r2 <;> simp only [completeBunch, (logActivity_tables _ _ _ _ _ _).2.2.2.2] <;>
          exact fun _ h => Or.inl h
      · cases r2 <;> simp only [completeBunch, (logActivity_tables _ _ _ _ _ _).2.2.2.1] <;>
          exact mem_append_singleton_or _ _ (fun bn : Bunch => bn.produced_by = user_email) rfl
      · cases r2 <;> simp only [completeBunch, (logActivity_tables _ _ _ _ _ _).2.2.1] <;>
          exact fun _ h => Or.inl h
      · cases r2 <;> exact logActivity_entries _ _ _ _ _ _
  · subst h
    by_cases hname : trim form.name = ""
    · have : saveRecipe user_email now recipes showRecipeModal form s r rl
          = ⟨s, [], ["Please enter a recipe name"], showRecipeModal, form⟩ := by
        simp [saveRecipe, hname]
      rw [this]
      exact same
    · by_cases hvalid : ∃ f ∈ form.flowers, f.type ≠ "" ∧ f.color ≠ "" ∧ f.quantity ≠ ""
      · rw [saveRecipe_of_valid user_email now recipes showRecipeModal form s r rl hname hvalid]
        cases r with
        | error m => exact same
        | ok i =>
          refine ⟨?_, ?_, ?_, ?_, logActivity_entries _ _ _ _ _ _⟩
          · simp only [(logActivity_tables _ _ _ _ _ _).1]
            exact fun _ h => Or.inl h
          · simp only [(logActivity_tables _ _ _ _ _ _).2.2.2.2]
            exact fun _ h => Or.inl h
          · simp only [(logActivity_tables _ _ _ _ _ _).2.2.2.1]
            exact fun _ h => Or.inl h
          · simp only [(logActivity_tables _ _ _ _ _ _).2.2.1]
            exact mem_append_singleton_or _ _ (fun rc : Recipe => rc.created_by = user_email) rfl
      · have hall : (∀ c ∈ form.name.toList, isWhiteSpace c = true) ∨ form.flowers = [] ∨
            (∀ f ∈ form.flowers, f.type = "" ∨ f.color = "" ∨ f.quantity = "") := by
          refine Or.inr (Or.inr ?_)
          intro f hf
          by_contra hcon
          push_neg at hcon
          exact hvalid ⟨f, hf, hcon⟩
        rcases saveRecipe_rejected_aux user_email now recipes showRecipeModal form s r rl hall
          with h1 | h1 <;> rw [h1] <;> exact same

theorem records_carry_user_witness :
    (∀ b ∈ (assignToLine "worker@farm.example" sampleStore "BOX1700000000000" 3 (.ok 0) (.ok 11)
        (.ok 0) (.ok 0)).store.inventory,
      b ∈ sampleStore.inventory ∨ b.updated_by = "worker@farm.example") ∧
    (∀ it ∈ (assignToLine "worker@farm.example" sampleStore "BOX1700000000000" 3 (.ok 0) (.ok 11)
        (.ok 0) (.ok 0)).store.production_line_items,
      it ∈ sampleStore.production_line_items ∨ it.assigned_by = "worker@farm.example") :=
  have h := records_carry_user "worker@farm.example" sampleStore 9 "" "BOX1700000000000" "" 3
    [] [] false ⟨"", []⟩ (.ok 0) (.ok 0) (.ok 11) (.ok 0) (.ok 0)
    (assignToLine "worker@farm.example" sampleStore "BOX1700000000000" 3 (.ok 0) (.ok 11)
      (.ok 0) (.ok 0)).store (Or.inr (Or.inr (Or.inl rfl)))
  ⟨h.1, h.2.1⟩

/-! ## The email pattern -/

theorem notSpaceAt_rmatch (t : List CharKind) :
    notSpaceAt.rmatch t ↔ t = [CharKind.dot] ∨ t = [CharKind.other] := by
  unfold notSpaceAt
  rw [RegularExpression.add_rmatch_iff, RegularExpression.char_rmatch_iff,
    RegularExpression.char_rmatch_iff]

theorem flatten_singletons {α : Type} (l : List α) : (l.map (fun x => [x])).flatten = l := by
  induction l with
  | nil => rfl
  | cons a l ih => simp [ih]

/-- A run `[^\s@]+` matches the non-empty texts of dots and other characters. -/
theorem run_rmatch (t : List CharKind) :
    (notSpaceAt * RegularExpression.star notSpaceAt).rmatch t
      ↔ t ≠ [] ∧ ∀ k ∈ t, k = CharKind.dot ∨ k = CharKind.other := by
  rw [RegularExpression.mul_rmatch_iff]
  constructor
  · rintro ⟨a, b, rfl, ha, hb⟩
    rw [notSpaceAt_rmatch] at ha
    rw [RegularExpression.star_rmatch_iff] at hb
    obtain ⟨S, rfl, hS⟩ := hb
    constructor
    · rcases ha with rfl | rfl <;> simp
    · intro k hk
      rcases List.mem_append.mp hk with h | h
      · rcases ha with rfl | rfl
        · exact Or.inl (List.mem_singleton.mp h)
        · exact Or.inr (List.mem_singleton.mp h)
      · obtain ⟨u, hu, hku⟩ := List.mem_flatten.mp h
        have hu2 := (hS u hu).2
        rw [notSpaceAt_rmatch] at hu2
        rcases hu2 with rfl | rfl
        · exact Or.inl (List.mem_singleton.mp hku)
        · exact Or.inr (List.mem_singleton.mp hku)
  · rintro ⟨hne, hall⟩
    match t, hne, hall with
    | k :: rest, _, hall =>
      refine ⟨[k], rest, rfl, ?_, ?_⟩
      · rw [notSpaceAt_rmatch]
        rcases hall k (by simp) with h | h <;> simp [h]
      · rw [RegularExpression.star_rmatch_iff]
        refine ⟨rest.map (fun x => [x]), (flatten_singletons rest).symm, ?_⟩
        intro u hu
        obtain ⟨x, hx, rfl⟩ := List.mem_map.mp hu
        refine ⟨by simp, ?_⟩
        rw [notSpaceAt_rmatch]
        rcases hall x (by simp [hx]) with h | h <;> simp [h]

theorem emailRegex_rmatch (w : List CharKind) :
    emailRegex.rmatch w ↔ ∃ a b c : List CharKind,
      w = a ++ CharKind.at :: (b ++ CharKind.dot :: c) ∧
      (a ≠ [] ∧ ∀ k ∈ a, k = CharKind.dot ∨ k = CharKind.other) ∧
      (b ≠ [] ∧ ∀ k ∈ b, k = CharKind.dot ∨ k = CharKind.other) ∧
      (c ≠ [] ∧ ∀ k ∈ c, k = CharKind.dot ∨ k = CharKind.other) := by
  unfold emailRegex
  constructor
  · intro h
    rw [RegularExpression.mul_rmatch_iff] at h
    obtain ⟨a, u1, rfl, ha, h1⟩ := h
    rw [RegularExpression.mul_rmatch_iff] at h1
    obtain ⟨x, u2, rfl, hx, h2⟩ := h1
    rw [RegularExpression.char_rmatch_iff] at hx
    rw [RegularExpression.mul_rmatch_iff] at h2
    obtain ⟨b, u3, rfl, hb, h3⟩ := h2
    rw [RegularExpression.mul_rmatch_iff] at h3
    obtain ⟨y, c, rfl, hy, hc⟩ := h3
    rw [RegularExpression.char_rmatch_iff] at hy
    subst hx hy
    exact ⟨a, b, c, by simp, (run_rmatch a).mp ha, (run_rmatch b).mp hb, (run_rmatch c).mp hc⟩
  · rintro ⟨a, b, c, rfl, ha, hb, hc⟩
    rw [RegularExpression.mul_rmatch_iff]
    refine ⟨a, _, rfl, (run_rmatch a).mpr ha, ?_⟩
    rw [RegularExpression.mul_rmatch_iff]
    refine ⟨[CharKind.at], b ++ CharKind.dot :: c, rfl,
      (RegularExpression.char_rmatch_iff _ _).mpr rfl, ?_⟩
    rw [RegularExpression.mul_rmatch_iff]
    refine ⟨b, CharKind.dot :: c, rfl, (run_rmatch b).mpr hb, ?_⟩
    rw [RegularExpression.mul_rmatch_iff]
    exact ⟨[CharKind.dot], c, rfl, (RegularExpression.char_rmatch_iff _ _).mpr rfl,
      (run_rmatch c).mpr hc⟩

theorem charKind_at (c : Char) : charKind c = CharKind.at ↔ c = '@' := by
  constructor
  · intro h
    by_contra h2
    unfold charKind at h
    by_cases h1 : isWhiteSpace c = true
    · rw [if_pos h1] at h
      exact absurd h (by decide)
    · rw [if_neg h1, if_neg h2] at h
      split at h <;> exact absurd h (by decide)
  · intro h
    subst h
    decide

theorem charKind_dot (c : Char) : charKind c = CharKind.dot ↔ c = '.' := by
  constructor
  · intro h
    by_contra h3
    unfold charKind at h
    by_cases h1 : isWhiteSpace c = true
    · rw [if_pos h1] at h
      exact absurd h (by decide)
    · rw [if_neg h1] at h
      by_cases h2 : c = '@'
      · rw [if_pos h2] at h
        exact absurd h (by decide)
      · rw [if_neg h2, if_neg h3] at h
        exact absurd h (by decide)
  · intro h
    subst h
    decide

theorem charKind_run (c : Char) :
    (charKind c = CharKind.dot ∨ charKind c = CharKind.other)
      ↔ (isWhiteSpace c = false ∧ c ≠ '@') := by
  unfold charKind
  by_cases h1 : isWhiteSpace c = true
  · rw [if_pos h1]
    constructor
    · intro h
      rcases h with h | h <;> exact absurd h (by decide)
    · intro h
      rw [h.1] at h1
      exact absurd h1 (by decide)
  · rw [if_neg h1]
    have hf : isWhiteSpace c = false := by
      cases hw : isWhiteSpace c with
      | true => exact absurd hw h1
      | false => rfl
    by_cases h2 : c = '@'
    · rw [if_pos h2]
      constructor
      · intro h
        rcases h with h | h <;> exact absurd h (by decide)
      · intro h
        exact absurd h2 h.2
    · rw [if_neg h2]
      constructor
      · intro _
        exact ⟨hf, h2⟩
      · intro _
        by_cases h3 : c = '.'
        · rw [if_pos h3]
          exact Or.inl rfl
        · rw [if_neg h3]
          exact Or.inr rfl

theorem run_of_map (A : List Char) :
    ((A.map charKind) ≠ [] ∧ ∀ k ∈ A.map charKind, k = CharKind.dot ∨ k = CharKind.other)
      ↔ (A ≠ [] ∧ ∀ c ∈ A, isWhiteSpace c = false ∧ c ≠ '@') := by
  constructor
  · rintro ⟨hne, hall⟩
    refine ⟨fun e => hne (by rw [e]; rfl), ?_⟩
    intro c hc
    exact (charKind_run c).mp (hall _ (List.mem_map.mpr ⟨c, hc, rfl⟩))
  · rintro ⟨hne, hall⟩
    refine ⟨fun e => hne (List.map_eq_nil_iff.mp e), ?_⟩
    intro k hk
    obtain ⟨c, hc, rfl⟩ := List.mem_map.mp hk
    exact (charKind_run c).mpr (hall c hc)

/-- The texts `isAllowedEmail` accepts: a non-empty run, `@`, a non-empty run,
`.`, a non-empty run, where a run holds neither white space nor `@`. -/
theorem isAllowedEmail_iff_runs (s : String) :
    isAllowedEmail s = true ↔ ∃ A B C : List Char,
      s.toList = A ++ '@' :: (B ++ '.' :: C) ∧
      (A ≠ [] ∧ ∀ c ∈ A, isWhiteSpace c = false ∧ c ≠ '@') ∧
      (B ≠ [] ∧ ∀ c ∈ B, isWhiteSpace c = false ∧ c ≠ '@') ∧
      (C ≠ [] ∧ ∀ c ∈ C, isWhiteSpace c = false ∧ c ≠ '@') := by
  unfold isAllowedEmail
  rw [emailRegex_rmatch]
  constructor
  · rintro ⟨a, b, c, hw, ha, hb, hc⟩
    obtain ⟨A, R1, hs, hA, hR1⟩ := List.map_eq_append_iff.mp hw
    obtain ⟨x, R2, hR1s, hx, hR2⟩ := List.map_eq_cons_iff.mp hR1
    obtain ⟨B, R3, hR2s, hB, hR3⟩ := List.map_eq_append_iff.mp hR2
    obtain ⟨y, C, hR3s, hy, hC⟩ := List.map_eq_cons_iff.mp hR3
    rw [charKind_at] at hx
    rw [charKind_dot] at hy
    subst hx hy hA hB hC hR1s hR2s hR3s
    exact ⟨A, B, C, hs, (run_of_map A).mp ha, (run_of_map B).mp hb, (run_of_map C).mp hc⟩
  · rintro ⟨A, B, C, hs, hA, hB, hC⟩
    refine ⟨A.map charKind, B.map charKind, C.map charKind, ?_, (run_of_map A).mpr hA,
      (run_of_map B).mpr hB, (run_of_map C).mpr hC⟩
    rw [hs]
    have h1 : charKind '@' = CharKind.at := by decide
    have h2 : charKind '.' = CharKind.dot := by decide
    simp [h1, h2]

/-- C29: `isAllowedEmail s` is true exactly when `s` holds no white space, holds
exactly one `@`, has at least one character before the `@`, and the part after
the `@` holds a `.` that is neither its first nor its last character. -/
theorem isAllowedEmail_iff (s : String) :
    isAllowedEmail s = true ↔
      (∀ c ∈ s.toList, isWhiteSpace c = false) ∧
      s.toList.count '@' = 1 ∧
      ∃ before after : List Char,
        s.toList = before ++ '@' :: after ∧ before ≠ [] ∧
        ∃ B C : List Char, after = B ++ '.' :: C ∧ B ≠ [] ∧ C ≠ [] := by
  rw [isAllowedEmail_iff_runs]
  have hdot : isWhiteSpace '.' = false := by decide
  have hat : isWhiteSpace '@' = false := by decide
  constructor
  · rintro ⟨A, B, C, hs, ⟨hA, hAc⟩, ⟨hB, hBc⟩, ⟨hC, hCc⟩⟩
    have cA : A.count '@' = 0 := List.count_eq_zero.mpr (fun h => (hAc _ h).2 rfl)
    have cB : B.count '@' = 0 := List.count_eq_zero.mpr (fun h => (hBc _ h).2 rfl)
    have cC : C.count '@' = 0 := List.count_eq_zero.mpr (fun h => (hCc _ h).2 rfl)
    refine ⟨?_, ?_, A, B ++ '.' :: C, hs, hA, B, C, rfl, hB, hC⟩
    · intro c hc
      rw [hs] at hc
      simp only [List.mem_append, List.mem_cons] at hc
      rcases hc with h | h | h | h | h
      · exact (hAc c h).1
      · rw [h]; exact hat
      · exact (hBc c h).1
      · rw [h]; exact hdot
      · exact (hCc c h).1
    · rw [hs]
      simp [List.count_append, List.count_cons, cA, cB, cC]
  · rintro ⟨hws, hcount, A, P, hs, hA, B, C, hP, hB, hC⟩
    subst hP
    rw [hs] at hcount
    simp only [List.count_append, List.count_cons, beq_self_eq_true, if_true] at hcount
    have hdotat : (('.' : Char) == '@') = false := by decide
    simp only [hdotat] at hcount
    have cA : A.count '@' = 0 := by omega
    have cB : B.count '@' = 0 := by omega
    have cC : C.count '@' = 0 := by omega
    have mem : ∀ c, c ∈ A ∨ c ∈ B ∨ c ∈ C → c ∈ s.toList := by
      intro c hc
      rw [hs]
      simp only [List.mem_append, List.mem_cons]
      rcases hc with h | h | h
      · exact Or.inl h
      · exact Or.inr (Or.inr (Or.inl h))
      · exact Or.inr (Or.inr (Or.inr (Or.inr h)))
    refine ⟨A, B, C, hs, ⟨hA, ?_⟩, ⟨hB, ?_⟩, ⟨hC, ?_⟩⟩
    · intro c hc
      exact ⟨hws c (mem c (Or.inl hc)), fun e => List.count_eq_zero.mp cA (e ▸ hc)⟩
    · intro c hc
      exact ⟨hws c (mem c (Or.inr (Or.inl hc))), fun e => List.count_eq_zero.mp cB (e ▸ hc)⟩
    · intro c hc
      exact ⟨hws c (mem c (Or.inr (Or.inr hc))), fun e => List.count_eq_zero.mp cC (e ▸ hc)⟩
end FlowerApp
